import Mathlib

/-!
# Mimir: ring token distributor driver, distributor push path, OTLP converter

A shallow embedding of

* `tools/analyse-unbalanced-series/ring_simulation_with_candidates.go`
  (the drivers `generateRingWithoutZoneAwareness` and `generateRingWithZoneAwareness`, and
  `main`),
* `pkg/distributor/push.go` (`RetryConfig.Validate`, `calculateRetryAfter`, `toHTTPStatus`,
  `addHeaders`, `handler`, `Handler`, `PruneTimeseries`),
* `pkg/distributor/otlp/metrics_to_prw_generated.go` (`isSameMetric`, `addSample`,
  `addExemplars`, `FromMetrics`),
* `pkg/ingester/ingester_activity.go` (the methods of `ActivityTrackerWrapper`),

together with a model of the `tokendistributor` package the drivers call.  That package is
not part of the sources at hand, so its model follows the written specification and every
definition of it says so.
-/

namespace Mimir

/-! ## The token distributor (package `tokendistributor`) -/

/-- Modelled from the spec: `tokendistributor.Token`, an unsigned position in `[0, maxToken]`
(the package is absent from the sources). -/
abbrev Token := Nat

/-- Modelled from the spec: `tokendistributor.Zone`, an opaque failure-domain label. -/
abbrev Zone := String

/-- Modelled from the spec: `tokendistributor.Instance`, an opaque cluster-member identifier. -/
abbrev Instance := String

/-- Modelled from the spec: the caller-visible errors of instance admission (§7);
`TokenDistributor.AddInstance` itself is absent from the sources. -/
inductive AdmitError where
  | DuplicateInstance
  | ZoneCountMismatch
  deriving DecidableEq

/-- Modelled from the spec: the internal-only error of `Ring.insert` (§4.1, §7). -/
inductive RingError where
  | TokenCollision
  deriving DecidableEq

/-- Modelled from the spec: the Ring (§3), an ordered sequence of (token, instance) pairs. -/
structure Ring where
  entries : List (Token × Instance)
  deriving DecidableEq

/-- Modelled from the spec: the tokens of a ring, in ring order. -/
def Ring.tokens (r : Ring) : List Token := r.entries.map Prod.fst

/-- Modelled from the spec: whether a token is already present in the ring. -/
def Ring.hasToken (r : Ring) (t : Token) : Bool := r.entries.any (fun e => e.1 == t)

/-- Modelled from the spec: whether an instance identifier is already present in the ring. -/
def Ring.hasInstance (r : Ring) (i : Instance) : Bool := r.entries.any (fun e => e.2 == i)

/-- Modelled from the spec: insertion into the flat sorted sequence, preserving sort order. -/
def insertSorted : List (Token × Instance) → Token → Instance → List (Token × Instance)
  | [], t, i => [(t, i)]
  | e :: es, t, i => if t < e.1 then (t, i) :: e :: es else e :: insertSorted es t i

/-- Modelled from the spec: `insert(token, instance)` (§4.1) fails with `TokenCollision` if the
token already exists; otherwise inserts preserving sort order. -/
def Ring.insert (r : Ring) (t : Token) (i : Instance) : Except RingError Ring :=
  if r.hasToken t then .error .TokenCollision else .ok ⟨insertSorted r.entries t i⟩

/-- Modelled from the spec: the ring walked clockwise from the smallest token `≥ t`, wrapping to
the first token (the circular successor search of §4.1). -/
def Ring.walkFrom (r : Ring) (t : Token) : List (Token × Instance) :=
  r.entries.filter (fun e => decide (t ≤ e.1)) ++ r.entries.filter (fun e => decide (e.1 < t))

/-- Modelled from the spec: `ownerOf(token)` (§4.1). -/
def Ring.ownerOf (r : Ring) (t : Token) : Option Instance := (r.walkFrom t).head?.map Prod.snd

/-- Modelled from the spec: `tokensOf(instance)` (§4.1), in ring order. -/
def Ring.tokensOf (r : Ring) (i : Instance) : List Token :=
  (r.entries.filter (fun e => e.2 == i)).map Prod.fst

/-- Modelled from the spec: the Replication Strategy variants (§4.2), each with its
replication factor. -/
inductive ReplicationStrategy where
  | Simple (replicationFactor : Nat)
  | ZoneAware (replicationFactor : Nat)
  deriving DecidableEq

/-- Modelled from the spec: the replication factor of a strategy. -/
def ReplicationStrategy.replicationFactor : ReplicationStrategy → Nat
  | .Simple rf => rf
  | .ZoneAware rf => rf

/-- Modelled from the spec: the Simple walk (§4.2) collects the next `rf` distinct instances,
ignoring zones. -/
def collectSimple (rf : Nat) : List (Token × Instance) → List Instance → List Instance
  | [], acc => acc
  | e :: es, acc =>
    if rf ≤ acc.length then acc
    else if e.2 ∈ acc then collectSimple rf es acc
    else collectSimple rf es (acc ++ [e.2])

/-- Modelled from the spec: one pass of the Zone-Aware walk (§4.2): an instance is included
only while its zone has fewer than `cap` selected replicas. -/
def collectZoneAware (zoneOf : Instance → Option Zone) (rf cap : Nat) :
    List (Token × Instance) → List Instance → List Instance
  | [], acc => acc
  | e :: es, acc =>
    if rf ≤ acc.length then acc
    else if e.2 ∈ acc ∨ cap ≤ (acc.filter (fun i => zoneOf i == zoneOf e.2)).length then
      collectZoneAware zoneOf rf cap es acc
    else collectZoneAware zoneOf rf cap es (acc ++ [e.2])

/-- Modelled from the spec: "compute replica set" (§4.2).  The zone-aware variant first takes one
replica per zone and repeats a zone only once every zone is represented equally often. -/
def ReplicationStrategy.replicaSet (s : ReplicationStrategy) (zoneOf : Instance → Option Zone)
    (r : Ring) (t : Token) : List Instance :=
  match s with
  | .Simple rf => collectSimple rf (r.walkFrom t) []
  | .ZoneAware rf =>
    (List.range rf).foldl (fun acc c => collectZoneAware zoneOf rf (c + 1) (r.walkFrom t) acc) []

/-- Modelled from the spec: the span of keyspace between each token and its predecessor
`prev`, walking the sorted sequence. -/
def spansFrom (prev : Token) : List (Token × Instance) → List (Token × Nat)
  | [] => []
  | x :: xs => (x.1, x.1 - prev) :: spansFrom x.1 xs

/-- Modelled from the spec: the span of keyspace ending at each token of the ring, the first
token wrapping around from the last one (circle of length `maxToken`). -/
def spans (maxToken : Token) : List (Token × Instance) → List (Token × Nat)
  | [] => []
  | e :: es =>
    (e.1, e.1 + maxToken - (((e :: es).getLast?.map Prod.fst).getD e.1)) :: spansFrom e.1 es

/-- Modelled from the spec: the Ownership Report (§3): for an instance, the sum over the tokens
it replicates of the span of keyspace of that token. -/
def ownershipOf (s : ReplicationStrategy) (zoneOf : Instance → Option Zone) (maxToken : Token)
    (r : Ring) (i : Instance) : Nat :=
  ((spans maxToken r.entries).map
    (fun ts => if i ∈ s.replicaSet zoneOf r ts.1 then ts.2 else 0)).sum

/-- Modelled from the spec: the instances present in the ring, each once, in ring order. -/
def Ring.instances (r : Ring) : List Instance := (r.entries.map Prod.snd).dedup

/-- Modelled from the spec: the Ownership Report as a list of (instance, ownership) pairs. -/
def ownershipReport (s : ReplicationStrategy) (zoneOf : Instance → Option Zone)
    (maxToken : Token) (r : Ring) : List (Instance × Nat) :=
  r.instances.map (fun i => (i, ownershipOf s zoneOf maxToken r i))

/-- Modelled from the spec: the balance objective of §4.4 step 2, the maximum ownership value
across instances (to be minimised). -/
def balanceObjective (s : ReplicationStrategy) (zoneOf : Instance → Option Zone)
    (maxToken : Token) (r : Ring) : Nat :=
  ((ownershipReport s zoneOf maxToken r).map Prod.snd).foldl max 0

/-- Modelled from the spec: the Seed Generator variants (§4.3). -/
inductive SeedGenerator where
  | EvenlySpaced (expectedInstanceCountPerZone : Nat)
  | Randomized
  deriving DecidableEq

/-- Modelled from the spec: the construction parameters of the Token Distributor (§6), with
the zones fixed at construction (`zoneCount` is their number) and the size of the candidate
pool. -/
structure Config where
  tokensPerInstance : Nat
  zones : List Zone
  maxToken : Token
  replicationStrategy : ReplicationStrategy
  seedGenerator : SeedGenerator
  candidatePoolSize : Nat
  deriving DecidableEq

/-- Modelled from the spec: `zoneCount` (§6). -/
def Config.zoneCount (c : Config) : Nat := c.zones.length

/-- Modelled from the spec: the state of a Token Distributor: the Ring, the zone of every
admitted instance, and the explicit caller-supplied random source (§5, §9), here the list of
the draws still to come. -/
structure TokenDistributor where
  cfg : Config
  ring : Ring
  zoneOf : List (Instance × Zone)
  rand : List Nat
  deriving DecidableEq

/-- Modelled from the spec: construction of a Token Distributor; the Ring is created empty
(§3, lifecycle). -/
def NewTokenDistributor (cfg : Config) (rand : List Nat) : TokenDistributor :=
  ⟨cfg, ⟨[]⟩, [], rand⟩

/-- Modelled from the spec: the zone an instance was admitted with. -/
def lookupZone (m : List (Instance × Zone)) (i : Instance) : Option Zone :=
  (m.find? (fun e => e.1 == i)).map Prod.snd

/-- Modelled from the spec: draw from the random source a token position of `[0, maxToken]`
that is not already present in the ring, resampling on a collision (§7, `TokenCollision`).
`none` when the source has no draw left. -/
def drawFresh (maxToken : Token) (r : Ring) : List Nat → Option (Token × List Nat)
  | [] => none
  | x :: src =>
    if r.hasToken (x % (maxToken + 1)) then drawFresh maxToken r src
    else some (x % (maxToken + 1), src)

/-- Modelled from the spec: sample a pool of `n` candidate token positions not already present
in the ring (§4.4 step 2). -/
def samplePool (maxToken : Token) (r : Ring) : Nat → List Nat → Option (List Token × List Nat)
  | 0, src => some ([], src)
  | n + 1, src =>
    match drawFresh maxToken r src with
    | none => none
    | some (t, src1) =>
      match samplePool maxToken r n src1 with
      | none => none
      | some (ts, src2) => some (t :: ts, src2)

/-- Modelled from the spec: the score of a candidate: the balance objective of the ring with
the candidate's insertion simulated (§4.4 step 2). -/
def scoreCandidate (s : ReplicationStrategy) (zoneOf : Instance → Option Zone)
    (maxToken : Token) (r : Ring) (i : Instance) (c : Token) : Nat :=
  match r.insert c i with
  | .ok r1 => balanceObjective s zoneOf maxToken r1
  | .error _ => balanceObjective s zoneOf maxToken r

/-- Modelled from the spec: the winning candidate of a pool: the one with the smallest
objective, the lowest token value winning ties (§9). -/
def bestCandidate (score : Token → Nat) : List Token → Option Token
  | [] => none
  | c :: cs =>
    match bestCandidate score cs with
    | none => some c
    | some b =>
      if score c < score b ∨ (score c = score b ∧ c ≤ b) then some c else some b

/-- Modelled from the spec: insert one proposed token for the instance; on `TokenCollision`
resample from the random source and insert the fresh position instead (§7). -/
def placeToken (maxToken : Token) (r : Ring) (i : Instance) (t : Token) (src : List Nat) :
    Option (Ring × Token × List Nat) :=
  match r.insert t i with
  | .ok r1 => some (r1, t, src)
  | .error _ =>
    match drawFresh maxToken r src with
    | none => none
    | some (t1, src1) =>
      match r.insert t1 i with
      | .ok r1 => some (r1, t1, src1)
      | .error _ => none

/-- Modelled from the spec: the tokens proposed by the Seed Generator (§4.3): evenly spaced at
intervals of `maxToken / (tokensPerInstance × expectedInstanceCountPerZone)`, or drawn from the
random source. -/
def seedProposal (cfg : Config) (k : Nat) (src : List Nat) : Option (Token × List Nat) :=
  match cfg.seedGenerator with
  | .EvenlySpaced n => some (k * (cfg.maxToken / (cfg.tokensPerInstance * n)), src)
  | .Randomized =>
    match src with
    | [] => none
    | x :: src1 => some (x % (cfg.maxToken + 1), src1)

/-- Modelled from the spec: §4.4 step 1, seeding: produce the remaining `n` of the
`tokensPerInstance` seed tokens and insert them directly. -/
def seedTokens (cfg : Config) (i : Instance) :
    Nat → Ring → List Nat → Option (Ring × List Token × List Nat)
  | 0, r, src => some (r, [], src)
  | n + 1, r, src =>
    match seedProposal cfg (cfg.tokensPerInstance - (n + 1)) src with
    | none => none
    | some (t, src1) =>
      match placeToken cfg.maxToken r i t src1 with
      | none => none
      | some (r1, t1, src2) =>
        match seedTokens cfg i n r1 src2 with
        | none => none
        | some (r2, ts, src3) => some (r2, t1 :: ts, src3)

/-- Modelled from the spec: §4.4 step 2, the candidate-based search, repeated for the
remaining `n` tokens: sample a pool, pick the best candidate, insert it immediately so that the
next candidates are scored against the updated ring. -/
def candidateSearch (cfg : Config) (zoneOf : Instance → Option Zone) (i : Instance) :
    Nat → Ring → List Nat → Option (Ring × List Token × List Nat)
  | 0, r, src => some (r, [], src)
  | n + 1, r, src =>
    match samplePool cfg.maxToken r cfg.candidatePoolSize src with
    | none => none
    | some (pool, src1) =>
      match bestCandidate
          (scoreCandidate cfg.replicationStrategy zoneOf cfg.maxToken r i) pool with
      | none => none
      | some c =>
        match placeToken cfg.maxToken r i c src1 with
        | none => none
        | some (r1, t1, src2) =>
          match candidateSearch cfg zoneOf i n r1 src2 with
          | none => none
          | some (r2, ts, src3) => some (r2, t1 :: ts, src3)

/-- Modelled from the spec: what a successful admission returns (§4.4 step 4): the tokens added,
the tokens whose replica set changed, and the refreshed Ownership Report. -/
structure AdmitResult where
  addedTokens : List Token
  reassignedTokens : List Token
  ownership : List (Instance × Nat)
  deriving DecidableEq

/-- Modelled from the spec: whether the ring has no token yet for the zone (§4.4 step 1). -/
def zoneIsEmpty (zoneOf : Instance → Option Zone) (r : Ring) (z : Zone) : Bool :=
  r.entries.all (fun e => zoneOf e.2 != some z)

/-- Modelled from the spec: instance admission, `AddInstance` (`admit`, §4.4).  The result pairs
the distributor after the call with what the call returned; `none` stands for a random source
that ran dry while resampling, where the model gives no result.  Failure is reported before
any mutation. -/
def TokenDistributor.AddInstance (td : TokenDistributor) (i : Instance) (z : Zone) :
    Option (TokenDistributor × Except AdmitError AdmitResult) :=
  if td.ring.hasInstance i then some (td, .error .DuplicateInstance)
  else if z ∉ td.cfg.zones then some (td, .error .ZoneCountMismatch)
  else
    let zoneOf := lookupZone ((i, z) :: td.zoneOf)
    let placed :=
      if zoneIsEmpty zoneOf td.ring z then
        seedTokens td.cfg i td.cfg.tokensPerInstance td.ring td.rand
      else candidateSearch td.cfg zoneOf i td.cfg.tokensPerInstance td.ring td.rand
    match placed with
    | none => none
    | some (r1, added, src1) =>
      let s := td.cfg.replicationStrategy
      some (⟨td.cfg, r1, (i, z) :: td.zoneOf, src1⟩,
        .ok ⟨added,
          td.ring.tokens.filter (fun t =>
            s.replicaSet zoneOf r1 t != s.replicaSet (lookupZone td.zoneOf) td.ring t),
          ownershipReport s zoneOf td.cfg.maxToken r1⟩)

/-- Modelled from the spec: a sequence of successful admissions, one `AddInstance` call per
(instance, zone) pair; `none` as soon as an admission does not succeed. -/
def admitAll (td : TokenDistributor) : List (Instance × Zone) → Option TokenDistributor
  | [] => some td
  | (i, z) :: calls =>
    match td.AddInstance i z with
    | some (td1, .ok _) => admitAll td1 calls
    | _ => none

/-! ## The ring simulation driver (`ring_simulation_with_candidates.go`) -/

/-- The constant `maxTokenValue = tokdistr.Token(math.MaxUint32)`. -/
def maxTokenValue : Token := 4294967295

/-- The constant `initialInstanceCount`. -/
def initialInstanceCount : Int := 66

/-- The constant `iterations`. -/
def iterations : Nat := 10

/-- Go's `int` and `int64` are 64 bits wide: the value an integer expression wraps around to. -/
def wrapInt64 (x : Int) : Int :=
  (x + 9223372036854775808) % 18446744073709551616 - 9223372036854775808

/-- Go's `rune` is an `int32`: the value the conversion `rune(x)` of an `int` truncates to. -/
def wrapInt32 (x : Int) : Int := (x + 2147483648) % 4294967296 - 2147483648

/-- Go's conversion `string(rune(x))`: the text of the code point `rune(x)`, and `"\uFFFD"` when
that value is not a valid Unicode code point (negative, a surrogate half, or above
`0x10FFFF`). -/
def runeString (x : Int) : String :=
  if 0 ≤ wrapInt32 x ∧ (wrapInt32 x).toNat.isValidChar then
    String.singleton (Char.ofNat (wrapInt32 x).toNat)
  else "\uFFFD"

/-- The instance identifier `fmt.Sprintf("I-%d", i)` of `generateRingWithoutZoneAwareness`. -/
def instanceName (i : Nat) : Instance := "I-" ++ toString i

/-- The instance identifier `fmt.Sprintf("%s-%d", string(rune('A'+j)), i)` of
`generateRingWithZoneAwareness`. -/
def zoneInstanceName (j i : Nat) : Instance := runeString (65 + (j : Int)) ++ "-" ++ toString i

/-- One token distributor built by a driver: the arguments handed to `NewTokenDistributor` and
to the replication strategy, and the `AddInstance` calls made on it, in call order. -/
structure DistributorRun where
  tokensPerInstance : Int
  zoneCount : Nat
  maxToken : Token
  replicationFactor : Int
  zoneAware : Bool
  addInstanceCalls : List (Instance × Zone)
  deriving DecidableEq

/-- What a driver run amounts to: column 1 of every row of `result` (the optimal ownership,
with `float64` read as exact rationals) and the token distributors it builds, in order.  The
ownership columns come from the results of `AddInstance` and are not part of this record. -/
structure RingSimulation where
  optimalTokenOwnership : List ℚ
  distributors : List DistributorRun
  deriving DecidableEq

/-- The `AddInstance` calls of one token distributor of `generateRingWithoutZoneAwareness`:
the loop `for i := 0; i < instancesCount; i++` with `zones[0]`. -/
def addInstanceCallsWithoutZones (zones : List Zone) (instancesCount : Int) :
    List (Instance × Zone) :=
  (List.range instancesCount.toNat).map (fun i => (instanceName i, zones.getD 0 ""))

/-- The driver `generateRingWithoutZoneAwareness`, up to the CSV output.  `SingleZone` is
`tokdistr.SingleZone`, a constant of the absent package.  `none` is the panic of
`make([][]string, 0, instancesCount)` on a negative capacity.  The quotient by
`instancesCount = 0` (an infinity or NaN in Go) is stored in no row. -/
def generateRingWithoutZoneAwareness (SingleZone : Zone)
    (numTokensPerInstanceScenarios : List Int) (replicationFactor instancesCount : Int) :
    Option RingSimulation :=
  if instancesCount < 0 then none
  else
    let optimalTokenOwnership : ℚ :=
      (maxTokenValue : ℚ) * (replicationFactor : ℚ) / (instancesCount : ℚ)
    let zones : List Zone := [SingleZone]
    some
      { optimalTokenOwnership :=
          (List.range instancesCount.toNat).map (fun _ => optimalTokenOwnership)
        distributors :=
          numTokensPerInstanceScenarios.flatMap (fun numTokensPerInstance =>
            (List.range iterations).map (fun _ =>
              { tokensPerInstance := numTokensPerInstance
                zoneCount := zones.length
                maxToken := maxTokenValue
                replicationFactor := replicationFactor
                zoneAware := false
                addInstanceCalls := addInstanceCallsWithoutZones zones instancesCount })) }

/-- The `AddInstance` calls of one token distributor of `generateRingWithZoneAwareness`: the
loops `for i := 0; i < instancesPerZone; i++` and `for j := 0; j < len(zones); j++`. -/
def addInstanceCallsWithZones (zones : List Zone) (instancesPerZone : Int) :
    List (Instance × Zone) :=
  (List.range instancesPerZone.toNat).flatMap (fun i =>
    (List.range zones.length).map (fun j => (zoneInstanceName j i, zones.getD j "")))

/-- Whether every index `i*len(zones)+j` used in `result[i*len(zones)+j][0] = ...` lies within
the `rows` rows of `result`. -/
def rowIndicesInRange (zones : List Zone) (instancesPerZone rows : Int) : Bool :=
  (List.range instancesPerZone.toNat).all (fun i =>
    (List.range zones.length).all (fun j =>
      decide (0 ≤ wrapInt64 (wrapInt64 ((i : Int) * zones.length) + j) ∧
        wrapInt64 (wrapInt64 ((i : Int) * zones.length) + j) < rows)))

/-- The driver `generateRingWithZoneAwareness`, up to the CSV output.  `none` is a panic: of
`make` on a negative capacity, or of a row index out of range (which takes an overflow of
`instancesPerZone*len(zones)`). -/
def generateRingWithZoneAwareness (numTokensPerInstanceScenarios : List Int)
    (replicationFactor instancesPerZone : Int) (zones : List Zone) : Option RingSimulation :=
  if wrapInt64 (instancesPerZone * zones.length) < 0 then none
  else if numTokensPerInstanceScenarios ≠ [] ∧
      rowIndicesInRange zones instancesPerZone (wrapInt64 (instancesPerZone * zones.length))
        = false then none
  else
    let optimalTokenOwnership : ℚ :=
      (maxTokenValue : ℚ) * (replicationFactor : ℚ) /
        ((wrapInt64 (instancesPerZone * zones.length) : Int) : ℚ)
    some
      { optimalTokenOwnership :=
          (List.range (wrapInt64 (instancesPerZone * zones.length)).toNat).map
            (fun _ => optimalTokenOwnership)
        distributors :=
          numTokensPerInstanceScenarios.flatMap (fun numTokensPerInstance =>
            (List.range iterations).map (fun _ =>
              { tokensPerInstance := numTokensPerInstance
                zoneCount := zones.length
                maxToken := maxTokenValue
                replicationFactor := replicationFactor
                zoneAware := true
                addInstanceCalls := addInstanceCallsWithZones zones instancesPerZone })) }

/-- The function `main` of the driver, up to logging and the CSV files: the two driver calls it
makes, in order.  The call of `generateRingWithZoneAwareness`, and the `zones` and
`instancesPerZone` it would take, are commented out in the source.  `SingleZone` is
`tokdistr.SingleZone`, a constant of the absent package. -/
def main (SingleZone : Zone) : List (Option RingSimulation) :=
  let numTokensPerInstanceScenarios : List Int := [4, 16, 64, 128, 256, 512]
  let replicationFactor : Int := 3
  [generateRingWithoutZoneAwareness SingleZone numTokensPerInstanceScenarios 1
      initialInstanceCount,
    generateRingWithoutZoneAwareness SingleZone numTokensPerInstanceScenarios replicationFactor
      initialInstanceCount]

/-! ## Retry-After headers (`pkg/distributor/push.go`) -/

/-- The struct `RetryConfig`. -/
structure RetryConfig where
  Enabled : Bool
  BaseSeconds : Int
  MaxBackoffExponent : Int
  deriving DecidableEq

/-- The two validation errors of `RetryConfig`. -/
inductive RetryConfigError where
  | errRetryBaseLessThanOneSecond
  | errNonPositiveMaxBackoffExponent
  deriving DecidableEq

/-- The flag defaults `RetryConfig.RegisterFlags` registers: disabled, base 3, exponent 5. -/
def RetryConfig.RegisterFlags : RetryConfig :=
  { Enabled := false, BaseSeconds := 3, MaxBackoffExponent := 5 }

/-- The method `RetryConfig.Validate`; `none` is the `nil` error. -/
def RetryConfig.Validate (cfg : RetryConfig) : Option RetryConfigError :=
  if cfg.BaseSeconds < 1 then some .errRetryBaseLessThanOneSecond
  else if cfg.MaxBackoffExponent < 1 then some .errNonPositiveMaxBackoffExponent
  else none

/-- The digits loop of `strconv.Atoi`: every character must be a decimal digit;
`n` is the value read so far. -/
def parseDigits : List Char → Nat → Option Nat
  | [], n => some n
  | c :: cs, n => if c.isDigit then parseDigits cs (10 * n + (c.toNat - 48)) else none

/-- Go's `strconv.Atoi` on a 64-bit platform: an optional sign, then at least one decimal
digit, and a value that fits an `int`; `none` is a non-nil error (syntax or range). -/
def Atoi (s : String) : Option Int :=
  match s.data with
  | [] => none
  | '-' :: ds =>
    match ds, parseDigits ds 0 with
    | [], _ => none
    | _, none => none
    | _, some n => if n ≤ 9223372036854775808 then some (-(n : Int)) else none
  | '+' :: ds =>
    match ds, parseDigits ds 0 with
    | [], _ => none
    | _, none => none
    | _, some n => if n < 9223372036854775808 then some (n : Int) else none
  | ds =>
    match parseDigits ds 0 with
    | none => none
    | some n => if n < 9223372036854775808 then some (n : Int) else none

/-- Go's `x << s` on an `int64` with an `int` shift count: a panic (`none`) on a negative
count, `0` once the count reaches 64, and wrap-around in between. -/
def shiftLeft64 (x s : Int) : Option Int :=
  if s < 0 then none
  else if 64 ≤ s then some 0
  else some (wrapInt64 (x * 2 ^ s.toNat))

/-- Go's `rand.Int63n(n)`: a panic (`none`) unless `n > 0`; otherwise the accepted 63-bit
draw of the generator reduced modulo `n`, a value of `[0, n)`. -/
def Int63n (n : Int) (draw : Nat) : Option Int :=
  if n ≤ 0 then none else some ((draw : Int) % n)

/-- Lines 249-256 of `calculateRetryAfter`: the retry attempt after defaulting an invalid
header to 1 and capping at `maxBackoffExponent`. -/
def retryAttemptOf (retryAttemptHeader : String) (maxBackoffExponent : Int) : Int :=
  let retryAttempt : Int :=
    match Atoi retryAttemptHeader with
    | none => 1
    | some a => if a < 1 then 1 else a
  if retryAttempt > maxBackoffExponent then maxBackoffExponent else retryAttempt

/-- Lines 257-261 of `calculateRetryAfter`: `minSeconds`, `maxSeconds` and the delay
`minSeconds + rand.Int63n(maxSeconds-minSeconds)`, in `int64` arithmetic. -/
def delaySeconds (retryAttempt baseSeconds : Int) (draw : Nat) : Option Int :=
  match shiftLeft64 baseSeconds (wrapInt64 (retryAttempt - 1)) with
  | none => none
  | some minSeconds =>
    match shiftLeft64 minSeconds 1 with
    | none => none
    | some maxSeconds =>
      match Int63n (wrapInt64 (maxSeconds - minSeconds)) draw with
      | none => none
      | some jitter => some (wrapInt64 (minSeconds + jitter))

/-- The function `calculateRetryAfter`, with the draw of the random source made explicit;
`none` is a panic, and the text is `strconv.FormatInt(delaySeconds, 10)`. -/
def calculateRetryAfter (retryAttemptHeader : String) (baseSeconds maxBackoffExponent : Int)
    (draw : Nat) : Option String :=
  (delaySeconds (retryAttemptOf retryAttemptHeader maxBackoffExponent) baseSeconds draw).map
    (fun d => toString d)

/-! ## Errors, as the push handler observes them -/

/-- The enum `mimirpb.ErrorCause`, with the values the sources name; `other` stands for every
further value of the enum. -/
inductive ErrorCause where
  | UNKNOWN_CAUSE
  | REPLICAS_DID_NOT_MATCH
  | TOO_MANY_CLUSTERS
  | BAD_DATA
  | INGESTION_RATE_LIMITED
  | REQUEST_RATE_LIMITED
  | INSTANCE_LIMIT
  | SERVICE_UNAVAILABLE
  | TSDB_UNAVAILABLE
  | CIRCUIT_BREAKER_OPEN
  | METHOD_NOT_ALLOWED
  | other (value : Int)
  deriving DecidableEq

/-- What one error of an error tree is, as far as `errors.Is`, `errors.As` and
`httpgrpc.HTTPResponseFromError` can tell: `context.Canceled`, `context.DeadlineExceeded`,
a `middleware.DoNotLogError`, an error implementing `distributorError` (with its
`errorCause()`), an httpgrpc error (with the code and body of its HTTP response),
`util.MsgSizeTooLargeErr`, a `distributorMaxWriteMessageSizeErr`, or any other error. -/
inductive ErrorKind where
  | Canceled
  | DeadlineExceeded
  | DoNotLogError
  | distributorError (cause : ErrorCause)
  | httpgrpc (code : Int) (body : String)
  | MsgSizeTooLargeErr
  | distributorMaxWriteMessageSizeErr (actual limit : Int)
  | other
  deriving DecidableEq

/-- One error of an error tree: what it is and the text its `Error()` returns. -/
structure ErrorLink where
  kind : ErrorKind
  text : String
  deriving DecidableEq

/-- A non-nil Go `error`: the error itself (`head`) and the errors it wraps, in the order in
which `errors.Is` and `errors.As` visit them (`Unwrap`, depth first). -/
structure GoError where
  head : ErrorLink
  wrapped : List ErrorLink
  deriving DecidableEq

/-- The errors `errors.Is` and `errors.As` visit, the error itself first. -/
def GoError.chain (err : GoError) : List ErrorLink := err.head :: err.wrapped

/-- The method `Error()` of an error. -/
def GoError.Error (err : GoError) : String := err.head.text

/-- The call `errors.Is(err, context.Canceled)`. -/
def isCanceled (err : GoError) : Bool := err.chain.any (fun l => l.kind == .Canceled)

/-- The call `errors.Is(err, context.DeadlineExceeded)`. -/
def isDeadlineExceeded (err : GoError) : Bool :=
  err.chain.any (fun l => l.kind == .DeadlineExceeded)

/-- The call `errors.Is(err, util.MsgSizeTooLargeErr{})`. -/
def isMsgSizeTooLarge (err : GoError) : Bool :=
  err.chain.any (fun l => l.kind == .MsgSizeTooLargeErr)

/-- The call `errors.As(err, &doNotLogError)` with a `middleware.DoNotLogError` target; a nil
error matches nothing. -/
def asDoNotLogError : Option GoError → Bool
  | none => false
  | some err => err.chain.any (fun l => l.kind == .DoNotLogError)

/-- The cause of a link that implements `distributorError`. -/
def ErrorLink.cause? (l : ErrorLink) : Option ErrorCause :=
  match l.kind with
  | .distributorError cause => some cause
  | _ => none

/-- The call `errors.As(pushErr, &distributorErr)` followed by `distributorErr.errorCause()`:
the cause of the first error of the tree that implements `distributorError`. -/
def asDistributorError (err : GoError) : Option ErrorCause :=
  err.chain.findSome? ErrorLink.cause?

/-- The HTTP response of a link that is an httpgrpc error. -/
def ErrorLink.response? (l : ErrorLink) : Option (Int × String) :=
  match l.kind with
  | .httpgrpc code body => some (code, body)
  | _ => none

/-- The call `httpgrpc.HTTPResponseFromError(err)`: code and body of the HTTP response the
error carries, if it carries one. -/
def HTTPResponseFromError (err : GoError) : Option (Int × String) :=
  err.chain.findSome? ErrorLink.response?

/-! ## Go's `fmt.Sprintf` without operands -/

/-- The function `tooLarge` of package `fmt`. -/
def tooLarge (x : Nat) : Bool := decide (1000000 < x)

/-- The function `parsenum` of package `fmt` on the characters between `start` and `end`: the
number read so far, whether a digit was read, and the characters left; a number that gets too
large swallows everything up to `end`. -/
def parsenum : List Char → Nat → Bool → Nat × Bool × List Char
  | [], num, isnum => (num, isnum, [])
  | c :: cs, num, isnum =>
    if c.isDigit then
      if tooLarge num then (0, false, [])
      else parsenum cs (num * 10 + (c.toNat - 48)) true
    else (num, isnum, c :: cs)

/-- The function `parseArgNumber` of package `fmt` on a text that starts with `[`: how many
characters the index takes and whether it is well formed (the index itself is of no use
without operands). -/
def parseArgNumber (format : List Char) : Nat × Bool :=
  if (String.mk format).utf8ByteSize < 3 then (1, false)
  else if (format.drop 1).all (fun c => c != ']') then (1, false)
  else
    let inner := (format.drop 1).takeWhile (fun c => c != ']')
    match parsenum inner 0 false with
    | (_, true, []) => (inner.length + 2, true)
    | _ => (inner.length + 2, false)

/-- The method `argNumber` of package `fmt` when there is no operand: the text left, whether an
index was found, and the new value of `goodArgNum`. -/
def argNumber (format : List Char) (goodArgNum : Bool) : List Char × Bool × Bool :=
  match format with
  | '[' :: _ => (format.drop (parseArgNumber format).1, (parseArgNumber format).2, false)
  | _ => (format, false, goodArgNum)

/-- The flags loop of `doPrintf`: skips the flag characters. -/
def skipFlags : List Char → List Char
  | [] => []
  | c :: cs =>
    if c = '#' ∨ c = '0' ∨ c = '+' ∨ c = '-' ∨ c = ' ' then skipFlags cs else c :: cs

/-- The width step of `doPrintf` without operands: what is written, the text left, and the new
values of `afterIndex` and `goodArgNum`. -/
def widthStep (format : List Char) (afterIndex goodArgNum : Bool) :
    List Char × List Char × Bool × Bool :=
  match format with
  | '*' :: rest => ("%!(BADWIDTH)".data, rest, false, goodArgNum)
  | _ =>
    (([] : List Char), (parsenum format 0 false).2.2, afterIndex,
      goodArgNum && !(afterIndex && (parsenum format 0 false).2.1))

/-- The precision step of `doPrintf` without operands, with the same results as `widthStep`. -/
def precisionStep (format : List Char) (afterIndex goodArgNum : Bool) :
    List Char × List Char × Bool × Bool :=
  match format with
  | '.' :: rest =>
    match argNumber rest (goodArgNum && !afterIndex) with
    | ('*' :: rest1, found, good) => ("%!(BADPREC)".data, rest1, found, good)
    | (rest1, found, good) => ([], (parsenum rest1 0 false).2.2, found, good)
  | _ => ([], format, afterIndex, goodArgNum)

/-- One verb of `doPrintf` without operands, from the character after `%`: what is written,
and the text left, `none` once the text ended without a verb (`%!(NOVERB)`). -/
def verbWithoutOperands (format : List Char) : List Char × Option (List Char) :=
  match argNumber (skipFlags format) true with
  | (s2, afterIndex1, good1) =>
    match widthStep s2 afterIndex1 good1 with
    | (out1, s3, afterIndex2, good2) =>
      match precisionStep s3 afterIndex2 good2 with
      | (out2, s4, afterIndex3, good3) =>
        match (if afterIndex3 then (s4, afterIndex3, good3) else argNumber s4 good3) with
        | ([], _, _) => (out1 ++ out2 ++ "%!(NOVERB)".data, none)
        | (verb :: s5, _, good4) =>
          if verb = '%' then (out1 ++ out2 ++ ['%'], some s5)
          else if good4 = false then
            (out1 ++ out2 ++ "%!".data ++ [verb] ++ "(BADINDEX)".data, some s5)
          else (out1 ++ out2 ++ "%!".data ++ [verb] ++ "(MISSING)".data, some s5)

/-- The loop of `doPrintf` of package `fmt` when there is no operand; `fuel` bounds the number
of characters and verbs handled. -/
def doPrintf : Nat → List Char → List Char
  | 0, _ => []
  | _ + 1, [] => []
  | fuel + 1, c :: cs =>
    if c = '%' then
      match verbWithoutOperands cs with
      | (out, none) => out
      | (out, some rest) => out ++ doPrintf fuel rest
    else c :: doPrintf fuel cs

/-- Go's `fmt.Sprintf(format)` with no operand after the format. -/
def Sprintf (format : String) : String := String.mk (doPrintf (format.length + 1) format.data)

/-- The call `httpgrpc.Errorf(code, tmpl)` of dskit with no operand after the template: an
error carrying the HTTP response with that code and the body `fmt.Sprintf(tmpl)`. -/
def httpgrpcErrorf (code : Int) (tmpl : String) : GoError :=
  { head :=
      { kind := .httpgrpc code (Sprintf tmpl)
        text := "rpc error: code = Code(" ++ toString code ++ ") desc = " ++ Sprintf tmpl }
    wrapped := [] }

/-! ## The push handler (`pkg/distributor/push.go`) -/

/-- The constant `SkipLabelNameValidationHeader`. -/
def SkipLabelNameValidationHeader : String := "X-Mimir-SkipLabelNameValidation"

/-- The constant `statusClientClosedRequest`. -/
def statusClientClosedRequest : Int := 499

/-- Modelled from the spec: the constant `StatusServiceOverloaded` (529) of package
`distributor`, declared outside the sources at hand. -/
def StatusServiceOverloaded : Int := 529

/-- The constant `server.DoNotLogErrorHeaderKey` of dskit, the canonical form of
`X-DoNotLogError`. -/
def DoNotLogErrorHeaderKey : String := "X-Donotlogerror"

/-- The header map `w.Header()` of a response: canonical key and values.  The keys the handler
sets are in canonical form already. -/
abbrev Header := List (String × List String)

/-- The method `Header.Set`: the key gets the single value, replacing what it had. -/
def Header.Set (h : Header) (key value : String) : Header :=
  (key, [value]) :: h.filter (fun e => e.1 != key)

/-- The values stored under a key. -/
def Header.Values (h : Header) (key : String) : List String :=
  match h.find? (fun e => e.1 == key) with
  | some e => e.2
  | none => []

/-- The method `Header.Get`: the first value stored under the key, `""` when there is none. -/
def Header.Get (h : Header) (key : String) : String := (Header.Values h key).headD ""

/-- Whether the key is present in the header map. -/
def Header.Has (h : Header) (key : String) : Bool := h.any (fun e => e.1 == key)

/-- The HTTP request as the handler reads it: `Header key` is `r.Header.Get(key)` and
`ContentLength` is `r.ContentLength`. -/
structure Request where
  Header : String → String
  ContentLength : Int

/-- How a call ended: it returned, or it panicked. -/
inductive Completion where
  | returned
  | panicked
  deriving DecidableEq

/-- The function `toHTTPStatus`.  `tenantID` is what `tenant.TenantID(ctx)` gives (`none` for an
error) and `limits userID` is `limits.ServiceOverloadStatusCodeOnRateLimitEnabled(userID)` of a
non-nil `*validation.Overrides`. -/
def toHTTPStatus (tenantID : Option String) (limits : String → Bool) (pushErr : GoError) : Int :=
  if isDeadlineExceeded pushErr then 500
  else
    match asDistributorError pushErr with
    | some .BAD_DATA => 400
    | some .INGESTION_RATE_LIMITED | some .REQUEST_RATE_LIMITED =>
      let serviceOverloadErrorEnabled :=
        match tenantID with
        | some userID => limits userID
        | none => false
      if serviceOverloadErrorEnabled then StatusServiceOverloaded else 429
    | some .REPLICAS_DID_NOT_MATCH => 202
    | some .TOO_MANY_CLUSTERS => 400
    | some .TSDB_UNAVAILABLE => 503
    | some .CIRCUIT_BREAKER_OPEN => 503
    | _ => 500

/-- The function `addHeaders`: the header map of the response after the call and how the call
ended.  It panics when `calculateRetryAfter` does; the `DoNotLogError` header is set before
that.  `draw` is the draw of the random source; the tracing tags are left out. -/
def addHeaders (w : Header) (err : Option GoError) (r : Request) (responseCode : Int)
    (retryCfg : RetryConfig) (draw : Nat) : Header × Completion :=
  let w1 := if asDoNotLogError err then Header.Set w DoNotLogErrorHeaderKey "true" else w
  if responseCode = 429 ∨ Int.tdiv responseCode 100 = 5 then
    if retryCfg.Enabled then
      match calculateRetryAfter (r.Header "Retry-Attempt") retryCfg.BaseSeconds
          retryCfg.MaxBackoffExponent draw with
      | none => (w1, .panicked)
      | some retrySeconds => (Header.Set w1 "Retry-After" retrySeconds, .returned)
    else (w1, .returned)
  else (w1, .returned)

/-- The write request, as far as the handler looks into it. -/
structure WriteRequest where
  SkipLabelNameValidation : Bool
  deriving DecidableEq

/-- Modelled from the spec: the message format of package `globalerror`
(`MessageWithPerInstanceLimitConfig`), absent from the sources and taken from the expected
messages of the tests. -/
def MessageWithPerInstanceLimitConfig (id msg flag : String) : String :=
  msg ++ " (err-mimir-" ++ id ++ "). To adjust the related limit, configure -" ++ flag ++
    ", or contact your service administrator."

/-- The method `distributorMaxWriteMessageSizeErr.Error`. -/
def distributorMaxWriteMessageSizeErrError (actual limit : Int) : String :=
  let msgSizeDesc := if actual < 0 then "" else " of " ++ toString actual ++ " bytes"
  MessageWithPerInstanceLimitConfig "distributor-max-write-message-size"
    ("the incoming push request has been rejected because its message size" ++ msgSizeDesc ++
      " is larger than the allowed limit of " ++ toString limit ++ " bytes")
    "distributor.max-recv-msg-size"

/-- The parser `Handler` hands to `handler`.  `parsed` is the outcome of
`util.ParseProtoReader`; the buffer pool is left out. -/
def HandlerParser (parsed : Except GoError WriteRequest) (r : Request) (maxRecvMsgSize : Int)
    (skipLabelNameValidation : Bool) : Except GoError WriteRequest :=
  match parsed with
  | .error err =>
    if isMsgSizeTooLarge err then
      .error
        { head :=
            { kind := .distributorMaxWriteMessageSizeErr r.ContentLength maxRecvMsgSize
              text := distributorMaxWriteMessageSizeErrError r.ContentLength maxRecvMsgSize }
          wrapped := [] }
    else .error err
  | .ok req => .ok { req with SkipLabelNameValidation := skipLabelNameValidation }

/-- The closure `supplier` of `handler`.  `req` is the variable of that name whose
`SkipLabelNameValidation` field line 210 reads: the parser call of line 211, which produces
the write request, comes after it, so `req` is not the parsed request, and its value is a
parameter here.  `parser` is the `parserFunc` as a function of the flag it is handed. -/
def supplier (allowSkipLabelNameValidation : Bool) (req : WriteRequest) (r : Request)
    (parser : Bool → Except GoError WriteRequest) : Except GoError WriteRequest :=
  let skipLabelNameValidation :=
    allowSkipLabelNameValidation && req.SkipLabelNameValidation &&
      (r.Header SkipLabelNameValidationHeader == "true")
  match parser skipLabelNameValidation with
  | .error err =>
    match HTTPResponseFromError err with
    | some _ => .error err
    | none => .error (httpgrpcErrorf 400 err.Error)
  | .ok parsedReq => .ok parsedReq

/-- What the handler did to the `http.ResponseWriter`: the header map, and the code and text of
the `http.Error(w, text, code)` call, if there was one (`http.Error` writes the text followed
by a newline as the body). -/
structure ResponseWriter where
  header : Header
  written : Option (Int × String)
  deriving DecidableEq

/-- The status code a recorder shows: the one written, and 200 when nothing was written. -/
def ResponseWriter.Code (w : ResponseWriter) : Int :=
  match w.written with
  | some (code, _) => code
  | none => 200

/-- Lines 230-238 of `handler`: the `code` and `msg` of the answer to a push error that is not
a cancellation. -/
def errorAnswer (tenantID : Option String) (limits : String → Bool) (err : GoError) :
    Int × String :=
  match HTTPResponseFromError err with
  | some resp => resp
  | none => (toHTTPStatus tenantID limits err, err.Error)

/-- The `http.HandlerFunc` that `handler` returns.  `push` is the `PushFunc`, as a function of
what `req.WriteRequest()` gives; `req` is the variable line 210 reads (see `supplier`); `w` is
the header map of the response at the start.  Logging and the source-IP context are left
out. -/
def handler (allowSkipLabelNameValidation : Bool) (tenantID : Option String)
    (limits : String → Bool) (retryCfg : RetryConfig)
    (push : Except GoError WriteRequest → Option GoError)
    (parser : Bool → Except GoError WriteRequest) (req : WriteRequest) (r : Request)
    (w : Header) (draw : Nat) : ResponseWriter × Completion :=
  match push (supplier allowSkipLabelNameValidation req r parser) with
  | none => (⟨w, none⟩, .returned)
  | some err =>
    if isCanceled err then (⟨w, some (statusClientClosedRequest, err.Error)⟩, .returned)
    else
      match addHeaders w (some err) r (errorAnswer tenantID limits err).1 retryCfg draw with
      | (w1, .panicked) => (⟨w1, none⟩, .panicked)
      | (w1, .returned) => (⟨w1, some (errorAnswer tenantID limits err)⟩, .returned)

/-- The function `Handler`: `handler` with the parser of `Handler`. -/
def Handler (maxRecvMsgSize : Int) (allowSkipLabelNameValidation : Bool)
    (tenantID : Option String) (limits : String → Bool) (retryCfg : RetryConfig)
    (push : Except GoError WriteRequest → Option GoError)
    (parsed : Except GoError WriteRequest) (req : WriteRequest) (r : Request)
    (w : Header) (draw : Nat) : ResponseWriter × Completion :=
  handler allowSkipLabelNameValidation tenantID limits retryCfg push
    (HandlerParser parsed r maxRecvMsgSize) req r w draw

/-! ## The OTLP converter (`pkg/distributor/otlp/metrics_to_prw_generated.go`)

Values of type `float64` are taken from a type `α`; where the code compares them, `α` is
`Float64 β`: NaN, or a number of a totally preordered type `β`. -/

/-- The struct `mimirpb.LabelAdapter`. -/
structure LabelAdapter where
  Name : String
  Value : String
  deriving DecidableEq

/-- The struct `mimirpb.Sample`. -/
structure Sample (α : Type) where
  Value : α
  TimestampMs : Int
  deriving DecidableEq

/-- The struct `mimirpb.Exemplar`. -/
structure Exemplar (α : Type) where
  Labels : List LabelAdapter
  Value : α
  TimestampMs : Int
  deriving DecidableEq

/-- The struct `mimirpb.TimeSeries`, without its histograms. -/
structure TimeSeries (α : Type) where
  Labels : List LabelAdapter
  Samples : List (Sample α)
  Exemplars : List (Exemplar α)
  deriving DecidableEq

/-- The function `isSameMetric`: the length test, then the loop
`for i, l := range ts.Labels`, which compares `l` with `ts.Labels[i]`.  The index `i` of the
loop is always in range. -/
def isSameMetric {α : Type} (ts : TimeSeries α) (lbls : List LabelAdapter) : Bool :=
  if ts.Labels.length ≠ lbls.length then false
  else
    ts.Labels.enum.all (fun il =>
      match ts.Labels[il.1]? with
      | some tsLabel => !(il.2.Name != tsLabel.Name || il.2.Value != tsLabel.Value)
      | none => false)

/-- The struct `MimirConverter`.  A `*mimirpb.TimeSeries` is an address, and `series` is what
the addresses point to; the two maps are association lists from a label hash to addresses;
`everyN` is the state of the `everyNTimes` counter, read as the number of calls of
`checkContext` made so far. -/
structure MimirConverter (α : Type) where
  series : Nat → TimeSeries α
  unique : List (Nat × Nat)
  conflicts : List (Nat × List Nat)
  everyN : Nat

/-- The function `NewMimirConverter`: both maps empty. -/
def NewMimirConverter {α : Type} : MimirConverter α :=
  { series := fun _ => ⟨[], [], []⟩, unique := [], conflicts := [], everyN := 0 }

/-- The struct `bucketBoundsData`: the address of a bucket's series and the bucket's upper
bound. -/
structure bucketBoundsData (α : Type) where
  ts : Nat
  bound : α
  deriving DecidableEq

/-- The statement `ts.Samples = append(ts.Samples, sample)` on the series at address `ts`. -/
def MimirConverter.appendSample {α : Type} (c : MimirConverter α) (ts : Nat)
    (sample : Sample α) : MimirConverter α :=
  let old := c.series ts
  let new : TimeSeries α := { old with Samples := old.Samples ++ [sample] }
  { c with series := Function.update c.series ts new }

/-- The statement `bound.ts.Exemplars = append(bound.ts.Exemplars, exemplar)` on the series at
address `ts`. -/
def MimirConverter.appendExemplar {α : Type} (c : MimirConverter α) (ts : Nat)
    (exemplar : Exemplar α) : MimirConverter α :=
  let old := c.series ts
  let new : TimeSeries α := { old with Exemplars := old.Exemplars ++ [exemplar] }
  { c with series := Function.update c.series ts new }

/-- The method `MimirConverter.addSample`.  `sample` is a pointer, `none` when nil; the result
is the address of the series, `none` when nil.  `getOrCreateTimeSeries` is the method of that
name, which is not part of the sources: from the converter and the labels to the converter, the
address of the series and whether it was created. -/
def MimirConverter.addSample {α : Type}
    (getOrCreateTimeSeries : MimirConverter α → List LabelAdapter → MimirConverter α × Nat × Bool)
    (c : MimirConverter α) (sample : Option (Sample α)) (lbls : List LabelAdapter) :
    MimirConverter α × Option Nat :=
  match sample with
  | none => (c, none)
  | some s =>
    if lbls.length = 0 then (c, none)
    else
      let created := getOrCreateTimeSeries c lbls
      (created.1.appendSample created.2.1 s, some created.2.1)

/-- One call of `c.everyN.checkContext(ctx)`: the counter moves on. -/
def MimirConverter.tick {α : Type} (c : MimirConverter α) : MimirConverter α :=
  { c with everyN := c.everyN + 1 }

/-- A `float64`, as far as its comparisons go: NaN, or a number of a type `β` that is totally
preordered (distinct numbers may compare equal, as the two zeros do). -/
inductive Float64 (β : Type) where
  | NaN
  | num (x : β)
  deriving DecidableEq

/-- Go's `x <= y` on `float64`: false as soon as one side is NaN. -/
def Float64.le {β : Type} [LE β] [DecidableRel (fun a b : β => a ≤ b)] :
    Float64 β → Float64 β → Bool
  | .num x, .num y => decide (x ≤ y)
  | _, _ => false

/-- Go's `x < y` on `float64`: false as soon as one side is NaN. -/
def Float64.lt {β : Type} [LE β] [DecidableRel (fun a b : β => a ≤ b)] :
    Float64 β → Float64 β → Bool
  | .num x, .num y => decide (x ≤ y) && !decide (y ≤ x)
  | _, _ => false

/-- The inner loop of `insertionSort` of Go's package `sort`,
`for j := i; j > a && data.Less(j, j-1); j--` with its `data.Swap(j, j-1)`: the element `x` of
index `i` moves left past every element it is less than and stops at the first it is not less
than.  `before` is the slice before index `i`, its last element first, and so is the
result. -/
def insertionSortStep {A : Type} (less : A → A → Bool) (x : A) : List A → List A
  | [] => [x]
  | y :: before =>
    if less x y then y :: insertionSortStep less x before else x :: y :: before

/-- The function `insertionSort(data, 0, data.Len())` of Go's package `sort`. -/
def insertionSort {A : Type} (less : A → A → Bool) (data : List A) : List A :=
  (data.foldl (fun before x => insertionSortStep less x before) []).reverse

/-- The call `sort.Sort(byBucketBoundsData(bucketBounds))` on at most 12 bucket bounds, a
length on which `sort.Sort` runs `insertionSort` and nothing else.  The type
`byBucketBoundsData` is not part of the sources; its `Less` is taken to compare the bounds
with `<`, as its name says. -/
def sortBucketBounds {β : Type} [LE β] [DecidableRel (fun a b : β => a ≤ b)]
    (bucketBounds : List (bucketBoundsData (Float64 β))) : List (bucketBoundsData (Float64 β)) :=
  insertionSort (fun a b => Float64.lt a.bound b.bound) bucketBounds

/-- The inner loop of `addExemplars`, `for _, bound := range bucketBounds`, for one exemplar:
the context check, then the test `len(bound.ts.Samples) > 0 && exemplar.Value <= bound.bound`,
on which the exemplar is appended and the loop left.  `checkContext n` is what the call number
`n` of `c.everyN.checkContext(ctx)` returns, `none` for nil. -/
def MimirConverter.addExemplarToBounds {β : Type} [LE β] [DecidableRel (fun a b : β => a ≤ b)]
    (checkContext : Nat → Option GoError) (exemplar : Exemplar (Float64 β)) :
    List (bucketBoundsData (Float64 β)) → MimirConverter (Float64 β) →
      MimirConverter (Float64 β) × Option GoError
  | [], c => (c, none)
  | bound :: rest, c =>
    match checkContext c.everyN with
    | some err => (c.tick, some err)
    | none =>
      if 0 < (c.tick.series bound.ts).Samples.length ∧
          Float64.le exemplar.Value bound.bound = true then
        (c.tick.appendExemplar bound.ts exemplar, none)
      else MimirConverter.addExemplarToBounds checkContext exemplar rest c.tick

/-- The outer loop of `addExemplars`, `for _, exemplar := range exemplars`; an error of the
context check ends it. -/
def MimirConverter.addExemplarsLoop {β : Type} [LE β] [DecidableRel (fun a b : β => a ≤ b)]
    (checkContext : Nat → Option GoError) (bucketBounds : List (bucketBoundsData (Float64 β))) :
    List (Exemplar (Float64 β)) → MimirConverter (Float64 β) →
      MimirConverter (Float64 β) × Option GoError
  | [], c => (c, none)
  | exemplar :: rest, c =>
    match MimirConverter.addExemplarToBounds checkContext exemplar bucketBounds c with
    | (c1, some err) => (c1, some err)
    | (c1, none) => MimirConverter.addExemplarsLoop checkContext bucketBounds rest c1

/-- The method `MimirConverter.addExemplars`; the second component is the error, `none` for
nil.  Three parts are not in the sources and are parameters: `checkContext` (see
`addExemplarToBounds`); `getPromExemplars`, from the counter `c.everyN` and the data point to
the exemplars or an error, and the counter afterwards; and `sortBounds`, which is
`sort.Sort(byBucketBoundsData(...))` (`sortBucketBounds` on at most 12 bucket bounds). -/
def MimirConverter.addExemplars {β DP : Type} [LE β] [DecidableRel (fun a b : β => a ≤ b)]
    (checkContext : Nat → Option GoError)
    (getPromExemplars : Nat → DP → Except GoError (List (Exemplar (Float64 β))) × Nat)
    (sortBounds : List (bucketBoundsData (Float64 β)) → List (bucketBoundsData (Float64 β)))
    (c : MimirConverter (Float64 β)) (dataPoint : DP)
    (bucketBounds : List (bucketBoundsData (Float64 β))) :
    MimirConverter (Float64 β) × Option GoError :=
  if bucketBounds.length = 0 then (c, none)
  else
    match getPromExemplars c.everyN dataPoint with
    | (.error err, n) => ({ c with everyN := n }, some err)
    | (.ok exemplars, n) =>
      if exemplars.length = 0 then ({ c with everyN := n }, none)
      else
        MimirConverter.addExemplarsLoop checkContext (sortBounds bucketBounds) exemplars
          { c with everyN := n }

/-- The struct `Settings`. -/
structure Settings where
  Namespace : String
  ExternalLabels : List (String × String)
  DisableTargetInfo : Bool
  ExportCreatedMetric : Bool
  AddMetricSuffixes : Bool
  SendMetadata : Bool
  PromoteResourceAttributes : List String
  deriving DecidableEq

/-- The values of `pmetric.MetricType`. -/
inductive MetricType where
  | Empty
  | Gauge
  | Sum
  | Histogram
  | ExponentialHistogram
  | Summary
  deriving DecidableEq

/-- What `FromMetrics` reads of a `pmetric.Metric`: its name, its type and the data points of
that type, over a type `DP` of data points; `Type_` is `Type()`. -/
structure Metric (DP : Type) where
  Name : String
  Type_ : MetricType
  DataPoints : List DP

/-- What `FromMetrics` reads of a `pmetric.ResourceMetrics`: the resource, over a type `Res`,
and the metrics of each of its scopes. -/
structure ResourceMetrics (Res DP : Type) where
  Resource : Res
  ScopeMetrics : List (List (Metric DP))

/-- The functions `FromMetrics` calls that are not part of the sources, as parameters.
`checkContext n` is what the call number `n` of `c.everyN.checkContext(ctx)` returns; `Quote` is
the verb `%q` of `fmt`; the `add...DataPoints` methods return the converter and the error, `none`
for nil; timestamps are natural numbers. -/
structure ConverterHelpers (α Res DP : Type) where
  checkContext : Nat → Option GoError
  mostRecentTimestampInMetric : Metric DP → Nat
  isValidAggregationTemporality : Metric DP → Bool
  BuildCompliantName : Metric DP → String → Bool → String
  Quote : String → String
  addGaugeNumberDataPoints :
    MimirConverter α → List DP → Res → Settings → String → MimirConverter α × Option GoError
  addSumNumberDataPoints :
    MimirConverter α → List DP → Res → Metric DP → Settings → String →
      MimirConverter α × Option GoError
  addHistogramDataPoints :
    MimirConverter α → List DP → Res → Settings → String → MimirConverter α × Option GoError
  addExponentialHistogramDataPoints :
    MimirConverter α → List DP → Res → Settings → String → MimirConverter α × Option GoError
  addSummaryDataPoints :
    MimirConverter α → List DP → Res → Settings → String → MimirConverter α × Option GoError
  addResourceTargetInfo : Res → Settings → Nat → MimirConverter α → MimirConverter α

/-- An error made by `fmt.Errorf` without `%w`, or by `errors.New`: it wraps nothing. -/
def plainError (text : String) : GoError :=
  { head := { kind := .other, text := text }, wrapped := [] }

/-- The variables of `FromMetrics` that its loops update: the converter, `errs` (the errors
`multierr.Append` has collected, in order) and `mostRecentTimestamp`. -/
structure ConversionState (α : Type) where
  c : MimirConverter α
  errs : List GoError
  mostRecentTimestamp : Nat

/-- The body shared by the five cases of the `switch` of `FromMetrics`: the error for a metric
without data points, on which `break` leaves the `switch`; otherwise the call of the case's
`add...DataPoints` method, whose error is collected.  The second component tells whether
`FromMetrics` returns at once, which it does on a canceled or expired context. -/
def convertDataPoints {α DP : Type} (st : ConversionState α) (metric : Metric DP)
    (add : MimirConverter α → List DP → MimirConverter α × Option GoError) :
    ConversionState α × Bool :=
  if metric.DataPoints.length = 0 then
    ({ st with errs := st.errs ++
        [plainError ("empty data points. " ++ metric.Name ++ " is dropped")] }, false)
  else
    match add st.c metric.DataPoints with
    | (c1, none) => ({ st with c := c1 }, false)
    | (c1, some err) =>
      ({ st with c := c1, errs := st.errs ++ [err] }, isCanceled err || isDeadlineExceeded err)

/-- The body of the innermost loop of `FromMetrics`, for one metric; the second component tells
whether `FromMetrics` returns at once. -/
def convertMetric {α Res DP : Type} (h : ConverterHelpers α Res DP) (settings : Settings)
    (resource : Res) (st : ConversionState α) (metric : Metric DP) :
    ConversionState α × Bool :=
  match h.checkContext st.c.everyN with
  | some err => ({ st with c := st.c.tick, errs := st.errs ++ [err] }, true)
  | none =>
    let st1 : ConversionState α :=
      { c := st.c.tick
        errs := st.errs
        mostRecentTimestamp :=
          max st.mostRecentTimestamp (h.mostRecentTimestampInMetric metric) }
    if !h.isValidAggregationTemporality metric then
      ({ st1 with errs := st1.errs ++
          [plainError ("invalid temporality and type combination for metric " ++
            h.Quote metric.Name)] }, false)
    else
      let promName :=
        h.BuildCompliantName metric settings.Namespace settings.AddMetricSuffixes
      match metric.Type_ with
      | .Gauge =>
        convertDataPoints st1 metric
          (fun c dataPoints => h.addGaugeNumberDataPoints c dataPoints resource settings promName)
      | .Sum =>
        convertDataPoints st1 metric
          (fun c dataPoints =>
            h.addSumNumberDataPoints c dataPoints resource metric settings promName)
      | .Histogram =>
        convertDataPoints st1 metric
          (fun c dataPoints => h.addHistogramDataPoints c dataPoints resource settings promName)
      | .ExponentialHistogram =>
        convertDataPoints st1 metric
          (fun c dataPoints =>
            h.addExponentialHistogramDataPoints c dataPoints resource settings promName)
      | .Summary =>
        convertDataPoints st1 metric
          (fun c dataPoints => h.addSummaryDataPoints c dataPoints resource settings promName)
      | .Empty => ({ st1 with errs := st1.errs ++ [plainError "unsupported metric type"] }, false)

/-- The loop `for k := 0; k < metricSlice.Len(); k++` of `FromMetrics`. -/
def convertMetricSlice {α Res DP : Type} (h : ConverterHelpers α Res DP) (settings : Settings)
    (resource : Res) : List (Metric DP) → ConversionState α → ConversionState α × Bool
  | [], st => (st, false)
  | metric :: rest, st =>
    match convertMetric h settings resource st metric with
    | (st1, true) => (st1, true)
    | (st1, false) => convertMetricSlice h settings resource rest st1

/-- The loop `for j := 0; j < scopeMetricsSlice.Len(); j++` of `FromMetrics`. -/
def convertScopeMetricsSlice {α Res DP : Type} (h : ConverterHelpers α Res DP)
    (settings : Settings) (resource : Res) :
    List (List (Metric DP)) → ConversionState α → ConversionState α × Bool
  | [], st => (st, false)
  | metricSlice :: rest, st =>
    match convertMetricSlice h settings resource metricSlice st with
    | (st1, true) => (st1, true)
    | (st1, false) => convertScopeMetricsSlice h settings resource rest st1

/-- The loop `for i := 0; i < resourceMetricsSlice.Len(); i++` of `FromMetrics`:
`mostRecentTimestamp` starts at 0 for every resource, and `addResourceTargetInfo` follows the
scopes of the resource unless `FromMetrics` has returned. -/
def convertResourceMetricsSlice {α Res DP : Type} (h : ConverterHelpers α Res DP)
    (settings : Settings) :
    List (ResourceMetrics Res DP) → MimirConverter α → List GoError →
      MimirConverter α × List GoError
  | [], c, errs => (c, errs)
  | resourceMetrics :: rest, c, errs =>
    match convertScopeMetricsSlice h settings resourceMetrics.Resource
        resourceMetrics.ScopeMetrics ⟨c, errs, 0⟩ with
    | (st1, true) => (st1.c, st1.errs)
    | (st1, false) =>
      convertResourceMetricsSlice h settings rest
        (h.addResourceTargetInfo resourceMetrics.Resource settings st1.mostRecentTimestamp st1.c)
        st1.errs

/-- The method `MimirConverter.FromMetrics`: the converter afterwards and the errors that make
up the returned `errs`, the empty list for nil. -/
def MimirConverter.FromMetrics {α Res DP : Type} (h : ConverterHelpers α Res DP)
    (c : MimirConverter α) (md : List (ResourceMetrics Res DP)) (settings : Settings) :
    MimirConverter α × List GoError :=
  convertResourceMetricsSlice h settings md { c with everyN := 0 } []

/-- Following the claim: the metrics it calls dropped, those with an invalid temporality and
those of a supported type with zero data points. -/
def isDroppedMetric {α Res DP : Type} (h : ConverterHelpers α Res DP) (metric : Metric DP) :
    Bool :=
  !h.isValidAggregationTemporality metric ||
    (metric.Type_ != MetricType.Empty && metric.DataPoints.isEmpty)

/-- Following the claim: the one error a dropped metric contributes. -/
def droppedMetricError {α Res DP : Type} (h : ConverterHelpers α Res DP) (metric : Metric DP) :
    GoError :=
  if h.isValidAggregationTemporality metric = false then
    plainError ("invalid temporality and type combination for metric " ++ h.Quote metric.Name)
  else plainError ("empty data points. " ++ metric.Name ++ " is dropped")

/-- Following the claim: a metric that is not dropped is converted, which is to say handed to
the method of its type; a metric of no supported type has no such method and gets an error. -/
def addDataPointsOf {α Res DP : Type} (h : ConverterHelpers α Res DP) (settings : Settings)
    (resource : Res) (metric : Metric DP) (c : MimirConverter α) :
    MimirConverter α × Option GoError :=
  let promName := h.BuildCompliantName metric settings.Namespace settings.AddMetricSuffixes
  match metric.Type_ with
  | .Gauge => h.addGaugeNumberDataPoints c metric.DataPoints resource settings promName
  | .Sum => h.addSumNumberDataPoints c metric.DataPoints resource metric settings promName
  | .Histogram => h.addHistogramDataPoints c metric.DataPoints resource settings promName
  | .ExponentialHistogram =>
    h.addExponentialHistogramDataPoints c metric.DataPoints resource settings promName
  | .Summary => h.addSummaryDataPoints c metric.DataPoints resource settings promName
  | .Empty => (c, some (plainError "unsupported metric type"))

/-- Following the claim: what one metric contributes while the conversion is not stopped.  A
dropped metric contributes exactly one error and no time series; any other metric is
converted, and the error of its conversion, if any, is collected.  Either way the context
check before the metric is counted and the timestamps of the metric count towards the most
recent timestamp of the resource. -/
def convertMetricSpec {α Res DP : Type} (h : ConverterHelpers α Res DP) (settings : Settings)
    (resource : Res) (st : ConversionState α) (metric : Metric DP) : ConversionState α :=
  let mostRecentTimestamp :=
    max st.mostRecentTimestamp (h.mostRecentTimestampInMetric metric)
  if isDroppedMetric h metric then
    { c := st.c.tick
      errs := st.errs ++ [droppedMetricError h metric]
      mostRecentTimestamp := mostRecentTimestamp }
  else
    { c := (addDataPointsOf h settings resource metric st.c.tick).1
      errs := st.errs ++ (addDataPointsOf h settings resource metric st.c.tick).2.toList
      mostRecentTimestamp := mostRecentTimestamp }

/-- Following the claim: the conversion of a request when nothing stops it: every metric of
every scope of every resource contributes in turn, and after the metrics of a resource comes
`addResourceTargetInfo` for that resource. -/
def FromMetricsSpec {α Res DP : Type} (h : ConverterHelpers α Res DP) (settings : Settings)
    (c : MimirConverter α) (md : List (ResourceMetrics Res DP)) :
    MimirConverter α × List GoError :=
  md.foldl (fun acc resourceMetrics =>
    let st := resourceMetrics.ScopeMetrics.flatten.foldl
      (convertMetricSpec h settings resourceMetrics.Resource) ⟨acc.1, acc.2, 0⟩
    (h.addResourceTargetInfo resourceMetrics.Resource settings st.mostRecentTimestamp st.c,
      st.errs)) ({ c with everyN := 0 }, [])

/-! ## Pruning the time series of a request (`pkg/distributor/push.go`) -/

/-- The functions `PruneTimeseries` calls that are not part of the sources, as parameters, over
a type `RC` of relabel configs.  `relabel tenantID relabelConfigs labels` stands for the lines
from `FromLabelAdaptersToBuilder` to `FromBuilderToLabelAdapters`: the labels after relabelling
with the tenant as meta label, and `none` when `relabel.ProcessBuilder` does not keep the
series.  The other fields are the methods and functions of their names, on labels and on
slices. -/
structure PruneHelpers (α RC : Type) where
  relabel : String → List RC → List LabelAdapter → Option (List LabelAdapter)
  RemoveLabel : List LabelAdapter → String → List LabelAdapter
  RemoveEmptyLabelValues : List LabelAdapter → List LabelAdapter
  SortLabelsIfNeeded : List LabelAdapter → List LabelAdapter
  ReusePreallocTimeseries : TimeSeries α → TimeSeries α
  RemoveSliceIndexes : List (TimeSeries α) → List Nat → List (TimeSeries α)

/-- The body of the loop of `PruneTimeseries` for the series `r.Timeseries[tsIdx]`: the series
as the loop leaves it, and whether its index is appended to `removeTsIndexes`.  `dropLabels`
is the list of the label names to drop (the parameter is declared a `string` in this source,
and a name is handed to `RemoveLabel` for each of its elements). -/
def pruneSeries {α RC : Type} (h : PruneHelpers α RC) (tenantID : String)
    (relabelConfigs : List RC) (dropLabels : List String) (ts : TimeSeries α) :
    TimeSeries α × Bool :=
  match (if relabelConfigs.length > 0 then h.relabel tenantID relabelConfigs ts.Labels
      else some ts.Labels) with
  | none => (ts, true)
  | some relabelled =>
    let stripped := h.RemoveEmptyLabelValues (dropLabels.foldl h.RemoveLabel relabelled)
    if stripped.length = 0 then ({ ts with Labels := stripped }, true)
    else ({ ts with Labels := h.SortLabelsIfNeeded stripped }, false)

/-- The loop `for tsIdx := 0; tsIdx < len(r.Timeseries); tsIdx++` of `PruneTimeseries`, from
index `tsIdx` on: the series as the loop leaves them, and `removeTsIndexes`. -/
def pruneLoop {α RC : Type} (h : PruneHelpers α RC) (tenantID : String)
    (relabelConfigs : List RC) (dropLabels : List String) :
    Nat → List (TimeSeries α) → List (TimeSeries α) × List Nat
  | _, [] => ([], [])
  | tsIdx, ts :: rest =>
    let pruned := pruneSeries h tenantID relabelConfigs dropLabels ts
    let others := pruneLoop h tenantID relabelConfigs dropLabels (tsIdx + 1) rest
    (pruned.1 :: others.1, if pruned.2 then tsIdx :: others.2 else others.2)

/-- The method `mimirRequest.PruneTimeseries`, on `r.Timeseries`: the loop, then
`ReusePreallocTimeseries` on the series of every index of `removeTsIndexes` (which holds each
index once) and `util.RemoveSliceIndexes`. -/
def PruneTimeseries {α RC : Type} (h : PruneHelpers α RC) (Timeseries : List (TimeSeries α))
    (tenantID : String) (relabelConfigs : List RC) (dropLabels : List String) :
    List (TimeSeries α) :=
  let looped := pruneLoop h tenantID relabelConfigs dropLabels 0 Timeseries
  let removeTsIndexes := looped.2
  if removeTsIndexes.length > 0 then
    h.RemoveSliceIndexes
      ((looped.1.enumFrom 0).map (fun entry =>
        if entry.1 ∈ removeTsIndexes then h.ReusePreallocTimeseries entry.2 else entry.2))
      removeTsIndexes
  else looped.1

/-! ## The activity tracker wrapper (`pkg/ingester/ingester_activity.go`) -/

/-- The methods of `ActivityTrackerWrapper`, in source order. -/
inductive Operation where
  | Push
  | PushWithCleanup
  | QueryStream
  | QueryExemplars
  | LabelValues
  | LabelNames
  | UserStats
  | AllUserStats
  | MetricsForLabelMatchers
  | MetricsMetadata
  | LabelNamesAndValues
  | LabelValuesCardinality
  | UploadBackfillFile
  | FinishBackfill
  | FlushHandler
  | ShutdownHandler
  deriving DecidableEq

/-- The context a method hands to `requestActivity`: its own `ctx`, `server.Context()`,
`context.Background()` or `r.Context()`. -/
inductive ActivityContext where
  | ctx
  | serverContext
  | background
  | requestContext
  deriving DecidableEq

/-- The closure a method hands to `tracker.Insert`: the arguments of its `requestActivity`
call; `request` is false where the request argument is `nil`. -/
structure Activity where
  context : ActivityContext
  name : String
  request : Bool
  deriving DecidableEq

/-- The activity each method describes, and `none` for the two methods whose body is
"No tracking". -/
def Operation.activity : Operation → Option Activity
  | .Push => none
  | .PushWithCleanup => none
  | .QueryStream => some ⟨.serverContext, "Ingester/QueryStream", true⟩
  | .QueryExemplars => some ⟨.ctx, "Ingester/QueryExemplars", true⟩
  | .LabelValues => some ⟨.ctx, "Ingester/LabelValues", true⟩
  | .LabelNames => some ⟨.ctx, "Ingester/LabelNames", true⟩
  | .UserStats => some ⟨.ctx, "Ingester/UserStats", true⟩
  | .AllUserStats => some ⟨.ctx, "Ingester/AllUserStats", true⟩
  | .MetricsForLabelMatchers => some ⟨.ctx, "Ingester/MetricsForLabelMatchers", true⟩
  | .MetricsMetadata => some ⟨.ctx, "Ingester/MetricsMetadata", true⟩
  | .LabelNamesAndValues => some ⟨.serverContext, "Ingester/LabelNamesAndValues", true⟩
  | .LabelValuesCardinality => some ⟨.serverContext, "Ingester/LabelValuesCardinality", true⟩
  | .UploadBackfillFile => some ⟨.background, "Ingester/UploadBackfillFile", true⟩
  | .FinishBackfill => some ⟨.background, "Ingester/FinishBackfill", true⟩
  | .FlushHandler => some ⟨.requestContext, "Ingester/FlushHandler", false⟩
  | .ShutdownHandler => some ⟨.requestContext, "Ingester/ShutdownHandler", false⟩

/-- The two methods of `activitytracker.ActivityTracker` the wrapper calls, over the states `T`
of a tracker; the package is not part of the sources.  `active` reads a state: the activity
stored under an index, if any. -/
structure ActivityTracker (T : Type) where
  Insert : T → Activity → T × Int
  Delete : T → Int → T
  active : T → Int → Option Activity

/-- The method `op` of `ActivityTrackerWrapper`, applied to the arguments `args`.  `ing op args`
is the wrapped ingester's method on the same arguments: from the state of the tracker, which it
can observe and not change, and the state of the ingester, to the new state of the ingester and
what the method returns (a response and an error).  A tracked method inserts, calls the
ingester and, through `defer`, deletes. -/
def ActivityTrackerWrapper.run {T I A R : Type} (tracker : ActivityTracker T)
    (ing : Operation → A → T → I → I × R) (op : Operation) (args : A) (t : T) (i : I) :
    T × I × R :=
  match op.activity with
  | none => (t, ing op args t i)
  | some activity =>
    let inserted := tracker.Insert t activity
    let returned := ing op args inserted.1 i
    (tracker.Delete inserted.1 inserted.2, returned)

/-! ## Example inputs -/

/-- A small configuration: two tokens per instance, one zone, evenly-spaced seeding. -/
def exampleConfig : Config := ⟨2, ["zone"], 4294967295, .Simple 1, .EvenlySpaced 2, 2⟩

/-- The draws of the random source of the example. -/
def exampleRand : List Nat := [3000000000, 500000000, 1073741823, 4000000000, 7, 8]

/-- Two admissions, as the driver without zone-awareness issues them. -/
def exampleCalls : List (Instance × Zone) := [("I-0", "zone"), ("I-1", "zone")]

/-- The distributor the two admissions of the example lead to. -/
def exampleDistributor : TokenDistributor :=
  ⟨exampleConfig, ⟨[(0, "I-0"), (7, "I-1"), (1073741823, "I-0"), (3000000000, "I-1")]⟩,
    [("I-1", "zone"), ("I-0", "zone")], [8]⟩

/-- A request with the header `Retry-Attempt: 2` and no other header. -/
def exampleRequest : Request :=
  { Header := fun key => if key = "Retry-Attempt" then "2" else "", ContentLength := 0 }

/-- The error `middleware.DoNotLogError{Err: httpgrpc.Errorf(413, "this is an error")}`. -/
def exampleDoNotLogError : GoError :=
  { head := { kind := .DoNotLogError, text := (httpgrpcErrorf 413 "this is an error").Error }
    wrapped := (httpgrpcErrorf 413 "this is an error").chain }

/-- An error that wraps an ingestion-rate-limited distributor error and
`context.DeadlineExceeded`, such as `fmt.Errorf("%w: %w", rateLimited, ctx.Err())`. -/
def exampleRateLimitedDeadline : GoError :=
  { head := { kind := .other, text := "ingestion rate limit: context deadline exceeded" }
    wrapped :=
      [{ kind := .distributorError .INGESTION_RATE_LIMITED, text := "ingestion rate limit" },
       { kind := .DeadlineExceeded, text := "context deadline exceeded" }] }

/-- The error `fmt.Errorf("the request failed: %w", context.Canceled)`. -/
def exampleCanceledError : GoError :=
  { head := { kind := .other, text := "the request failed: context canceled" }
    wrapped := [{ kind := .Canceled, text := "context canceled" }] }

/-- An activity tracker with a single entry: `Insert` fills the entry when it is free and
returns -1 when it is taken, `Delete` frees the entry of index 0. -/
def exampleTracker : ActivityTracker (Option Activity) where
  Insert := fun t a =>
    match t with
    | none => (some a, 0)
    | some b => (some b, -1)
  Delete := fun t ix => if ix = 0 then none else t
  active := fun t ix => if ix = 0 then t else none

/-- An ingester that counts its calls and answers with the entry it sees in the tracker. -/
def exampleIngester : Operation → String → Option Activity → Nat → Nat × Option Activity :=
  fun _ _ t calls => (calls + 1, t)

/-- A label hash for the examples: a polynomial in the characters of the names and values. -/
def exampleSignature (lbls : List LabelAdapter) : Nat :=
  (lbls.flatMap (fun l => l.Name.data ++ l.Value.data)).foldl
    (fun acc ch => (31 * acc + ch.toNat) % 4294967296) 7

/-- An implementation of `getOrCreateTimeSeries` for the examples: the series `unique` holds
for the hash of the labels when `isSameMetric` accepts it, else the first series of the
conflict list that `isSameMetric` accepts, else a new series at the next free address. -/
def exampleGetOrCreateTimeSeries (c : MimirConverter Int) (lbls : List LabelAdapter) :
    MimirConverter Int × Nat × Bool :=
  let hash := exampleSignature lbls
  let fresh := c.unique.length + (c.conflicts.map (fun e => e.2.length)).sum
  let created : TimeSeries Int := ⟨lbls, [], []⟩
  match c.unique.lookup hash with
  | none =>
    ({ c with series := Function.update c.series fresh created,
              unique := (hash, fresh) :: c.unique }, fresh, true)
  | some ts =>
    if isSameMetric (c.series ts) lbls then (c, ts, false)
    else
      match ((c.conflicts.lookup hash).getD []).find? (fun p => isSameMetric (c.series p) lbls)
      with
      | some cTS => (c, cTS, false)
      | none =>
        ({ c with series := Function.update c.series fresh created,
                  conflicts := (hash, (c.conflicts.lookup hash).getD [] ++ [fresh]) ::
                    c.conflicts.filter (fun e => e.1 != hash) }, fresh, true)

/-- A converter with three series: two with one sample each, at addresses 0 and 2, and one
without samples, at address 1. -/
def exampleConverter : MimirConverter Int :=
  { series := fun p =>
      if p = 0 then ⟨[⟨"le", "10"⟩], [⟨1, 1000⟩], []⟩
      else if p = 1 then ⟨[⟨"le", "5"⟩], [], []⟩
      else if p = 2 then ⟨[⟨"le", "20"⟩], [⟨2, 1000⟩], []⟩
      else ⟨[], [], []⟩
    unique := [(10, 0), (5, 1), (20, 2)]
    conflicts := []
    everyN := 0 }

/-- A converter with three histogram series, each with one sample, at addresses 0, 1 and 2,
and one series without samples, at address 3. -/
def exampleHistogramConverter : MimirConverter (Float64 Int) :=
  { series := fun p =>
      if p = 0 then ⟨[⟨"le", "5"⟩], [⟨.num 1, 1000⟩], []⟩
      else if p = 1 then ⟨[⟨"le", "NaN"⟩], [⟨.num 1, 1000⟩], []⟩
      else if p = 2 then ⟨[⟨"le", "1"⟩], [⟨.num 1, 1000⟩], []⟩
      else ⟨[⟨"le", "3"⟩], [], []⟩
    unique := [(5, 0), (0, 1), (1, 2), (3, 3)]
    conflicts := []
    everyN := 0 }

/-- Bucket bounds without NaN, out of order: 5, 3 (a series without samples) and 1. -/
def exampleBucketBounds : List (bucketBoundsData (Float64 Int)) :=
  [⟨0, .num 5⟩, ⟨3, .num 3⟩, ⟨2, .num 1⟩]

/-- Bucket bounds with a NaN between 5 and 1. -/
def exampleBucketBoundsNaN : List (bucketBoundsData (Float64 Int)) :=
  [⟨0, .num 5⟩, ⟨1, .NaN⟩, ⟨2, .num 1⟩]

/-- Four exemplars, of values 0, 2, 7 and NaN. -/
def exampleExemplars : List (Exemplar (Float64 Int)) :=
  [⟨[], .num 0, 1000⟩, ⟨[], .num 2, 1000⟩, ⟨[], .num 7, 1000⟩, ⟨[], .NaN, 1000⟩]

/-- An implementation of `getPromExemplars` for the examples: the four exemplars, after one
context check each. -/
def exampleGetPromExemplars (n : Nat) (_ : Unit) :
    Except GoError (List (Exemplar (Float64 Int))) × Nat :=
  (.ok exampleExemplars, n + 4)

/-- A context that is never done. -/
def exampleCheckContext : Nat → Option GoError := fun _ => none

/-- Helpers for the examples: a context that is never done, every gauge and summary valid,
and gauge data points, given by their attributes, added as one sample each under the labels
`__name__` and the attributes. -/
def exampleHelpers : ConverterHelpers Int Unit (List LabelAdapter) where
  checkContext := exampleCheckContext
  mostRecentTimestampInMetric := fun _ => 0
  isValidAggregationTemporality := fun m => m.Type_ == .Gauge || m.Type_ == .Summary
  BuildCompliantName := fun m _ _ => m.Name
  Quote := fun s => "\"" ++ s ++ "\""
  addGaugeNumberDataPoints := fun c dataPoints _ _ promName =>
    (dataPoints.foldl (fun c1 attributes =>
      (MimirConverter.addSample exampleGetOrCreateTimeSeries c1 (some ⟨0, 0⟩)
        (⟨"__name__", promName⟩ :: attributes)).1) c, none)
  addSumNumberDataPoints := fun c _ _ _ _ _ => (c, none)
  addHistogramDataPoints := fun c _ _ _ _ => (c, none)
  addExponentialHistogramDataPoints := fun c _ _ _ _ => (c, none)
  addSummaryDataPoints := fun c _ _ _ _ => (c, none)
  addResourceTargetInfo := fun _ _ _ c => c

/-- The settings of the examples. -/
def exampleSettings : Settings := ⟨"", [], true, false, true, false, []⟩

/-- The gauge `foo` without data points. -/
def exampleEmptyGauge : Metric (List LabelAdapter) := ⟨"foo", .Gauge, []⟩

/-- The gauge `foo` with three data points that differ in the label `diff_label`. -/
def exampleGauge : Metric (List LabelAdapter) :=
  ⟨"foo", .Gauge, [[⟨"diff_label", "bar"⟩], [⟨"diff_label", "baz"⟩], [⟨"diff_label", "food"⟩]]⟩

/-- The request of `TestHandler_otlpDroppedMetricsPanic`: a resource with the gauge of three
data points, then a resource with the empty gauge. -/
def exampleMetrics : List (ResourceMetrics Unit (List LabelAdapter)) :=
  [⟨(), [[exampleGauge]]⟩, ⟨(), [[exampleEmptyGauge]]⟩]

/-- A sum, which `exampleHelpers` takes to have an invalid temporality. -/
def exampleInvalidSum : Metric (List LabelAdapter) := ⟨"sum", .Sum, [[⟨"diff_label", "bar"⟩]]⟩

/-- The gauge `bar` with one data point. -/
def exampleSecondGauge : Metric (List LabelAdapter) :=
  ⟨"bar", .Gauge, [[⟨"diff_label", "bar"⟩]]⟩

/-- A request whose first two metrics are dropped: the empty gauge and the invalid sum, then
the gauge of three data points in a second scope, and a gauge in a second resource. -/
def exampleMetricsDroppedFirst : List (ResourceMetrics Unit (List LabelAdapter)) :=
  [⟨(), [[exampleEmptyGauge, exampleInvalidSum], [exampleGauge]]⟩, ⟨(), [[exampleSecondGauge]]⟩]

/-- Helpers of `PruneTimeseries` for the examples: a relabel config is the name of a label
whose presence drops the series, labels are sorted by name, and `RemoveSliceIndexes` keeps the
series whose index is not listed. -/
def examplePruneHelpers : PruneHelpers Int String where
  relabel := fun _ relabelConfigs lbls =>
    if lbls.any (fun l => relabelConfigs.contains l.Name) then none else some lbls
  RemoveLabel := fun lbls labelName => lbls.filter (fun l => l.Name != labelName)
  RemoveEmptyLabelValues := fun lbls => lbls.filter (fun l => l.Value != "")
  SortLabelsIfNeeded := fun lbls =>
    lbls.insertionSort (fun a b => a.Name.data ≤ b.Name.data)
  ReusePreallocTimeseries := fun _ => ⟨[], [], []⟩
  RemoveSliceIndexes := fun data idxs =>
    ((data.enumFrom 0).filter (fun e => decide (e.1 ∉ idxs))).map Prod.snd

/-- Four series: one with unsorted labels and an empty value, one the relabel config `drop`
removes, one whose only label has an empty value, and one with the label `tmp` to drop. -/
def exampleTimeseries : List (TimeSeries Int) :=
  [⟨[⟨"b", "2"⟩, ⟨"a", "1"⟩, ⟨"empty", ""⟩], [⟨1, 1000⟩], []⟩,
   ⟨[⟨"drop", "x"⟩], [⟨2, 1000⟩], []⟩,
   ⟨[⟨"job", ""⟩], [⟨3, 1000⟩], []⟩,
   ⟨[⟨"z", "1"⟩, ⟨"tmp", "x"⟩], [⟨4, 1000⟩], []⟩]

/-- Modelled from the spec: the Ring invariant of §3: the sequence is sorted by token value and
the tokens are strictly unique. -/
def Ring.Sorted (r : Ring) : Prop := r.entries.Pairwise (fun a b => a.1 < b.1)

/-! ## Theorems -/

/-! ### The ring invariant -/

theorem mem_insertSorted (es : List (Token × Instance)) (t : Token) (i : Instance)
    (x : Token × Instance) : x ∈ insertSorted es t i ↔ x = (t, i) ∨ x ∈ es := by
  induction es with
  | nil => simp [insertSorted]
  | cons e es ih =>
    simp only [insertSorted]
    split
    · simp
    · simp only [List.mem_cons, ih]
      tauto

theorem insertSorted_pairwise (es : List (Token × Instance)) (t : Token) (i : Instance)
    (h : es.Pairwise (fun a b => a.1 < b.1)) (hn : ∀ e ∈ es, e.1 ≠ t) :
    (insertSorted es t i).Pairwise (fun a b => a.1 < b.1) := by
  induction es with
  | nil => simp [insertSorted]
  | cons e es ih =>
    simp only [insertSorted]
    rw [List.pairwise_cons] at h
    split
    · rename_i hlt
      refine List.pairwise_cons.2 ⟨?_, List.pairwise_cons.2 h⟩
      intro a ha
      rcases List.mem_cons.1 ha with rfl | ha
      · exact hlt
      · exact lt_trans hlt (h.1 a ha)
    · rename_i hge
      refine List.pairwise_cons.2
        ⟨?_, ih h.2 (fun x hx => hn x (List.mem_cons_of_mem _ hx))⟩
      intro a ha
      rcases (mem_insertSorted es t i a).1 ha with rfl | ha
      · have hne := hn e (List.mem_cons_self _ _)
        exact lt_of_le_of_ne (Nat.le_of_not_lt hge) hne
      · exact h.1 a ha

theorem Ring.insert_ok_iff (r r1 : Ring) (t : Token) (i : Instance) :
    r.insert t i = .ok r1 ↔ r.hasToken t = false ∧ r1 = ⟨insertSorted r.entries t i⟩ := by
  unfold Ring.insert
  cases h : r.hasToken t <;> simp [eq_comm]

theorem Ring.insert_sorted (r r1 : Ring) (t : Token) (i : Instance) (hs : r.Sorted)
    (h : r.insert t i = .ok r1) : r1.Sorted := by
  obtain ⟨hf, rfl⟩ := (Ring.insert_ok_iff r r1 t i).1 h
  refine insertSorted_pairwise r.entries t i hs ?_
  intro e he heq
  have : r.hasToken t = true := by
    unfold Ring.hasToken
    exact List.any_eq_true.2 ⟨e, he, by simp [heq]⟩
  simp [hf] at this

theorem placeToken_sorted (maxToken : Token) (r r1 : Ring) (i : Instance) (t t1 : Token)
    (src src1 : List Nat) (hs : r.Sorted)
    (h : placeToken maxToken r i t src = some (r1, t1, src1)) : r1.Sorted := by
  unfold placeToken at h
  split at h
  · rename_i r2 hins
    simp only [Option.some.injEq, Prod.mk.injEq] at h
    exact h.1 ▸ Ring.insert_sorted r r2 t i hs hins
  · split at h
    · exact absurd h (by simp)
    · split at h
      · rename_i r2 hins
        simp only [Option.some.injEq, Prod.mk.injEq] at h
        exact h.1 ▸ Ring.insert_sorted r r2 _ i hs hins
      · exact absurd h (by simp)

theorem seedTokens_sorted (cfg : Config) (i : Instance) (n : Nat) :
    ∀ (r r1 : Ring) (src src1 : List Nat) (ts : List Token), r.Sorted →
      seedTokens cfg i n r src = some (r1, ts, src1) → r1.Sorted := by
  induction n with
  | zero =>
    intro r r1 src src1 ts hs h
    simp only [seedTokens, Option.some.injEq, Prod.mk.injEq] at h
    exact h.1 ▸ hs
  | succ n ih =>
    intro r r1 src src1 ts hs h
    simp only [seedTokens] at h
    split at h
    · exact absurd h (by simp)
    · split at h
      · exact absurd h (by simp)
      · rename_i r2 t2 src2 hp
        split at h
        · exact absurd h (by simp)
        · rename_i r3 ts3 src3 hrec
          simp only [Option.some.injEq, Prod.mk.injEq] at h
          exact h.1 ▸ ih r2 r3 _ _ _ (placeToken_sorted _ _ _ _ _ _ _ _ hs hp) hrec

theorem candidateSearch_sorted (cfg : Config) (zoneOf : Instance → Option Zone) (i : Instance)
    (n : Nat) :
    ∀ (r r1 : Ring) (src src1 : List Nat) (ts : List Token), r.Sorted →
      candidateSearch cfg zoneOf i n r src = some (r1, ts, src1) → r1.Sorted := by
  induction n with
  | zero =>
    intro r r1 src src1 ts hs h
    simp only [candidateSearch, Option.some.injEq, Prod.mk.injEq] at h
    exact h.1 ▸ hs
  | succ n ih =>
    intro r r1 src src1 ts hs h
    simp only [candidateSearch] at h
    split at h
    · exact absurd h (by simp)
    · split at h
      · exact absurd h (by simp)
      · split at h
        · exact absurd h (by simp)
        · rename_i r2 t2 src2 hp
          split at h
          · exact absurd h (by simp)
          · rename_i r3 ts3 src3 hrec
            simp only [Option.some.injEq, Prod.mk.injEq] at h
            exact h.1 ▸ ih r2 r3 _ _ _ (placeToken_sorted _ _ _ _ _ _ _ _ hs hp) hrec

theorem AddInstance_sorted (td td1 : TokenDistributor) (i : Instance) (z : Zone)
    (res : Except AdmitError AdmitResult) (hs : td.ring.Sorted)
    (h : td.AddInstance i z = some (td1, res)) : td1.ring.Sorted := by
  unfold TokenDistributor.AddInstance at h
  split at h
  · simp only [Option.some.injEq, Prod.mk.injEq] at h
    exact h.1 ▸ hs
  · split at h
    · simp only [Option.some.injEq, Prod.mk.injEq] at h
      exact h.1 ▸ hs
    · simp only at h
      split at h
      · exact absurd h (by simp)
      · rename_i r1 added src1 hp
        simp only [Option.some.injEq, Prod.mk.injEq] at h
        rw [← h.1]
        show r1.Sorted
        split at hp
        · exact seedTokens_sorted _ _ _ _ _ _ _ _ hs hp
        · exact candidateSearch_sorted _ _ _ _ _ _ _ _ _ hs hp

theorem admitAll_sorted (calls : List (Instance × Zone)) :
    ∀ (td td1 : TokenDistributor), td.ring.Sorted → admitAll td calls = some td1 →
      td1.ring.Sorted := by
  induction calls with
  | nil =>
    intro td td1 hs h
    simp only [admitAll, Option.some.injEq] at h
    exact h ▸ hs
  | cons c calls ih =>
    intro td td1 hs h
    obtain ⟨i, z⟩ := c
    simp only [admitAll] at h
    split at h
    · rename_i td2 res hadd
      exact ih td2 td1 (AddInstance_sorted td td2 i z _ hs hadd) h
    · exact absurd h (by simp)

theorem Ring.nodup_of_sorted (r : Ring) (hs : r.Sorted) : r.tokens.Nodup := by
  unfold Ring.tokens
  unfold Ring.Sorted at hs
  rw [List.Nodup, List.pairwise_map]
  exact hs.imp (fun h => Nat.ne_of_lt h)

/-! ### Instance identifiers of the drivers -/

theorem parseDigits_toDigitsCore (f : Nat) : ∀ (n : Nat) (acc : List Char), n < f →
    parseDigits (Nat.toDigitsCore 10 f n acc) 0 = parseDigits acc n := by
  induction f with
  | zero => intro n acc h; omega
  | succ f ih =>
    intro n acc h
    have hd : ∀ k, k < 10 → (Nat.digitChar k).isDigit = true ∧ (Nat.digitChar k).toNat - 48 = k := by
      intro k hk
      interval_cases k <;> exact ⟨rfl, rfl⟩
    have hm := hd (n % 10) (Nat.mod_lt _ (by decide))
    simp only [Nat.toDigitsCore]
    split
    · rename_i h0
      simp only [parseDigits, hm.1, hm.2, if_true, Nat.mul_zero, Nat.zero_add]
      congr 1
      omega
    · rename_i h0
      rw [ih (n / 10) _ (by omega)]
      simp only [parseDigits, hm.1, hm.2, if_true]
      congr 1
      omega

theorem parseDigits_toString (n : Nat) : parseDigits (toString n).data 0 = some n := by
  have h := parseDigits_toDigitsCore (n + 1) n [] (by omega)
  simpa [toString, Nat.repr, Nat.toDigits, parseDigits] using h

theorem toString_nat_injective (a b : Nat) (h : toString a = toString b) : a = b := by
  have ha := parseDigits_toString a
  rw [h, parseDigits_toString b] at ha
  exact (Option.some.inj ha).symm

theorem wrapInt32_small (x : Int) (h0 : 0 ≤ x) (h1 : x < 2147483648) : wrapInt32 x = x := by
  unfold wrapInt32; omega

theorem runeString_data (j : Nat) (h : j ≤ 55231) :
    ∃ c : Char, (runeString (65 + (j : Int))).data = [c] ∧
      c.toNat = if j < 55231 then 65 + j else 65533 := by
  have hw : wrapInt32 (65 + (j : Int)) = ((65 + j : Nat) : Int) := by
    rw [wrapInt32_small _ (by omega) (by omega)]; push_cast; rfl
  unfold runeString
  rw [hw, Int.toNat_ofNat]
  by_cases hj : j < 55231
  · have hv : (65 + j).isValidChar := Or.inl (by omega)
    rw [if_pos ⟨by omega, hv⟩, if_pos hj]
    refine ⟨Char.ofNat (65 + j), rfl, ?_⟩
    simp [Char.ofNat, hv, Char.ofNatAux, Char.toNat]
    rfl
  · have hj2 : j = 55231 := by omega
    subst hj2
    refine ⟨Char.ofNat 65533, ?_, ?_⟩
    · have hnv : ¬ (65 + 55231).isValidChar := by decide
      rw [if_neg (fun hh => hnv hh.2)]
    · rfl

theorem instanceName_injective (a b : Nat) (h : instanceName a = instanceName b) : a = b := by
  have hd := congrArg String.data h
  simp only [instanceName, String.data_append, List.append_cancel_left_eq] at hd
  exact toString_nat_injective a b (String.ext hd)

theorem zoneInstanceName_injective (j j1 i i1 : Nat) (hj : j ≤ 55231) (hj1 : j1 ≤ 55231)
    (h : zoneInstanceName j i = zoneInstanceName j1 i1) : j = j1 ∧ i = i1 := by
  obtain ⟨c, hc, hcn⟩ := runeString_data j hj
  obtain ⟨c1, hc1, hcn1⟩ := runeString_data j1 hj1
  have hd := congrArg String.data h
  unfold zoneInstanceName at hd
  have hdash : ("-" : String).data = ['-'] := rfl
  rw [String.data_append, String.data_append, String.data_append, String.data_append, hc, hc1,
    hdash] at hd
  have hcc : c = c1 := by
    have := congrArg List.head? hd
    simpa using this
  have hdig : (toString i).data = (toString i1).data := by
    have := congrArg (List.drop 2) hd
    simpa using this
  refine ⟨?_, toString_nat_injective i i1 (String.ext hdig)⟩
  rw [hcc, hcn1] at hcn
  split_ifs at hcn <;> omega

theorem wrapInt64_small (x : Int) (h0 : 0 ≤ x) (h1 : x < 9223372036854775808) :
    wrapInt64 x = x := by
  unfold wrapInt64; omega

theorem rowIndicesInRange_of_small (zones : List Zone) (instancesPerZone : Int)
    (h : instancesPerZone * zones.length < 9223372036854775808) :
    rowIndicesInRange zones instancesPerZone (wrapInt64 (instancesPerZone * zones.length))
      = true := by
  unfold rowIndicesInRange
  rw [List.all_eq_true]
  intro i hi
  rw [List.all_eq_true]
  intro j hj
  rw [List.mem_range] at hi hj
  have hi2 : (i : Int) < instancesPerZone := by omega
  have hL : (0 : Int) ≤ (zones.length : Int) := Int.ofNat_nonneg _
  have h1 : ((i : Int) + 1) * zones.length ≤ instancesPerZone * zones.length :=
    Int.mul_le_mul_of_nonneg_right (by omega) hL
  have h0 : (0 : Int) ≤ (i : Int) * zones.length := Int.mul_nonneg (Int.ofNat_nonneg _) hL
  have h2 : ((i : Int) + 1) * zones.length = (i : Int) * zones.length + zones.length := by ring
  have hj2 : (j : Int) < zones.length := by exact_mod_cast hj
  rw [wrapInt64_small ((i : Int) * zones.length) h0 (by omega),
    wrapInt64_small ((i : Int) * zones.length + j) (by omega) (by omega),
    wrapInt64_small (instancesPerZone * zones.length) (by omega) h]
  simp only [decide_eq_true_eq]
  omega

theorem length_addInstanceCallsWithZones (zones : List Zone) (n : Nat) :
    ((List.range n).flatMap (fun i =>
      (List.range zones.length).map (fun j => (zoneInstanceName j i, zones.getD j "")))).length
      = n * zones.length := by
  induction n with
  | zero => simp
  | succ n ih =>
    rw [List.range_succ, List.flatMap_append, List.length_append, ih]
    simp [Nat.succ_mul]

theorem map_fst_addInstanceCallsWithZones (zones : List Zone) (instancesPerZone : Int) :
    (addInstanceCallsWithZones zones instancesPerZone).map Prod.fst =
      (List.range instancesPerZone.toNat).flatMap (fun i =>
        (List.range zones.length).map (fun j => zoneInstanceName j i)) := by
  unfold addInstanceCallsWithZones
  rw [List.map_flatMap]
  congr 1
  funext i
  rw [List.map_map]
  rfl

theorem nodup_addInstanceCallsWithZones (zones : List Zone) (instancesPerZone : Int)
    (hz : zones.length ≤ 55232) :
    ((addInstanceCallsWithZones zones instancesPerZone).map Prod.fst).Nodup := by
  rw [map_fst_addInstanceCallsWithZones, List.nodup_flatMap]
  constructor
  · intro i _
    refine List.Nodup.map_on ?_ (List.nodup_range _)
    intro a ha b hb hab
    rw [List.mem_range] at ha hb
    exact (zoneInstanceName_injective a b i i (by omega) (by omega) hab).1
  · refine (List.nodup_range _).imp ?_
    intro a b hab x hxa hxb
    rw [List.mem_map] at hxa hxb
    obtain ⟨ja, hja, hxa⟩ := hxa
    obtain ⟨jb, hjb, hxb⟩ := hxb
    rw [List.mem_range] at hja hjb
    exact hab (zoneInstanceName_injective ja jb a b (by omega) (by omega)
      (hxa.trans hxb.symm)).2

theorem nodup_addInstanceCallsWithoutZones (zones : List Zone) (instancesCount : Int) :
    ((addInstanceCallsWithoutZones zones instancesCount).map Prod.fst).Nodup := by
  unfold addInstanceCallsWithoutZones
  rw [List.map_map]
  refine List.Nodup.map_on ?_ (List.nodup_range _)
  intro a _ b _ hab
  exact instanceName_injective a b hab

/-! ### Claims about the token distributor and its drivers -/

/-- C1: for every sequence of successful instance admissions (`AddInstance` calls) on a token
distributor, starting from the empty ring it is constructed with, the ring contains no two
entries with the same token. -/
theorem ring_tokens_unique_after_admissions (cfg : Config) (rand : List Nat)
    (calls : List (Instance × Zone)) (td : TokenDistributor)
    (h : admitAll (NewTokenDistributor cfg rand) calls = some td) : td.ring.tokens.Nodup :=
  Ring.nodup_of_sorted td.ring
    (admitAll_sorted calls (NewTokenDistributor cfg rand) td List.Pairwise.nil h)

theorem ring_tokens_unique_after_admissions_witness :
    admitAll (NewTokenDistributor exampleConfig exampleRand) exampleCalls
        = some exampleDistributor ∧
      exampleDistributor.ring.tokens.Nodup :=
  ⟨by decide,
    ring_tokens_unique_after_admissions exampleConfig exampleRand exampleCalls
      exampleDistributor (by decide)⟩

/-- C2: admitting an instance identifier that is already present in the ring returns the
`DuplicateInstance` error and leaves the distributor, and so its ring, exactly as it was
before the call: no token is added. -/
theorem AddInstance_duplicate_is_noop (td : TokenDistributor) (i : Instance) (z : Zone)
    (h : td.ring.hasInstance i = true) :
    td.AddInstance i z = some (td, .error .DuplicateInstance) := by
  unfold TokenDistributor.AddInstance
  rw [if_pos h]

theorem AddInstance_duplicate_is_noop_witness :
    exampleDistributor.ring.hasInstance "I-0" = true ∧
      exampleDistributor.AddInstance "I-0" "zone"
        = some (exampleDistributor, .error .DuplicateInstance) :=
  ⟨by decide, AddInstance_duplicate_is_noop exampleDistributor "I-0" "zone" (by decide)⟩

theorem mem_distributors_without (SingleZone : Zone) (scenarios : List Int)
    (replicationFactor instancesCount : Int) (sim : RingSimulation) (run : DistributorRun)
    (h : generateRingWithoutZoneAwareness SingleZone scenarios replicationFactor instancesCount
      = some sim) (hr : run ∈ sim.distributors) :
    run.zoneCount = 1 ∧
      run.addInstanceCalls = addInstanceCallsWithoutZones [SingleZone] instancesCount := by
  unfold generateRingWithoutZoneAwareness at h
  split at h
  · exact absurd h (by simp)
  · simp only [Option.some.injEq] at h
    subst h
    simp only [List.mem_flatMap, List.mem_map] at hr
    obtain ⟨n, _, k, _, rfl⟩ := hr
    exact ⟨rfl, rfl⟩

theorem mem_distributors_with (scenarios : List Int) (replicationFactor instancesPerZone : Int)
    (zones : List Zone) (sim : RingSimulation) (run : DistributorRun)
    (h : generateRingWithZoneAwareness scenarios replicationFactor instancesPerZone zones
      = some sim) (hr : run ∈ sim.distributors) :
    run.zoneCount = zones.length ∧
      run.addInstanceCalls = addInstanceCallsWithZones zones instancesPerZone := by
  unfold generateRingWithZoneAwareness at h
  split at h
  · exact absurd h (by simp)
  · split at h
    · exact absurd h (by simp)
    · simp only [Option.some.injEq] at h
      subst h
      simp only [List.mem_flatMap, List.mem_map] at hr
      obtain ⟨n, _, k, _, rfl⟩ := hr
      exact ⟨rfl, rfl⟩

/-- C3, as amended: within one token distributor built by either driver, `AddInstance` is called
exactly once per instance being added, and the identifiers passed are pairwise distinct:
always for `generateRingWithoutZoneAwareness` ("I-i"), and for `generateRingWithZoneAwareness`
whenever there are at most 55232 zones. -/
theorem addInstance_identifiers_distinct (SingleZone : Zone) (scenarios : List Int)
    (replicationFactor instances : Int) (zones : List Zone) :
    (∀ sim, generateRingWithoutZoneAwareness SingleZone scenarios replicationFactor instances
        = some sim →
      ∀ run ∈ sim.distributors, run.addInstanceCalls.length = instances.toNat ∧
        (run.addInstanceCalls.map Prod.fst).Nodup) ∧
    (zones.length ≤ 55232 →
      ∀ sim, generateRingWithZoneAwareness scenarios replicationFactor instances zones
        = some sim →
      ∀ run ∈ sim.distributors,
        run.addInstanceCalls.length = instances.toNat * zones.length ∧
        (run.addInstanceCalls.map Prod.fst).Nodup) := by
  constructor
  · intro sim h run hr
    rw [(mem_distributors_without _ _ _ _ _ _ h hr).2]
    exact ⟨by simp [addInstanceCallsWithoutZones],
      nodup_addInstanceCallsWithoutZones _ _⟩
  · intro hz sim h run hr
    rw [(mem_distributors_with _ _ _ _ _ _ h hr).2]
    exact ⟨length_addInstanceCallsWithZones zones _,
      nodup_addInstanceCallsWithZones zones instances hz⟩

theorem addInstance_identifiers_distinct_witness :
    ((generateRingWithoutZoneAwareness "zone" [4, 16] 3 2).isSome = true ∧
      ∀ sim, generateRingWithoutZoneAwareness "zone" [4, 16] 3 2 = some sim →
        ∀ run ∈ sim.distributors, run.addInstanceCalls.length = (2 : Int).toNat ∧
          (run.addInstanceCalls.map Prod.fst).Nodup) ∧
    ((generateRingWithZoneAwareness [4, 16] 3 2 ["zone-a", "zone-b", "zone-c"]).isSome = true ∧
      ∀ sim, generateRingWithZoneAwareness [4, 16] 3 2 ["zone-a", "zone-b", "zone-c"]
          = some sim →
        ∀ run ∈ sim.distributors,
          run.addInstanceCalls.length
            = (2 : Int).toNat * ["zone-a", "zone-b", "zone-c"].length ∧
          (run.addInstanceCalls.map Prod.fst).Nodup) :=
  ⟨⟨by decide,
      (addInstance_identifiers_distinct "zone" [4, 16] 3 2 ["zone-a", "zone-b", "zone-c"]).1⟩,
    ⟨by decide,
      (addInstance_identifiers_distinct "zone" [4, 16] 3 2 ["zone-a", "zone-b", "zone-c"]).2
        (by decide)⟩⟩

theorem generateRingWithZoneAwareness_isSome (scenarios : List Int)
    (replicationFactor instancesPerZone : Int) (zones : List Zone)
    (h0 : 0 ≤ instancesPerZone * zones.length)
    (h1 : instancesPerZone * zones.length < 9223372036854775808) :
    ∃ sim, generateRingWithZoneAwareness scenarios replicationFactor instancesPerZone zones
        = some sim ∧
      (∀ n ∈ scenarios, ∃ run ∈ sim.distributors,
        run.tokensPerInstance = n ∧
        run.addInstanceCalls = addInstanceCallsWithZones zones instancesPerZone) := by
  unfold generateRingWithZoneAwareness
  rw [if_neg (by rw [wrapInt64_small _ h0 h1]; omega),
    if_neg (by rw [rowIndicesInRange_of_small zones instancesPerZone h1]; simp)]
  refine ⟨_, rfl, ?_⟩
  intro n hn
  refine ⟨_, List.mem_flatMap.2 ⟨n, hn, List.mem_map.2 ⟨0, by simp [iterations], rfl⟩⟩, rfl, rfl⟩

/-- C3, as stated, fails for `generateRingWithZoneAwareness`: with 55233 zones and one instance
per zone the zones of index 55231 and 55232 are both named by the replacement character, so
the identifier `"\uFFFD-0"` is passed to `AddInstance` twice on the same distributor. -/
theorem zone_identifiers_collide :
    ∃ sim run, generateRingWithZoneAwareness [4] 3 1 (List.replicate 55233 "zone") = some sim ∧
      run ∈ sim.distributors ∧ ¬ (run.addInstanceCalls.map Prod.fst).Nodup := by
  obtain ⟨sim, hsim, hruns⟩ := generateRingWithZoneAwareness_isSome [4] 3 1
    (List.replicate 55233 "zone") (by rw [List.length_replicate]; decide)
    (by rw [List.length_replicate]; decide)
  obtain ⟨run, hrun, _, hcalls⟩ := hruns 4 (List.mem_singleton.2 rfl)
  refine ⟨sim, run, hsim, hrun, ?_⟩
  rw [hcalls, map_fst_addInstanceCallsWithZones, List.length_replicate]
  intro hnd
  have h1 := (List.nodup_flatMap.1 hnd).1 0 (List.mem_range.2 (by decide))
  have h2 := List.inj_on_of_nodup_map h1 (List.mem_range.2 (by decide : 55231 < 55233))
    (List.mem_range.2 (by decide : 55232 < 55233)) (by decide)
  exact absurd h2 (by decide)

/-- C4: `generateRingWithoutZoneAwareness` constructs every token distributor with
`zoneCount = 1` and passes the same single default zone `SingleZone` to every `AddInstance`
call, for every input of scenarios, replication factor and instance count. -/
theorem without_zone_awareness_uses_single_zone (SingleZone : Zone) (scenarios : List Int)
    (replicationFactor instancesCount : Int) (sim : RingSimulation)
    (h : generateRingWithoutZoneAwareness SingleZone scenarios replicationFactor instancesCount
      = some sim) :
    ∀ run ∈ sim.distributors,
      run.zoneCount = 1 ∧ ∀ call ∈ run.addInstanceCalls, call.2 = SingleZone := by
  intro run hr
  obtain ⟨hz, hc⟩ := mem_distributors_without _ _ _ _ _ _ h hr
  refine ⟨hz, ?_⟩
  rw [hc]
  intro call hcall
  unfold addInstanceCallsWithoutZones at hcall
  obtain ⟨i, _, rfl⟩ := List.mem_map.1 hcall
  rfl

theorem without_zone_awareness_uses_single_zone_witness :
    ∃ sim, generateRingWithoutZoneAwareness "zone" [4, 16, 64] 1 66 = some sim ∧
      ∀ run ∈ sim.distributors,
        run.zoneCount = 1 ∧ ∀ call ∈ run.addInstanceCalls, call.2 = "zone" :=
  match h : generateRingWithoutZoneAwareness "zone" [4, 16, 64] 1 66 with
  | some sim =>
    ⟨sim, rfl, without_zone_awareness_uses_single_zone "zone" [4, 16, 64] 1 66 sim h⟩
  | none => absurd h (by decide)

theorem generateRingWithoutZoneAwareness_optimal (SingleZone : Zone) (scenarios : List Int)
    (replicationFactor instancesCount : Int) (sim : RingSimulation)
    (h : generateRingWithoutZoneAwareness SingleZone scenarios replicationFactor instancesCount
      = some sim) :
    sim.optimalTokenOwnership = List.replicate instancesCount.toNat
      ((maxTokenValue : ℚ) * (replicationFactor : ℚ) / (instancesCount : ℚ)) := by
  unfold generateRingWithoutZoneAwareness at h
  split at h
  · exact absurd h (by simp)
  · simp only [Option.some.injEq] at h
    subst h
    simp [List.map_const']

theorem generateRingWithZoneAwareness_optimal (scenarios : List Int)
    (replicationFactor instancesPerZone : Int) (zones : List Zone) (sim : RingSimulation)
    (h : generateRingWithZoneAwareness scenarios replicationFactor instancesPerZone zones
      = some sim) :
    sim.optimalTokenOwnership =
      List.replicate (wrapInt64 (instancesPerZone * zones.length)).toNat
        ((maxTokenValue : ℚ) * (replicationFactor : ℚ) /
          ((wrapInt64 (instancesPerZone * zones.length) : Int) : ℚ)) := by
  unfold generateRingWithZoneAwareness at h
  split at h
  · exact absurd h (by simp)
  · split at h
    · exact absurd h (by simp)
    · simp only [Option.some.injEq] at h
      subst h
      simp [List.map_const']

theorem optimal_times_count (n replicationFactor : Int) (v : ℚ)
    (hv : v ∈ List.replicate n.toNat
      ((maxTokenValue : ℚ) * (replicationFactor : ℚ) / (n : ℚ))) :
    v = (maxTokenValue : ℚ) * (replicationFactor : ℚ) / (n : ℚ) ∧
      (n : ℚ) * v = (replicationFactor : ℚ) * (maxTokenValue : ℚ) := by
  obtain ⟨hn, rfl⟩ := List.mem_replicate.1 hv
  refine ⟨rfl, ?_⟩
  have hpos : (n : ℚ) ≠ 0 := by
    intro h0
    have : n = 0 := by exact_mod_cast h0
    subst this
    exact hn rfl
  field_simp
  ring

/-- C5: the optimal ownership the driver reports in every row equals
`maxToken × replicationFactor / N` (with `float64` read as exact rationals), where `N`, the
number of rows, is `instancesCount`, respectively the Go value of
`instancesPerZone*len(zones)`, and `maxToken = 2^32 − 1`; so `N` times the optimal ownership
equals `replicationFactor × maxToken`.  The Go value of the product is the product itself as
long as that fits an `int`. -/
theorem optimal_ownership_is_fair_share (SingleZone : Zone) (scenarios : List Int)
    (replicationFactor instances : Int) (zones : List Zone) :
    maxTokenValue = 2 ^ 32 - 1 ∧
    (∀ sim, generateRingWithoutZoneAwareness SingleZone scenarios replicationFactor instances
        = some sim →
      sim.optimalTokenOwnership.length = instances.toNat ∧
      ∀ v ∈ sim.optimalTokenOwnership,
        v = (maxTokenValue : ℚ) * (replicationFactor : ℚ) / (instances : ℚ) ∧
        (instances : ℚ) * v = (replicationFactor : ℚ) * (maxTokenValue : ℚ)) ∧
    (∀ sim, generateRingWithZoneAwareness scenarios replicationFactor instances zones
        = some sim →
      sim.optimalTokenOwnership.length = (wrapInt64 (instances * zones.length)).toNat ∧
      ∀ v ∈ sim.optimalTokenOwnership,
        v = (maxTokenValue : ℚ) * (replicationFactor : ℚ) /
          ((wrapInt64 (instances * zones.length) : Int) : ℚ) ∧
        ((wrapInt64 (instances * zones.length) : Int) : ℚ) * v
          = (replicationFactor : ℚ) * (maxTokenValue : ℚ)) ∧
    (0 ≤ instances * zones.length → instances * zones.length < 2 ^ 63 →
      wrapInt64 (instances * zones.length) = instances * zones.length) := by
  refine ⟨by decide, ?_, ?_, ?_⟩
  · intro sim h
    rw [generateRingWithoutZoneAwareness_optimal _ _ _ _ _ h]
    exact ⟨List.length_replicate _ _, fun v hv => optimal_times_count _ _ v hv⟩
  · intro sim h
    rw [generateRingWithZoneAwareness_optimal _ _ _ _ _ h]
    exact ⟨List.length_replicate _ _, fun v hv => optimal_times_count _ _ v hv⟩
  · intro h0 h1
    exact wrapInt64_small _ h0 (by norm_num at h1; exact h1)

theorem optimal_ownership_is_fair_share_witness :
    ((generateRingWithoutZoneAwareness "zone" [4] 3 66).isSome = true ∧
      ∀ sim, generateRingWithoutZoneAwareness "zone" [4] 3 66 = some sim →
        sim.optimalTokenOwnership.length = (66 : Int).toNat ∧
        ∀ v ∈ sim.optimalTokenOwnership,
          v = (maxTokenValue : ℚ) * ((3 : Int) : ℚ) / ((66 : Int) : ℚ) ∧
          ((66 : Int) : ℚ) * v = ((3 : Int) : ℚ) * (maxTokenValue : ℚ)) ∧
    ((generateRingWithZoneAwareness [4] 3 2 ["zone-a", "zone-b", "zone-c"]).isSome = true ∧
      (∀ sim, generateRingWithZoneAwareness [4] 3 2 ["zone-a", "zone-b", "zone-c"] = some sim →
        sim.optimalTokenOwnership.length
          = (wrapInt64 (2 * (["zone-a", "zone-b", "zone-c"].length : Int))).toNat ∧
        ∀ v ∈ sim.optimalTokenOwnership,
          v = (maxTokenValue : ℚ) * ((3 : Int) : ℚ) /
            ((wrapInt64 (2 * (["zone-a", "zone-b", "zone-c"].length : Int)) : Int) : ℚ) ∧
          ((wrapInt64 (2 * (["zone-a", "zone-b", "zone-c"].length : Int)) : Int) : ℚ) * v
            = ((3 : Int) : ℚ) * (maxTokenValue : ℚ)) ∧
      wrapInt64 (2 * (["zone-a", "zone-b", "zone-c"].length : Int))
        = 2 * (["zone-a", "zone-b", "zone-c"].length : Int)) :=
  ⟨⟨by decide,
      (optimal_ownership_is_fair_share "zone" [4] 3 66 ["zone-a", "zone-b", "zone-c"]).2.1⟩,
    ⟨by decide,
      (optimal_ownership_is_fair_share "zone" [4] 3 2 ["zone-a", "zone-b", "zone-c"]).2.2.1,
      (optimal_ownership_is_fair_share "zone" [4] 3 2 ["zone-a", "zone-b", "zone-c"]).2.2.2
        (by decide) (by decide)⟩⟩

/-! ### Retry-After -/

/-- C6: `RetryConfig.Validate` returns `errRetryBaseLessThanOneSecond` exactly when
`BaseSeconds < 1`; otherwise it returns `errNonPositiveMaxBackoffExponent` exactly when
`MaxBackoffExponent < 1`; it returns nil exactly when both are at least 1, in particular for
the default flags (base 3, exponent 5); and it never depends on `Enabled`. -/
theorem Validate_spec (cfg : RetryConfig) :
    (cfg.Validate = some .errRetryBaseLessThanOneSecond ↔ cfg.BaseSeconds < 1) ∧
    (¬ cfg.BaseSeconds < 1 →
      (cfg.Validate = some .errNonPositiveMaxBackoffExponent ↔ cfg.MaxBackoffExponent < 1)) ∧
    (cfg.Validate = none ↔ 1 ≤ cfg.BaseSeconds ∧ 1 ≤ cfg.MaxBackoffExponent) ∧
    (RetryConfig.RegisterFlags.BaseSeconds = 3 ∧
      RetryConfig.RegisterFlags.MaxBackoffExponent = 5 ∧
      RetryConfig.RegisterFlags.Validate = none) ∧
    (∀ enabled : Bool,
      RetryConfig.Validate ⟨enabled, cfg.BaseSeconds, cfg.MaxBackoffExponent⟩ = cfg.Validate) := by
  unfold RetryConfig.Validate
  refine ⟨?_, ?_, ?_, ⟨rfl, rfl, by decide⟩, fun _ => rfl⟩
  · split_ifs <;> simp_all
  · intro hb
    split_ifs <;> simp_all
  · split_ifs <;> simp_all

theorem Validate_spec_witness :
    ¬ (RetryConfig.mk true 3 0).BaseSeconds < 1 ∧
      ((RetryConfig.mk true 3 0).Validate = some .errNonPositiveMaxBackoffExponent ↔
        (RetryConfig.mk true 3 0).MaxBackoffExponent < 1) :=
  ⟨by decide, (Validate_spec ⟨true, 3, 0⟩).2.1 (by decide)⟩

theorem Atoi_one : Atoi "1" = some 1 := by decide

theorem retryAttemptOf_valid (h : String) (m a : Int) (ha : Atoi h = some a) (ha1 : 1 ≤ a) :
    retryAttemptOf h m = min a m := by
  unfold retryAttemptOf
  rw [ha, min_def]
  simp only
  split_ifs <;> omega

theorem retryAttemptOf_invalid (h : String) (m : Int)
    (hinv : Atoi h = none ∨ ∃ a, Atoi h = some a ∧ a < 1) :
    retryAttemptOf h m = retryAttemptOf "1" m := by
  unfold retryAttemptOf
  rw [Atoi_one]
  rcases hinv with hn | ⟨a, ha, ha1⟩
  · rw [hn]
    rfl
  · rw [ha]
    simp only
    rw [if_pos ha1]
    rfl

theorem retryAttemptOf_range (h : String) (m : Int) (hm : 1 ≤ m) :
    1 ≤ retryAttemptOf h m ∧ retryAttemptOf h m ≤ m := by
  unfold retryAttemptOf
  cases Atoi h with
  | none => simp only; split_ifs <;> omega
  | some a => simp only; split_ifs <;> omega

theorem delay_of_minSeconds (mn : Int) (draw : Nat) (h1 : 1 ≤ mn)
    (h2 : mn ≤ 4611686018427387904) :
    (match shiftLeft64 mn 1 with
      | none => none
      | some maxSeconds =>
        match Int63n (wrapInt64 (maxSeconds - mn)) draw with
        | none => none
        | some jitter => some (wrapInt64 (mn + jitter))) = some (mn + (draw : Int) % mn) := by
  have hs : shiftLeft64 mn 1 = some (wrapInt64 (mn * 2)) := by
    unfold shiftLeft64
    rw [if_neg (by decide), if_neg (by decide)]
    rfl
  have hd : wrapInt64 (wrapInt64 (mn * 2) - mn) = mn := by
    unfold wrapInt64; omega
  have hr0 : 0 ≤ (draw : Int) % mn := Int.emod_nonneg _ (by omega)
  have hr1 : (draw : Int) % mn < mn := Int.emod_lt_of_pos _ (by omega)
  have hj : Int63n mn draw = some ((draw : Int) % mn) := by
    unfold Int63n
    rw [if_neg (by omega)]
  rw [hs]
  simp only [hd, hj]
  rw [wrapInt64_small _ (by omega) (by omega)]

theorem two_pow_le_of_mul_le (b : Int) (k : Nat) (hb : 1 ≤ b)
    (h : b * 2 ^ k ≤ 9223372036854775808) : k ≤ 63 := by
  by_contra hk
  have h64 : (2 : Int) ^ 64 ≤ 2 ^ k := pow_le_pow_right₀ (by norm_num) (by omega)
  have hp : (0 : Int) < 2 ^ k := by positivity
  have : (2 : Int) ^ k ≤ b * 2 ^ k := by nlinarith
  norm_num at h64
  omega

theorem delaySeconds_eq (k b : Int) (draw : Nat) (hk : 1 ≤ k) (hb : 1 ≤ b)
    (h : b * 2 ^ k.toNat ≤ 9223372036854775808) :
    delaySeconds k b draw =
      some (b * 2 ^ (k.toNat - 1) + (draw : Int) % (b * 2 ^ (k.toNat - 1))) := by
  have hk63 := two_pow_le_of_mul_le b k.toNat hb h
  have hkn : k = (k.toNat : Int) := (Int.toNat_of_nonneg (by omega)).symm
  have hw : wrapInt64 (k - 1) = k - 1 := wrapInt64_small _ (by omega) (by omega)
  have hpow : (2 : Int) ^ k.toNat = 2 * 2 ^ (k.toNat - 1) := by
    have : k.toNat = (k.toNat - 1) + 1 := by omega
    conv_lhs => rw [this, pow_succ]
    ring
  have hp : (0 : Int) < 2 ^ (k.toNat - 1) := by positivity
  have hmn1 : 1 ≤ b * 2 ^ (k.toNat - 1) := by nlinarith
  have hmn2 : b * 2 ^ (k.toNat - 1) ≤ 4611686018427387904 := by
    rw [hpow] at h
    nlinarith
  have hs : shiftLeft64 b (k - 1) = some (b * 2 ^ (k.toNat - 1)) := by
    unfold shiftLeft64
    rw [if_neg (by omega), if_neg (by omega)]
    have : (k - 1).toNat = k.toNat - 1 := by omega
    rw [this, wrapInt64_small _ (by omega) (by omega)]
  unfold delaySeconds
  rw [hw, hs]
  exact delay_of_minSeconds _ draw hmn1 hmn2

theorem toString_int_of_nonneg (d : Int) (h : 0 ≤ d) : toString d = toString d.toNat := by
  cases d with
  | ofNat n => rfl
  | negSucc n => exact absurd h (by simp)

/-- C7: for every base `b ≥ 1`, max backoff exponent `m ≥ 1`, Retry-Attempt header that parses
as an integer `a ≥ 1`, and every random draw, with `k = min a m` and `b·2^k` below `2^63`,
`calculateRetryAfter` returns the decimal text of an integer `d` with
`b·2^(k−1) ≤ d ≤ b·2^k`. -/
theorem calculateRetryAfter_bounds (header : String) (b m a : Int) (draw : Nat)
    (hb : 1 ≤ b) (hm : 1 ≤ m) (ha : Atoi header = some a) (ha1 : 1 ≤ a)
    (hov : b * 2 ^ (min a m).toNat < 2 ^ 63) :
    ∃ d : Int, calculateRetryAfter header b m draw = some (toString d) ∧
      b * 2 ^ ((min a m).toNat - 1) ≤ d ∧ d ≤ b * 2 ^ (min a m).toNat := by
  have hk : 1 ≤ min a m := le_min ha1 hm
  have hov2 : b * 2 ^ (min a m).toNat ≤ 9223372036854775808 := by
    norm_num at hov
    omega
  have hd := delaySeconds_eq (min a m) b draw hk hb hov2
  have hpow : (2 : Int) ^ (min a m).toNat = 2 * 2 ^ ((min a m).toNat - 1) := by
    have : (min a m).toNat = ((min a m).toNat - 1) + 1 := by omega
    conv_lhs => rw [this, pow_succ]
    ring
  have hp : (0 : Int) < 2 ^ ((min a m).toNat - 1) := by positivity
  have hmn : 0 < b * 2 ^ ((min a m).toNat - 1) := by nlinarith
  refine ⟨b * 2 ^ ((min a m).toNat - 1) + (draw : Int) % (b * 2 ^ ((min a m).toNat - 1)),
    ?_, ?_, ?_⟩
  · unfold calculateRetryAfter
    rw [retryAttemptOf_valid header m a ha ha1, hd]
    rfl
  · have := Int.emod_nonneg (draw : Int) (ne_of_gt hmn)
    omega
  · have := Int.emod_lt_of_pos (draw : Int) hmn
    rw [hpow]
    nlinarith

theorem calculateRetryAfter_bounds_witness :
    ∃ d : Int, calculateRetryAfter "3" 2 5 11 = some (toString d) ∧
      2 * 2 ^ ((min 3 5 : Int).toNat - 1) ≤ d ∧ d ≤ 2 * 2 ^ (min 3 5 : Int).toNat :=
  calculateRetryAfter_bounds "3" 2 5 3 11 (by decide) (by decide) (by decide) (by decide)
    (by decide)

/-- C8, as amended: if the Retry-Attempt header is not valid (`strconv.Atoi` fails, or gives
an integer below 1), `calculateRetryAfter` behaves as if the header were "1": for the same
base, exponent and random draw it returns the same value as for header "1"; and whenever
base ≥ 1, exponent ≥ 1 and 2·base ≤ 2^63, that value lies between base and 2·base. -/
theorem invalid_header_defaults_to_one (header : String) (b m : Int) (draw : Nat)
    (hinv : Atoi header = none ∨ ∃ a, Atoi header = some a ∧ a < 1) :
    calculateRetryAfter header b m draw = calculateRetryAfter "1" b m draw ∧
      (1 ≤ b → 1 ≤ m → 2 * b ≤ 2 ^ 63 →
        ∃ d : Int, calculateRetryAfter "1" b m draw = some (toString d) ∧
          b ≤ d ∧ d ≤ 2 * b) := by
  constructor
  · unfold calculateRetryAfter
    rw [retryAttemptOf_invalid header m hinv]
  · intro hb hm hov
    have hr : retryAttemptOf "1" m = 1 := by
      rw [retryAttemptOf_valid "1" m 1 Atoi_one (le_refl _)]
      exact min_eq_left hm
    have hd := delaySeconds_eq 1 b draw (le_refl _) hb
      (by norm_num at hov ⊢; omega)
    simp only [Int.toNat_one, Nat.sub_self, pow_zero, mul_one] at hd
    refine ⟨b + (draw : Int) % b, ?_, ?_, ?_⟩
    · unfold calculateRetryAfter
      rw [hr, hd]
      rfl
    · have := Int.emod_nonneg (draw : Int) (show b ≠ 0 by omega)
      omega
    · have := Int.emod_lt_of_pos (draw : Int) (show 0 < b by omega)
      omega

theorem invalid_header_defaults_to_one_witness :
    (Atoi "" = none ∧ Atoi "not-an-integer" = none ∧ Atoi "3.50" = none ∧
      Atoi "[1, 2, 3]" = none ∧ Atoi "-1" = some (-1)) ∧
    (calculateRetryAfter "-1" 4 3 9 = calculateRetryAfter "1" 4 3 9 ∧
      ∃ d : Int, calculateRetryAfter "1" 4 3 9 = some (toString d) ∧ 4 ≤ d ∧ d ≤ 2 * 4) :=
  ⟨by decide,
    (invalid_header_defaults_to_one "-1" 4 3 9 (Or.inr ⟨-1, by decide, by decide⟩)).1,
    (invalid_header_defaults_to_one "-1" 4 3 9 (Or.inr ⟨-1, by decide, by decide⟩)).2
      (by decide) (by decide) (by decide)⟩

theorem parseDigits_toString_int (d : Int) (h : 0 ≤ d) :
    parseDigits (toString d).data 0 = some d.toNat := by
  rw [toString_int_of_nonneg d h]
  exact parseDigits_toString d.toNat

/-- C8, as stated, fails: the base 2^62 + 1 with exponent 1 passes `Validate`, the empty header
is not valid, and for the draw 2^62 the function returns "-9223372036854775807", which is no
value between base and 2·base. -/
theorem invalid_header_range_fails :
    Atoi "" = none ∧
      RetryConfig.Validate ⟨true, 4611686018427387905, 1⟩ = none ∧
      calculateRetryAfter "" 4611686018427387905 1 4611686018427387904
        = some "-9223372036854775807" ∧
      ¬ ∃ d : Int, calculateRetryAfter "" 4611686018427387905 1 4611686018427387904
          = some (toString d) ∧ 4611686018427387905 ≤ d ∧ d ≤ 2 * 4611686018427387905 := by
  refine ⟨by decide, by decide, by decide, ?_⟩
  rintro ⟨d, hd, hlo, _⟩
  have hv : calculateRetryAfter "" 4611686018427387905 1 4611686018427387904
      = some "-9223372036854775807" := by decide
  rw [hv, Option.some.injEq] at hd
  have hp := parseDigits_toString_int d (by omega)
  have hn : parseDigits ("-9223372036854775807" : String).data 0 = none := by decide
  rw [← hd, hn] at hp
  exact absurd hp (by simp)

/-- C9: the max backoff exponent caps the Retry-Attempt header without rejecting additional
attempts: for every Retry-Attempt `a` greater than `MaxBackoffExponent` `m` (`m ≥ 1`),
`calculateRetryAfter` returns, for the same base and random draw, the same value as for
Retry-Attempt `m`. -/
theorem retry_attempt_is_capped (header headerMax : String) (b m a : Int) (draw : Nat)
    (hm : 1 ≤ m) (ha : Atoi header = some a) (hgt : m < a) (hmax : Atoi headerMax = some m) :
    calculateRetryAfter header b m draw = calculateRetryAfter headerMax b m draw := by
  unfold calculateRetryAfter
  rw [retryAttemptOf_valid header m a ha (by omega),
    retryAttemptOf_valid headerMax m m hmax hm, min_eq_right (le_of_lt hgt), min_self]

theorem retry_attempt_is_capped_witness :
    calculateRetryAfter "8" 3 2 5 = calculateRetryAfter "2" 3 2 5 :=
  retry_attempt_is_capped "8" "2" 3 2 8 5 (by decide) (by decide) (by decide) (by decide)

theorem default_retry_range (header : String) (draw : Nat) :
    ∃ d : Int, calculateRetryAfter header 3 5 draw = some (toString d) ∧ 3 ≤ d ∧ d ≤ 95 := by
  obtain ⟨h1, h5⟩ := retryAttemptOf_range header 5 (by decide)
  have hk : ∃ k : Nat, retryAttemptOf header 5 = (k : Int) ∧ 1 ≤ k ∧ k ≤ 5 :=
    ⟨(retryAttemptOf header 5).toNat, by omega, by omega, by omega⟩
  obtain ⟨k, hk, hk1, hk5⟩ := hk
  unfold calculateRetryAfter
  rw [hk]
  interval_cases k
  all_goals
    rw [delaySeconds_eq _ 3 draw (by decide) (by decide) (by decide)]
    refine ⟨_, rfl, ?_, ?_⟩
    · simp only [Int.toNat_ofNat]
      norm_num
      omega
    · simp only [Int.toNat_ofNat]
      norm_num
      omega

/-- C10 (amended): with base-seconds 3 and max-backoff-exponent 5, `3 * 2^5 = 96` seconds
bounds the retry duration and is never exceeded: for every Retry-Attempt header and every
random draw `calculateRetryAfter` returns the decimal text of an integer between 3 and 95, so
at most 96; the largest value returned is 95, attained for header "5" and a draw that is 47
modulo 48. -/
theorem default_max_retry_is_95 :
    (∀ (header : String) (draw : Nat),
      ∃ d : Int, calculateRetryAfter header 3 5 draw = some (toString d) ∧ 3 ≤ d ∧ d ≤ 95 ∧
        d ≤ 3 * 2 ^ 5) ∧
    calculateRetryAfter "5" 3 5 47 = some "95" := by
  refine ⟨?_, by decide⟩
  intro header draw
  obtain ⟨d, hd, hlo, hhi⟩ := default_retry_range header draw
  exact ⟨d, hd, hlo, hhi, by omega⟩

/-- C10 (counterexample): with base-seconds 3 and max-backoff-exponent 5 the value 96 is not
attained: no Retry-Attempt header and no random draw make `calculateRetryAfter` return "96",
and for header "5" the draw that gives the largest jitter, 47, gives "95". -/
theorem default_retry_never_96 :
    (∀ (header : String) (draw : Nat), calculateRetryAfter header 3 5 draw ≠ some "96") ∧
    calculateRetryAfter "5" 3 5 47 = some "95" := by
  refine ⟨?_, by decide⟩
  intro header draw
  obtain ⟨d, hd, hlo, hhi⟩ := default_retry_range header draw
  rw [hd]
  intro h96
  rw [Option.some.injEq] at h96
  have hp := parseDigits_toString_int d (by omega)
  rw [h96] at hp
  have h96v : parseDigits ("96" : String).data 0 = some 96 := by decide
  rw [h96v, Option.some.injEq] at hp
  omega

/-! ### The push handler -/

theorem Header.Has_Set_self (h : Header) (key value : String) :
    Header.Has (Header.Set h key value) key = true := by
  simp [Header.Has, Header.Set]

theorem Header.Has_Set_of_ne (h : Header) (key value key1 : String) (hne : key ≠ key1) :
    Header.Has (Header.Set h key value) key1 = Header.Has h key1 := by
  unfold Header.Has Header.Set
  have hk : ((key, [value]).1 == key1) = false := by simpa using hne
  rw [List.any_cons, hk, Bool.false_or]
  induction h with
  | nil => rfl
  | cons e es ih =>
    rw [List.filter_cons]
    by_cases he : e.1 = key
    · have hf : (e.1 == key1) = false := by
        rw [he]
        simpa using hne
      simp only [he, bne_self_eq_false, Bool.false_eq_true, if_false, List.any_cons]
      rw [← he, hf, Bool.false_or]
      rw [he]
      exact ih
    · have hb : (e.1 != key) = true := by simpa using he
      rw [if_pos hb, List.any_cons, List.any_cons, ih]

theorem Header.Values_Set_self (h : Header) (key value : String) :
    Header.Values (Header.Set h key value) key = [value] := by
  simp [Header.Values, Header.Set]

theorem Header.Values_Set_of_ne (h : Header) (key value key1 : String) (hne : key ≠ key1) :
    Header.Values (Header.Set h key value) key1 = Header.Values h key1 := by
  unfold Header.Values Header.Set
  have hk : ((key, [value]).1 == key1) = false := by simpa using hne
  rw [List.find?_cons, hk]
  simp only
  have : List.find? (fun e => e.1 == key1) (List.filter (fun e => e.1 != key) h)
      = List.find? (fun e => e.1 == key1) h := by
    induction h with
    | nil => rfl
    | cons e es ih =>
      rw [List.filter_cons]
      by_cases he : e.1 = key
      · have hf : (e.1 == key1) = false := by
          rw [he]
          simpa using hne
        have hb : (e.1 != key) = false := by simpa using he
        rw [hb, List.find?_cons, hf]
        simpa using ih
      · have hb : (e.1 != key) = true := by simpa using he
        rw [if_pos hb, List.find?_cons, List.find?_cons, ih]
  rw [this]

theorem retryable_code_iff (code : Int) :
    (code = 429 ∨ Int.tdiv code 100 = 5) ↔ (code = 429 ∨ (500 ≤ code ∧ code ≤ 599)) := by
  have key : Int.tdiv code 100 = 5 ↔ (500 ≤ code ∧ code ≤ 599) := by
    by_cases h0 : 0 ≤ code
    · rw [Int.tdiv_eq_ediv h0 (by decide)]
      omega
    · have hneg : code = -(-code) := by omega
      have hpos : 0 ≤ Int.tdiv (-code) 100 := Int.tdiv_nonneg (by omega) (by decide)
      rw [hneg, Int.neg_tdiv]
      constructor
      · intro h
        omega
      · intro h
        omega
  rw [key]

theorem calculateRetryAfter_isSome (header : String) (b m : Int) (draw : Nat) (hb : 1 ≤ b)
    (hm : 1 ≤ m) (hov : b * 2 ^ m.toNat ≤ 9223372036854775808) :
    ∃ v, calculateRetryAfter header b m draw = some v := by
  obtain ⟨h1, h2⟩ := retryAttemptOf_range header m hm
  have hle : (2 : Int) ^ (retryAttemptOf header m).toNat ≤ 2 ^ m.toNat :=
    pow_le_pow_right₀ (by norm_num) (by omega)
  have hov2 : b * 2 ^ (retryAttemptOf header m).toNat ≤ 9223372036854775808 :=
    le_trans (Int.mul_le_mul_of_nonneg_left hle (by omega)) hov
  unfold calculateRetryAfter
  rw [delaySeconds_eq _ b draw h1 hb hov2]
  exact ⟨_, rfl⟩

theorem DoNotLogErrorHeaderKey_ne : DoNotLogErrorHeaderKey ≠ "Retry-After" := by decide

theorem addHeaders_completion (w : Header) (err : Option GoError) (r : Request) (code : Int)
    (cfg : RetryConfig) (draw : Nat) :
    (addHeaders w err r code cfg draw).2 = .returned ↔
      (¬ (cfg.Enabled = true ∧ (code = 429 ∨ (500 ≤ code ∧ code ≤ 599))) ∨
        ∃ v, calculateRetryAfter (r.Header "Retry-Attempt") cfg.BaseSeconds
          cfg.MaxBackoffExponent draw = some v) := by
  unfold addHeaders
  simp only [retryable_code_iff]
  by_cases hc : code = 429 ∨ (500 ≤ code ∧ code ≤ 599)
  · by_cases he : cfg.Enabled = true
    · rw [if_pos hc, if_pos he]
      cases hcalc : calculateRetryAfter (r.Header "Retry-Attempt") cfg.BaseSeconds
          cfg.MaxBackoffExponent draw with
      | none => simp [he, hc]
      | some v => simp
    · rw [if_pos hc, if_neg he]
      simp [he]
  · rw [if_neg hc]
    simp [hc]

/-- C11: on a response that has no Retry-After header yet, a call of `addHeaders` that returns
leaves the Retry-After header set if and only if `retryCfg.Enabled` is true and the response
code is 429 or in 500..599; when it is set, its value is `calculateRetryAfter` of the
request's Retry-Attempt header, `BaseSeconds` and `MaxBackoffExponent`.  The call returns
exactly when the header is not due or `calculateRetryAfter` returns, as it does for every
configuration with base ≥ 1, exponent ≥ 1 and base·2^exponent ≤ 2^63. -/
theorem addHeaders_retry_after (w : Header) (err : Option GoError) (r : Request) (code : Int)
    (cfg : RetryConfig) (draw : Nat) (h0 : Header.Has w "Retry-After" = false) :
    ((addHeaders w err r code cfg draw).2 = .returned →
      (Header.Has (addHeaders w err r code cfg draw).1 "Retry-After" = true ↔
        (cfg.Enabled = true ∧ (code = 429 ∨ (500 ≤ code ∧ code ≤ 599)))) ∧
      (Header.Has (addHeaders w err r code cfg draw).1 "Retry-After" = true →
        calculateRetryAfter (r.Header "Retry-Attempt") cfg.BaseSeconds
            cfg.MaxBackoffExponent draw
          = some (Header.Get (addHeaders w err r code cfg draw).1 "Retry-After") ∧
        Header.Values (addHeaders w err r code cfg draw).1 "Retry-After"
          = [Header.Get (addHeaders w err r code cfg draw).1 "Retry-After"])) ∧
    ((addHeaders w err r code cfg draw).2 = .returned ↔
      (¬ (cfg.Enabled = true ∧ (code = 429 ∨ (500 ≤ code ∧ code ≤ 599))) ∨
        ∃ v, calculateRetryAfter (r.Header "Retry-Attempt") cfg.BaseSeconds
          cfg.MaxBackoffExponent draw = some v)) ∧
    (1 ≤ cfg.BaseSeconds → 1 ≤ cfg.MaxBackoffExponent →
      cfg.BaseSeconds * 2 ^ cfg.MaxBackoffExponent.toNat ≤ 2 ^ 63 →
      (addHeaders w err r code cfg draw).2 = .returned) := by
  have hw1 : Header.Has
      (if asDoNotLogError err then Header.Set w DoNotLogErrorHeaderKey "true" else w)
      "Retry-After" = false := by
    split
    · rw [Header.Has_Set_of_ne _ _ _ _ DoNotLogErrorHeaderKey_ne]
      exact h0
    · exact h0
  refine ⟨?_, addHeaders_completion w err r code cfg draw, ?_⟩
  · intro hret
    unfold addHeaders at hret ⊢
    simp only [retryable_code_iff] at hret ⊢
    by_cases hc : code = 429 ∨ (500 ≤ code ∧ code ≤ 599)
    · by_cases he : cfg.Enabled = true
      · rw [if_pos hc, if_pos he] at hret ⊢
        cases hcalc : calculateRetryAfter (r.Header "Retry-Attempt") cfg.BaseSeconds
            cfg.MaxBackoffExponent draw with
        | none =>
          rw [hcalc] at hret
          exact absurd hret (by simp)
        | some v =>
          simp only [Header.Has_Set_self, Header.Values_Set_self, Header.Get, List.headD_cons,
            he, hc, and_self, true_and, implies_true]
      · rw [if_pos hc, if_neg he]
        simp only [hw1, he]
        simp
    · rw [if_neg hc]
      simp only [hw1, hc]
      simp
  · intro hb hm hov
    rw [addHeaders_completion]
    right
    exact calculateRetryAfter_isSome _ _ _ draw hb hm (by norm_num at hov; exact hov)

theorem addHeaders_retry_after_witness :
    Header.Has ([] : Header) "Retry-After" = false ∧
      (addHeaders [] none exampleRequest 500 ⟨true, 2, 5⟩ 3).2 = .returned ∧
      (Header.Has (addHeaders [] none exampleRequest 500 ⟨true, 2, 5⟩ 3).1 "Retry-After" = true ↔
        ((RetryConfig.mk true 2 5).Enabled = true ∧
          ((500 : Int) = 429 ∨ ((500 : Int) ≤ 500 ∧ (500 : Int) ≤ 599)))) ∧
      Header.Get (addHeaders [] none exampleRequest 500 ⟨true, 2, 5⟩ 3).1 "Retry-After" = "7" ∧
      Header.Has (addHeaders [] none exampleRequest 529 ⟨true, 2, 5⟩ 3).1 "Retry-After" = true ∧
      Header.Has (addHeaders [] none exampleRequest 408 ⟨true, 2, 5⟩ 3).1 "Retry-After" = false ∧
      Header.Has (addHeaders [] none exampleRequest 499 ⟨true, 2, 5⟩ 3).1 "Retry-After" = false ∧
      Header.Has (addHeaders [] none exampleRequest 500 ⟨false, 2, 5⟩ 3).1 "Retry-After" = false :=
  ⟨by decide, by decide,
    ((addHeaders_retry_after [] none exampleRequest 500 ⟨true, 2, 5⟩ 3 (by decide)).1
      (by decide)).1,
    by decide, by decide, by decide, by decide, by decide⟩

theorem asDoNotLogError_iff (err : Option GoError) :
    asDoNotLogError err = true ↔
      ∃ e, err = some e ∧ ∃ l ∈ e.chain, l.kind = ErrorKind.DoNotLogError := by
  cases err with
  | none => simp [asDoNotLogError]
  | some e => simp [asDoNotLogError, List.any_eq_true]

theorem addHeaders_other_key (w : Header) (err : Option GoError) (r : Request) (code : Int)
    (cfg : RetryConfig) (draw : Nat) (key : String) (hne : "Retry-After" ≠ key) :
    Header.Has (addHeaders w err r code cfg draw).1 key =
        Header.Has (if asDoNotLogError err then Header.Set w DoNotLogErrorHeaderKey "true" else w)
          key ∧
      Header.Values (addHeaders w err r code cfg draw).1 key =
        Header.Values
          (if asDoNotLogError err then Header.Set w DoNotLogErrorHeaderKey "true" else w) key := by
  unfold addHeaders
  simp only
  split
  · split
    · split
      · exact ⟨rfl, rfl⟩
      · exact ⟨Header.Has_Set_of_ne _ _ _ _ hne, Header.Values_Set_of_ne _ _ _ _ hne⟩
    · exact ⟨rfl, rfl⟩
  · exact ⟨rfl, rfl⟩

/-- C12: on a response that has no DoNotLogError header yet, `addHeaders` leaves the
DoNotLogError header set, with the value "true", if and only if the error is or wraps a
`middleware.DoNotLogError`, whatever the response code, the retry configuration, the request
and the way the call ends; otherwise the header stays absent. -/
theorem addHeaders_do_not_log (w : Header) (err : Option GoError) (r : Request) (code : Int)
    (cfg : RetryConfig) (draw : Nat) (h0 : Header.Has w DoNotLogErrorHeaderKey = false) :
    (Header.Has (addHeaders w err r code cfg draw).1 DoNotLogErrorHeaderKey = true ↔
      ∃ e, err = some e ∧ ∃ l ∈ e.chain, l.kind = ErrorKind.DoNotLogError) ∧
    (Header.Has (addHeaders w err r code cfg draw).1 DoNotLogErrorHeaderKey = true →
      Header.Values (addHeaders w err r code cfg draw).1 DoNotLogErrorHeaderKey = ["true"]) := by
  rw [← asDoNotLogError_iff]
  obtain ⟨hh, hv⟩ := addHeaders_other_key w err r code cfg draw DoNotLogErrorHeaderKey
    (by decide)
  rw [hh, hv]
  by_cases hd : asDoNotLogError err = true
  · rw [if_pos hd, Header.Has_Set_self, Header.Values_Set_self]
    simp [hd]
  · rw [if_neg hd, h0]
    simp [hd]

theorem addHeaders_do_not_log_witness :
    Header.Has ([] : Header) DoNotLogErrorHeaderKey = false ∧
      (Header.Has (addHeaders [] (some exampleDoNotLogError) exampleRequest 413
          ⟨false, 3, 5⟩ 0).1 DoNotLogErrorHeaderKey = true ↔
        ∃ e, some exampleDoNotLogError = some e ∧
          ∃ l ∈ e.chain, l.kind = ErrorKind.DoNotLogError) ∧
      Header.Values (addHeaders [] (some exampleDoNotLogError) exampleRequest 413
          ⟨false, 3, 5⟩ 0).1 DoNotLogErrorHeaderKey = ["true"] ∧
      Header.Has (addHeaders [] (some (httpgrpcErrorf 413 "this is an error")) exampleRequest
          413 ⟨false, 3, 5⟩ 0).1 DoNotLogErrorHeaderKey = false :=
  ⟨by decide,
    (addHeaders_do_not_log [] (some exampleDoNotLogError) exampleRequest 413 ⟨false, 3, 5⟩ 0
      (by decide)).1,
    by decide, by decide⟩

/-- C13: for every distributor error that does not wrap `context.DeadlineExceeded`,
`toHTTPStatus` maps its cause as follows: BAD_DATA to 400, TOO_MANY_CLUSTERS to 400,
REPLICAS_DID_NOT_MATCH to 202, TSDB_UNAVAILABLE to 503, CIRCUIT_BREAKER_OPEN to 503. -/
theorem toHTTPStatus_of_cause (tenantID : Option String) (limits : String → Bool)
    (err : GoError) (cause : ErrorCause) (hd : isDeadlineExceeded err = false)
    (hc : asDistributorError err = some cause) :
    (cause = .BAD_DATA → toHTTPStatus tenantID limits err = 400) ∧
    (cause = .TOO_MANY_CLUSTERS → toHTTPStatus tenantID limits err = 400) ∧
    (cause = .REPLICAS_DID_NOT_MATCH → toHTTPStatus tenantID limits err = 202) ∧
    (cause = .TSDB_UNAVAILABLE → toHTTPStatus tenantID limits err = 503) ∧
    (cause = .CIRCUIT_BREAKER_OPEN → toHTTPStatus tenantID limits err = 503) := by
  unfold toHTTPStatus
  rw [hd, hc]
  refine ⟨?_, ?_, ?_, ?_, ?_⟩ <;> intro h <;> subst h <;> rfl

theorem toHTTPStatus_of_cause_witness :
    toHTTPStatus (some "user") (fun _ => false)
        ⟨⟨.DoNotLogError, "replicas did not match"⟩,
          [⟨.distributorError .REPLICAS_DID_NOT_MATCH, "replicas did not match"⟩]⟩ = 202 :=
  (toHTTPStatus_of_cause (some "user") (fun _ => false)
    ⟨⟨.DoNotLogError, "replicas did not match"⟩,
      [⟨.distributorError .REPLICAS_DID_NOT_MATCH, "replicas did not match"⟩]⟩
    .REPLICAS_DID_NOT_MATCH (by decide) (by decide)).2.2.1 rfl

/-- C14, as amended: for a distributor error with cause INGESTION_RATE_LIMITED or
REQUEST_RATE_LIMITED that does not wrap `context.DeadlineExceeded`, `toHTTPStatus` returns 529
(`StatusServiceOverloaded`) exactly when a tenant ID can be read from the context and that
tenant's `ServiceOverloadStatusCodeOnRateLimitEnabled` limit is true; in every other case
(limit false, or no tenant in the context) it returns 429. -/
theorem toHTTPStatus_rate_limited (tenantID : Option String) (limits : String → Bool)
    (err : GoError) (cause : ErrorCause) (hd : isDeadlineExceeded err = false)
    (hc : asDistributorError err = some cause)
    (hcause : cause = .INGESTION_RATE_LIMITED ∨ cause = .REQUEST_RATE_LIMITED) :
    StatusServiceOverloaded = 529 ∧
    (toHTTPStatus tenantID limits err = 529 ↔
      ∃ userID, tenantID = some userID ∧ limits userID = true) ∧
    ((¬ ∃ userID, tenantID = some userID ∧ limits userID = true) →
      toHTTPStatus tenantID limits err = 429) := by
  unfold toHTTPStatus
  rw [hd, hc]
  refine ⟨rfl, ?_⟩
  rcases hcause with h | h <;> subst h <;> cases tenantID with
  | none => simp
  | some userID =>
    cases hl : limits userID <;> simp [hl, StatusServiceOverloaded]

theorem toHTTPStatus_rate_limited_witness :
    toHTTPStatus (some "user") (fun _ => true)
        ⟨⟨.distributorError .REQUEST_RATE_LIMITED, "request rate limited"⟩, []⟩ = 529 ↔
      ∃ userID, some "user" = some userID ∧ (fun _ : String => true) userID = true :=
  (toHTTPStatus_rate_limited (some "user") (fun _ => true)
    ⟨⟨.distributorError .REQUEST_RATE_LIMITED, "request rate limited"⟩, []⟩
    .REQUEST_RATE_LIMITED (by decide) (by decide) (Or.inr rfl)).2.1

/-- C14, as stated, fails: an error that wraps both an ingestion-rate-limited distributor error
and `context.DeadlineExceeded` gets 500, neither 529 (tenant "user" with the limit enabled)
nor 429 (limit disabled, or no tenant). -/
theorem toHTTPStatus_rate_limited_deadline :
    asDistributorError exampleRateLimitedDeadline = some .INGESTION_RATE_LIMITED ∧
      toHTTPStatus (some "user") (fun _ => true) exampleRateLimitedDeadline = 500 ∧
      toHTTPStatus (some "user") (fun _ => false) exampleRateLimitedDeadline = 500 ∧
      toHTTPStatus none (fun _ => true) exampleRateLimitedDeadline = 500 := by
  decide

/-- C15: the code gives an ingester push error whose cause is METHOD_NOT_ALLOWED the status
500, not 501: `toHTTPStatus` has no case for that cause. -/
theorem toHTTPStatus_method_not_allowed (tenantID : Option String) (limits : String → Bool)
    (text : String) :
    toHTTPStatus tenantID limits ⟨⟨.distributorError .METHOD_NOT_ALLOWED, text⟩, []⟩ = 500 ∧
    toHTTPStatus tenantID limits
      ⟨⟨.DoNotLogError, text⟩, [⟨.distributorError .METHOD_NOT_ALLOWED, text⟩]⟩ = 500 := by
  constructor <;> rfl

/-- C16: `toHTTPStatus` returns 500 for every error that is not one of this package's
distributor errors, for every error wrapping `context.DeadlineExceeded`, and for distributor
errors whose cause is SERVICE_UNAVAILABLE, INSTANCE_LIMIT or UNKNOWN_CAUSE. -/
theorem toHTTPStatus_internal_server_error (tenantID : Option String) (limits : String → Bool)
    (err : GoError) :
    (asDistributorError err = none → toHTTPStatus tenantID limits err = 500) ∧
    (isDeadlineExceeded err = true → toHTTPStatus tenantID limits err = 500) ∧
    (asDistributorError err = some .SERVICE_UNAVAILABLE →
      toHTTPStatus tenantID limits err = 500) ∧
    (asDistributorError err = some .INSTANCE_LIMIT → toHTTPStatus tenantID limits err = 500) ∧
    (asDistributorError err = some .UNKNOWN_CAUSE → toHTTPStatus tenantID limits err = 500) := by
  unfold toHTTPStatus
  refine ⟨?_, ?_, ?_, ?_, ?_⟩
  · intro h
    rw [h]
    split <;> rfl
  · intro h
    rw [h]
    rfl
  all_goals
    intro h
    rw [h]
    split <;> rfl

theorem toHTTPStatus_internal_server_error_witness :
    toHTTPStatus (some "user") (fun _ => true) ⟨⟨.other, "this is an error"⟩, []⟩ = 500 ∧
      toHTTPStatus (some "user") (fun _ => true)
        ⟨⟨.DeadlineExceeded, "context deadline exceeded"⟩, []⟩ = 500 ∧
      toHTTPStatus (some "user") (fun _ => true)
        ⟨⟨.distributorError .INSTANCE_LIMIT, "instance limit"⟩, []⟩ = 500 :=
  ⟨(toHTTPStatus_internal_server_error (some "user") (fun _ => true)
      ⟨⟨.other, "this is an error"⟩, []⟩).1 (by decide),
    (toHTTPStatus_internal_server_error (some "user") (fun _ => true)
      ⟨⟨.DeadlineExceeded, "context deadline exceeded"⟩, []⟩).2.1 (by decide),
    (toHTTPStatus_internal_server_error (some "user") (fun _ => true)
      ⟨⟨.distributorError .INSTANCE_LIMIT, "instance limit"⟩, []⟩).2.2.2.1 (by decide)⟩

theorem isCanceled_iff (err : GoError) :
    isCanceled err = true ↔ ∃ l ∈ err.chain, l.kind = ErrorKind.Canceled := by
  simp [isCanceled, List.any_eq_true]

/-- C17: when the push function returns an error that is or wraps `context.Canceled`, the push
handler answers with status 499 and the error text, whatever else the error is, and returns
without running `addHeaders`: the header map of the response is left as it was, so no
Retry-After or DoNotLogError header is set, even when retries are enabled. -/
theorem handler_canceled (allowSkipLabelNameValidation : Bool) (tenantID : Option String)
    (limits : String → Bool) (retryCfg : RetryConfig)
    (push : Except GoError WriteRequest → Option GoError)
    (parser : Bool → Except GoError WriteRequest) (req : WriteRequest) (r : Request)
    (w : Header) (draw : Nat) (err : GoError)
    (hpush : push (supplier allowSkipLabelNameValidation req r parser) = some err)
    (hcanceled : ∃ l ∈ err.chain, l.kind = ErrorKind.Canceled) :
    handler allowSkipLabelNameValidation tenantID limits retryCfg push parser req r w draw
        = (⟨w, some (499, err.Error)⟩, .returned) ∧
      (handler allowSkipLabelNameValidation tenantID limits retryCfg push parser req r w
        draw).1.Code = 499 ∧
      (handler allowSkipLabelNameValidation tenantID limits retryCfg push parser req r w
        draw).1.header = w := by
  have hc := (isCanceled_iff err).2 hcanceled
  have h : handler allowSkipLabelNameValidation tenantID limits retryCfg push parser req r w
      draw = (⟨w, some (499, err.Error)⟩, .returned) := by
    unfold handler
    rw [hpush]
    simp only [hc, if_true]
    rfl
  rw [h]
  exact ⟨rfl, rfl, rfl⟩

theorem handler_canceled_witness :
    (∃ l ∈ exampleCanceledError.chain, l.kind = ErrorKind.Canceled) ∧
      handler false (some "test") (fun _ => false) ⟨true, 3, 5⟩ (fun _ => some exampleCanceledError)
          (fun flag => .ok ⟨flag⟩) ⟨false⟩ exampleRequest [] 0
        = (⟨[], some (499, "the request failed: context canceled")⟩, .returned) :=
  ⟨by decide,
    (handler_canceled false (some "test") (fun _ => false) ⟨true, 3, 5⟩
      (fun _ => some exampleCanceledError) (fun flag => .ok ⟨flag⟩) ⟨false⟩ exampleRequest [] 0
      exampleCanceledError rfl (by decide)).1⟩

theorem handler_of_error (allowSkipLabelNameValidation : Bool) (tenantID : Option String)
    (limits : String → Bool) (retryCfg : RetryConfig)
    (push : Except GoError WriteRequest → Option GoError)
    (parser : Bool → Except GoError WriteRequest) (req : WriteRequest) (r : Request)
    (w : Header) (draw : Nat) (err : GoError)
    (hpush : push (supplier allowSkipLabelNameValidation req r parser) = some err)
    (hc : isCanceled err = false) :
    (handler allowSkipLabelNameValidation tenantID limits retryCfg push parser req r w draw).2
        = (addHeaders w (some err) r (errorAnswer tenantID limits err).1 retryCfg draw).2 ∧
      ((addHeaders w (some err) r (errorAnswer tenantID limits err).1 retryCfg draw).2
          = .returned →
        (handler allowSkipLabelNameValidation tenantID limits retryCfg push parser req r w
          draw).1.written = some (errorAnswer tenantID limits err)) := by
  unfold handler
  rw [hpush]
  simp only [hc, Bool.false_eq_true, if_false]
  rcases hadd : addHeaders w (some err) r (errorAnswer tenantID limits err).1 retryCfg draw
    with ⟨w1, c⟩
  cases c
  · exact ⟨rfl, fun _ => rfl⟩
  · exact ⟨rfl, fun h => absurd h (by simp)⟩

/-- C18: when the push function returns a non-cancelled error that carries an httpgrpc HTTP
response, a push handler that returns has answered with exactly that response's code and
body; when the error carries none, with `toHTTPStatus` of the error and the error's text;
when push returns nil it writes no error (status 200).  The handler returns whenever
`addHeaders` does, in particular when retries are disabled. -/
theorem handler_answer (allowSkipLabelNameValidation : Bool) (tenantID : Option String)
    (limits : String → Bool) (retryCfg : RetryConfig)
    (push : Except GoError WriteRequest → Option GoError)
    (parser : Bool → Except GoError WriteRequest) (req : WriteRequest) (r : Request)
    (w : Header) (draw : Nat) :
    (push (supplier allowSkipLabelNameValidation req r parser) = none →
      handler allowSkipLabelNameValidation tenantID limits retryCfg push parser req r w draw
          = (⟨w, none⟩, .returned) ∧
        (handler allowSkipLabelNameValidation tenantID limits retryCfg push parser req r w
          draw).1.Code = 200) ∧
    (∀ err, push (supplier allowSkipLabelNameValidation req r parser) = some err →
      isCanceled err = false →
      ((handler allowSkipLabelNameValidation tenantID limits retryCfg push parser req r w
          draw).2 = .returned →
        (∀ resp, HTTPResponseFromError err = some resp →
          (handler allowSkipLabelNameValidation tenantID limits retryCfg push parser req r w
            draw).1.written = some resp) ∧
        (HTTPResponseFromError err = none →
          (handler allowSkipLabelNameValidation tenantID limits retryCfg push parser req r w
            draw).1.written = some (toHTTPStatus tenantID limits err, err.Error))) ∧
      (retryCfg.Enabled = false →
        (handler allowSkipLabelNameValidation tenantID limits retryCfg push parser req r w
          draw).2 = .returned)) := by
  constructor
  · intro hpush
    have h : handler allowSkipLabelNameValidation tenantID limits retryCfg push parser req r w
        draw = (⟨w, none⟩, .returned) := by
      unfold handler
      rw [hpush]
    rw [h]
    exact ⟨rfl, rfl⟩
  · intro err hpush hc
    have h := handler_of_error allowSkipLabelNameValidation tenantID limits retryCfg push
      parser req r w draw err hpush hc
    constructor
    · intro hret
      rw [h.1] at hret
      rw [h.2 hret]
      constructor
      · intro resp hresp
        simp only [errorAnswer, hresp]
      · intro hresp
        simp only [errorAnswer, hresp]
    · intro hen
      rw [h.1]
      exact (addHeaders_completion w (some err) r _ retryCfg draw).2 (Or.inl (by simp [hen]))

theorem handler_answer_witness :
    (handler false (some "testuser") (fun _ => false) ⟨false, 3, 5⟩
        (fun _ => some (httpgrpcErrorf 413 "this is an error")) (fun flag => .ok ⟨flag⟩) ⟨false⟩
        exampleRequest [] 0).1.written = some (413, "this is an error") :=
  (((handler_answer false (some "testuser") (fun _ => false) ⟨false, 3, 5⟩
      (fun _ => some (httpgrpcErrorf 413 "this is an error")) (fun flag => .ok ⟨flag⟩) ⟨false⟩
      exampleRequest [] 0).2 (httpgrpcErrorf 413 "this is an error") rfl (by decide)).1
    (by decide)).1 (413, "this is an error") (by decide)

theorem doPrintf_of_no_percent (s : List Char) :
    ∀ fuel : Nat, s.length < fuel → '%' ∉ s → doPrintf fuel s = s := by
  induction s with
  | nil =>
    intro fuel hf _
    cases fuel with
    | zero => exact absurd hf (by simp)
    | succ n => rfl
  | cons c cs ih =>
    intro fuel hf hn
    cases fuel with
    | zero => exact absurd hf (by simp)
    | succ n =>
      have hc : c ≠ '%' := fun h => hn (h ▸ List.mem_cons_self _ _)
      have hcs : '%' ∉ cs := fun h => hn (List.mem_cons_of_mem _ h)
      simp only [doPrintf, hc, if_false]
      rw [ih n (by simpa using hf) hcs]

theorem Sprintf_of_no_percent (text : String) (h : '%' ∉ text.data) : Sprintf text = text := by
  unfold Sprintf
  have hd : doPrintf (text.length + 1) text.data = text.data :=
    doPrintf_of_no_percent text.data (text.length + 1) (Nat.lt_succ_self _) h
  rw [hd]

theorem supplier_keeps_httpgrpc (allowSkipLabelNameValidation : Bool) (req : WriteRequest)
    (r : Request) (parser : Bool → Except GoError WriteRequest) (err : GoError)
    (resp : Int × String)
    (hparse : parser (allowSkipLabelNameValidation && req.SkipLabelNameValidation &&
      (r.Header SkipLabelNameValidationHeader == "true")) = .error err)
    (hresp : HTTPResponseFromError err = some resp) :
    supplier allowSkipLabelNameValidation req r parser = .error err := by
  unfold supplier
  simp only [hparse, hresp]

theorem supplier_translates_other (allowSkipLabelNameValidation : Bool) (req : WriteRequest)
    (r : Request) (parser : Bool → Except GoError WriteRequest) (err : GoError)
    (hparse : parser (allowSkipLabelNameValidation && req.SkipLabelNameValidation &&
      (r.Header SkipLabelNameValidationHeader == "true")) = .error err)
    (hresp : HTTPResponseFromError err = none) :
    supplier allowSkipLabelNameValidation req r parser = .error (httpgrpcErrorf 400 err.Error) ∧
      HTTPResponseFromError (httpgrpcErrorf 400 err.Error) = some (400, Sprintf err.Error) ∧
      ('%' ∉ err.Error.data →
        HTTPResponseFromError (httpgrpcErrorf 400 err.Error) = some (400, err.Error)) := by
  refine ⟨?_, rfl, ?_⟩
  · unfold supplier
    simp only [hparse, hresp]
  · intro h
    have hr : HTTPResponseFromError (httpgrpcErrorf 400 err.Error)
        = some (400, Sprintf err.Error) := rfl
    rw [hr, Sprintf_of_no_percent err.Error h]

/-- C19: a request-parsing error that is not an httpgrpc error and whose text is "100%" is
turned into an httpgrpc error with status 400 and the message "100%!(NOVERB)", not the same
message: the text is used as the format of `httpgrpc.Errorf`.  A text without a percent sign,
like "this is an error", is kept, and a parsing error that already is an httpgrpc error keeps
its own status and message. -/
theorem supplier_parse_error_as_format (allowSkipLabelNameValidation : Bool)
    (req : WriteRequest) (r : Request) (code : Int) (body text : String) :
    (∃ e, supplier allowSkipLabelNameValidation req r (fun _ => .error ⟨⟨.other, "100%"⟩, []⟩)
        = .error e ∧ HTTPResponseFromError e = some (400, "100%!(NOVERB)")) ∧
    (∃ e, supplier allowSkipLabelNameValidation req r
          (fun _ => .error ⟨⟨.other, "this is an error"⟩, []⟩) = .error e ∧
        HTTPResponseFromError e = some (400, "this is an error")) ∧
    supplier allowSkipLabelNameValidation req r
        (fun _ => .error ⟨⟨.httpgrpc code body, text⟩, []⟩)
      = .error ⟨⟨.httpgrpc code body, text⟩, []⟩ := by
  refine ⟨⟨httpgrpcErrorf 400 "100%", ?_, by decide⟩,
    ⟨httpgrpcErrorf 400 "this is an error", ?_, by decide⟩, ?_⟩
  · exact (supplier_translates_other _ _ _ _ ⟨⟨.other, "100%"⟩, []⟩ rfl rfl).1
  · exact (supplier_translates_other _ _ _ _ ⟨⟨.other, "this is an error"⟩, []⟩ rfl rfl).1
  · exact supplier_keeps_httpgrpc _ _ _ _ ⟨⟨.httpgrpc code body, text⟩, []⟩ (code, body) rfl rfl

theorem handler_returns_clean_iff (allowSkipLabelNameValidation : Bool)
    (tenantID : Option String) (limits : String → Bool) (retryCfg : RetryConfig)
    (push : Except GoError WriteRequest → Option GoError)
    (parser : Bool → Except GoError WriteRequest) (req : WriteRequest) (r : Request)
    (w : Header) (draw : Nat) :
    handler allowSkipLabelNameValidation tenantID limits retryCfg push parser req r w draw
        = (⟨w, none⟩, .returned) ↔
      push (supplier allowSkipLabelNameValidation req r parser) = none := by
  unfold handler
  cases hp : push (supplier allowSkipLabelNameValidation req r parser) with
  | none => simp
  | some err =>
    simp only
    by_cases hc : isCanceled err = true
    · simp [hc]
    · simp only [hc, Bool.false_eq_true, if_false]
      rcases hadd : addHeaders w (some err) r (errorAnswer tenantID limits err).1 retryCfg draw
        with ⟨w1, c⟩
      cases c <;> simp

/-- C20: the flag `Handler` hands to the push function does not follow the write request.
Line 210 computes it from `req.SkipLabelNameValidation` before line 211 has parsed the
request, and the parser of `Handler` overwrites the field of the parsed request with it.  So
for every parsed request `body`, the push function is called with `body` carrying the flag
`allowSkipLabelNameValidation && req.SkipLabelNameValidation && header == "true"`, and the
handler answers by what push returns on it.  With the config flag true, the header "true" and
a body that sets the flag, push receives false when `req` does not set it, where the claim
and the test expect true. -/
theorem skipLabelNameValidation_read_before_parse (maxRecvMsgSize : Int)
    (allowSkipLabelNameValidation : Bool) (tenantID : Option String) (limits : String → Bool)
    (retryCfg : RetryConfig) (push : Except GoError WriteRequest → Option GoError)
    (body req : WriteRequest) (r : Request) (w : Header) (draw : Nat) :
    supplier allowSkipLabelNameValidation req r (HandlerParser (.ok body) r maxRecvMsgSize)
      = .ok { body with SkipLabelNameValidation :=
          allowSkipLabelNameValidation && req.SkipLabelNameValidation &&
            (r.Header "X-Mimir-SkipLabelNameValidation" == "true") } ∧
    (Handler maxRecvMsgSize allowSkipLabelNameValidation tenantID limits retryCfg push
        (.ok body) req r w draw = (⟨w, none⟩, .returned) ↔
      push (.ok { body with SkipLabelNameValidation :=
          allowSkipLabelNameValidation && req.SkipLabelNameValidation &&
            (r.Header "X-Mimir-SkipLabelNameValidation" == "true") }) = none) ∧
    Handler maxRecvMsgSize allowSkipLabelNameValidation tenantID limits retryCfg push
        (.ok body) req r w draw
      = Handler maxRecvMsgSize allowSkipLabelNameValidation tenantID limits retryCfg
        (fun _ => push (.ok { body with SkipLabelNameValidation :=
          allowSkipLabelNameValidation && req.SkipLabelNameValidation &&
            (r.Header "X-Mimir-SkipLabelNameValidation" == "true") })) (.ok body) req r w draw ∧
    supplier true ⟨false⟩ ⟨fun _ => "true", 0⟩ (HandlerParser (.ok ⟨true⟩) ⟨fun _ => "true", 0⟩
      100000) = .ok ⟨false⟩ := by
  have hs : supplier allowSkipLabelNameValidation req r
      (HandlerParser (.ok body) r maxRecvMsgSize)
      = .ok { body with SkipLabelNameValidation :=
          allowSkipLabelNameValidation && req.SkipLabelNameValidation &&
            (r.Header "X-Mimir-SkipLabelNameValidation" == "true") } := rfl
  refine ⟨hs, ?_, ?_, rfl⟩
  · unfold Handler
    rw [handler_returns_clean_iff, hs]
  · unfold Handler handler
    rw [hs]

/-! ### The text of the message-size error -/

theorem append_right_ne (p a b : String) (h : a.data ≠ b.data) : p ++ a ≠ p ++ b := by
  intro he
  have hd := congrArg String.data he
  rw [String.data_append, String.data_append, List.append_cancel_left_eq] at hd
  exact h hd

/-- C21: the text of `distributorMaxWriteMessageSizeErr{actual, limit}.Error()` is "the incoming
push request has been rejected because its message size of <actual> bytes is larger than the
allowed limit of <limit> bytes", followed by the error ID and the
`-distributor.max-recv-msg-size` hint, when `actual ≥ 0`; it omits " of <actual> bytes"
exactly when `actual < 0`. -/
theorem distributorMaxWriteMessageSizeErr_text (actual limit : Int) :
    (0 ≤ actual →
      distributorMaxWriteMessageSizeErrError actual limit =
        MessageWithPerInstanceLimitConfig "distributor-max-write-message-size"
          ("the incoming push request has been rejected because its message size" ++
            (" of " ++ toString actual ++ " bytes") ++
            " is larger than the allowed limit of " ++ toString limit ++ " bytes")
          "distributor.max-recv-msg-size") ∧
    (actual < 0 ↔
      distributorMaxWriteMessageSizeErrError actual limit =
        MessageWithPerInstanceLimitConfig "distributor-max-write-message-size"
          ("the incoming push request has been rejected because its message size" ++
            " is larger than the allowed limit of " ++ toString limit ++ " bytes")
          "distributor.max-recv-msg-size") := by
  constructor
  · intro h
    unfold distributorMaxWriteMessageSizeErrError
    rw [if_neg (by omega)]
  · constructor
    · intro h
      unfold distributorMaxWriteMessageSizeErrError
      rw [if_pos h]
      simp only [String.append_empty]
    · intro h
      by_contra hn
      unfold distributorMaxWriteMessageSizeErrError at h
      rw [if_neg hn] at h
      simp only [MessageWithPerInstanceLimitConfig, String.append_assoc] at h
      revert h
      apply append_right_ne
      intro hd
      simp only [String.data_append, List.cons_append, List.cons.injEq] at hd
      exact absurd hd.2.1 (by decide)

set_option maxRecDepth 100000 in
theorem distributorMaxWriteMessageSizeErr_text_witness :
    (0 : Int) ≤ 100 ∧
    distributorMaxWriteMessageSizeErrError 100 50 =
      "the incoming push request has been rejected because its message size of 100 bytes is larger than the allowed limit of 50 bytes (err-mimir-distributor-max-write-message-size). To adjust the related limit, configure -distributor.max-recv-msg-size, or contact your service administrator." :=
  ⟨by decide, ((distributorMaxWriteMessageSizeErr_text 100 50).1 (by decide)).trans (by decide)⟩

/-! ### Panics of `calculateRetryAfter` -/

theorem retryAfter_steps (header : String) (b m : Int) (hb : 1 ≤ b) (hm : 1 ≤ m)
    (hov : b * 2 ^ (m.toNat - 1) < 9223372036854775808) :
    0 ≤ retryAttemptOf header m - 1 ∧
    ∃ minSeconds maxSeconds,
      shiftLeft64 b (wrapInt64 (retryAttemptOf header m - 1)) = some minSeconds ∧
      shiftLeft64 minSeconds 1 = some maxSeconds ∧
      wrapInt64 (maxSeconds - minSeconds) = minSeconds ∧ 0 < minSeconds := by
  obtain ⟨h1, h2⟩ := retryAttemptOf_range header m hm
  generalize retryAttemptOf header m = k at h1 h2
  have hle : (2 : Int) ^ (k.toNat - 1) ≤ 2 ^ (m.toNat - 1) :=
    pow_le_pow_right₀ (by norm_num) (by omega)
  have hp : (0 : Int) < 2 ^ (k.toNat - 1) := by positivity
  have hmn1 : 1 ≤ b * 2 ^ (k.toNat - 1) := by nlinarith
  have hmn2 : b * 2 ^ (k.toNat - 1) < 9223372036854775808 :=
    lt_of_le_of_lt (Int.mul_le_mul_of_nonneg_left hle (by omega)) hov
  have hk63 : k.toNat - 1 ≤ 63 := by
    by_contra hk
    have h64 : (2 : Int) ^ 64 ≤ 2 ^ (k.toNat - 1) := pow_le_pow_right₀ (by norm_num) (by omega)
    have : (2 : Int) ^ 64 = 18446744073709551616 := by norm_num
    nlinarith
  have hw : wrapInt64 (k - 1) = k - 1 := wrapInt64_small _ (by omega) (by omega)
  have hs : shiftLeft64 b (k - 1) = some (b * 2 ^ (k.toNat - 1)) := by
    unfold shiftLeft64
    rw [if_neg (by omega), if_neg (by omega)]
    have : (k - 1).toNat = k.toNat - 1 := by omega
    rw [this, wrapInt64_small _ (by omega) (by omega)]
  have hs2 : shiftLeft64 (b * 2 ^ (k.toNat - 1)) 1 =
      some (wrapInt64 (b * 2 ^ (k.toNat - 1) * 2)) := by
    unfold shiftLeft64
    rw [if_neg (by decide), if_neg (by decide)]
    rfl
  refine ⟨by omega, b * 2 ^ (k.toNat - 1), wrapInt64 (b * 2 ^ (k.toNat - 1) * 2), ?_, hs2, ?_,
    by omega⟩
  · rw [hw, hs]
  · generalize b * 2 ^ (k.toNat - 1) = mn at hmn1 hmn2
    unfold wrapInt64; omega

/-- C29 (amended): for every `RetryConfig` that `Validate` accepts and whose largest
`minSeconds`, `BaseSeconds * 2^(MaxBackoffExponent - 1)`, is below `2^63`, every Retry-Attempt
header and every draw of the random source, `calculateRetryAfter` does not panic: the shift
count `retryAttempt - 1` is non-negative, and the argument `maxSeconds - minSeconds` of
`rand.Int63n` is `minSeconds` itself, which is strictly positive. -/
theorem calculateRetryAfter_does_not_panic (cfg : RetryConfig) (header : String) (draw : Nat)
    (hv : cfg.Validate = none)
    (hov : cfg.BaseSeconds * 2 ^ (cfg.MaxBackoffExponent.toNat - 1) < 9223372036854775808) :
    (∃ v, calculateRetryAfter header cfg.BaseSeconds cfg.MaxBackoffExponent draw = some v) ∧
    0 ≤ retryAttemptOf header cfg.MaxBackoffExponent - 1 ∧
    ∃ minSeconds maxSeconds,
      shiftLeft64 cfg.BaseSeconds
        (wrapInt64 (retryAttemptOf header cfg.MaxBackoffExponent - 1)) = some minSeconds ∧
      shiftLeft64 minSeconds 1 = some maxSeconds ∧
      wrapInt64 (maxSeconds - minSeconds) = minSeconds ∧ 0 < minSeconds := by
  have hbm : 1 ≤ cfg.BaseSeconds ∧ 1 ≤ cfg.MaxBackoffExponent := by
    unfold RetryConfig.Validate at hv
    split_ifs at hv
    omega
  obtain ⟨h0, mn, mx, h1, h2, h3, h4⟩ :=
    retryAfter_steps header cfg.BaseSeconds cfg.MaxBackoffExponent hbm.1 hbm.2 hov
  refine ⟨?_, h0, mn, mx, h1, h2, h3, h4⟩
  unfold calculateRetryAfter delaySeconds
  rw [h1]
  simp only [h2, h3]
  unfold Int63n
  rw [if_neg (by omega)]
  exact ⟨_, rfl⟩

theorem calculateRetryAfter_does_not_panic_witness :
    (RetryConfig.mk true 3 5).Validate = none ∧
    (∃ v, calculateRetryAfter "7" 3 5 11 = some v) :=
  ⟨by decide,
    (calculateRetryAfter_does_not_panic ⟨true, 3, 5⟩ "7" 11 (by decide) (by decide)).1⟩

/-- C29 (counterexample): `Validate` accepts base `2^62` with exponent 2, yet for the header
"2" `minSeconds` wraps to `-2^63`, `maxSeconds` to 0, `rand.Int63n` gets `-2^63` and
`calculateRetryAfter` panics. -/
theorem calculateRetryAfter_panics_on_overflow :
    (RetryConfig.mk true 4611686018427387904 2).Validate = none ∧
    shiftLeft64 4611686018427387904 (wrapInt64 (retryAttemptOf "2" 2 - 1)) =
      some (-9223372036854775808) ∧
    shiftLeft64 (-9223372036854775808) 1 = some 0 ∧
    wrapInt64 (0 - -9223372036854775808) = -9223372036854775808 ∧
    ∀ draw, calculateRetryAfter "2" 4611686018427387904 2 draw = none := by
  refine ⟨by decide, by decide, by decide, by decide, ?_⟩
  intro draw
  have h1 : retryAttemptOf "2" 2 = 2 := by decide
  have h2 : shiftLeft64 4611686018427387904 (wrapInt64 (2 - 1)) =
      some (-9223372036854775808) := by decide
  have h3 : shiftLeft64 (-9223372036854775808) 1 = some 0 := by decide
  have h4 : wrapInt64 (0 - -9223372036854775808) = -9223372036854775808 := by decide
  unfold calculateRetryAfter delaySeconds
  rw [h1, h2]
  simp only [h3, h4]
  rfl

/-! ### The driver's `main` -/

/-- C27: `main` runs two ring simulations, both through `generateRingWithoutZoneAwareness`: the
first with replication factor 1, the second with replication factor 3.  Every token distributor
of either simulation has zone-awareness disabled and the single zone; the second simulation is
therefore not zone-aware, against the claim and the comment above the call. -/
theorem main_runs_without_zone_awareness (SingleZone : Zone) :
    ∃ sim1 sim2 : RingSimulation,
      main SingleZone = [some sim1, some sim2] ∧
      sim1.distributors.length = 60 ∧ sim2.distributors.length = 60 ∧
      (∀ run ∈ sim1.distributors,
        run.replicationFactor = 1 ∧ run.zoneAware = false ∧ run.zoneCount = 1 ∧
          run.addInstanceCalls = addInstanceCallsWithoutZones [SingleZone] 66) ∧
      (∀ run ∈ sim2.distributors,
        run.replicationFactor = 3 ∧ run.zoneAware = false ∧ run.zoneCount = 1 ∧
          run.addInstanceCalls = addInstanceCallsWithoutZones [SingleZone] 66) := by
  refine ⟨_, _, rfl, rfl, rfl, ?_, ?_⟩
  · intro run hr
    simp only [List.mem_flatMap, List.mem_map] at hr
    obtain ⟨n, _, k, _, rfl⟩ := hr
    exact ⟨rfl, rfl, rfl, rfl⟩
  · intro run hr
    simp only [List.mem_flatMap, List.mem_map] at hr
    obtain ⟨n, _, k, _, rfl⟩ := hr
    exact ⟨rfl, rfl, rfl, rfl⟩

/-! ### The OTLP converter -/

theorem isSameMetric_all_self {α : Type} (ts : TimeSeries α) :
    (ts.Labels.enum.all (fun il =>
      match ts.Labels[il.1]? with
      | some tsLabel => !(il.2.Name != tsLabel.Name || il.2.Value != tsLabel.Value)
      | none => false)) = true := by
  rw [List.all_eq_true]
  intro il hil
  obtain ⟨i, l⟩ := il
  have h := List.mem_enum_iff_getElem?.1 hil
  simp only at h ⊢
  rw [h]
  simp

/-- C28: `isSameMetric(ts, lbls)` compares every label of `ts.Labels` with itself, never with
`lbls`: it returns true exactly when the two label lists have the same length, whatever the
names and values; for `ts.Labels = [a="1"]` and `lbls = [b="2"]` it returns true. -/
theorem isSameMetric_compares_lengths_only {α : Type} (ts : TimeSeries α)
    (lbls : List LabelAdapter) :
    (isSameMetric ts lbls = true ↔ ts.Labels.length = lbls.length) ∧
    isSameMetric (⟨[⟨"a", "1"⟩], [], []⟩ : TimeSeries α) [⟨"b", "2"⟩] = true := by
  have key : ∀ (t : TimeSeries α) (l : List LabelAdapter),
      isSameMetric t l = true ↔ t.Labels.length = l.length := by
    intro t l
    unfold isSameMetric
    by_cases h : t.Labels.length = l.length
    · rw [if_neg (by simpa using h), isSameMetric_all_self]
      simp [h]
    · rw [if_pos h]
      simp [h]
  exact ⟨key ts lbls, (key _ _).2 rfl⟩

/-! ### The activity tracker wrapper -/

/-- C25: `ActivityTrackerWrapper.Push` and `ActivityTrackerWrapper.PushWithCleanup` perform no
tracking: whatever `Insert` and `Delete` do, the tracker is left in the state it was in, and the
methods return exactly what the wrapped ingester's `Push` / `PushWithCleanup` returns on the
same arguments. -/
theorem push_is_not_tracked {T I A R : Type} (tracker : ActivityTracker T)
    (ing : Operation → A → T → I → I × R) (args : A) (t : T) (i : I) :
    ActivityTrackerWrapper.run tracker ing .Push args t i = (t, ing .Push args t i) ∧
    ActivityTrackerWrapper.run tracker ing .PushWithCleanup args t i =
      (t, ing .PushWithCleanup args t i) :=
  ⟨rfl, rfl⟩

theorem activity_isSome (op : Operation) (h : op ≠ .Push ∧ op ≠ .PushWithCleanup) :
    ∃ a, op.activity = some a := by
  cases op
  · exact absurd rfl h.1
  · exact absurd rfl h.2
  all_goals exact ⟨_, rfl⟩

/-- C30: every tracked operation of `ActivityTrackerWrapper` (every method but `Push` and
`PushWithCleanup`) inserts exactly one activity, calls the wrapped ingester on the tracker
with that activity inserted, and deletes the index `Insert` returned once the call has
returned, whatever it returned; for a tracker whose `Delete` undoes its `Insert`, the active
entries after the call are the active entries before it. -/
theorem tracked_operation_inserts_and_deletes {T I A R : Type} (tracker : ActivityTracker T)
    (ing : Operation → A → T → I → I × R) (op : Operation) (args : A) (t : T) (i : I)
    (hop : op ≠ .Push ∧ op ≠ .PushWithCleanup)
    (hundo : ∀ (s : T) (a : Activity),
      tracker.active (tracker.Delete (tracker.Insert s a).1 (tracker.Insert s a).2) =
        tracker.active s) :
    ∃ a, op.activity = some a ∧
      ActivityTrackerWrapper.run tracker ing op args t i =
        (tracker.Delete (tracker.Insert t a).1 (tracker.Insert t a).2,
          ing op args (tracker.Insert t a).1 i) ∧
      tracker.active (ActivityTrackerWrapper.run tracker ing op args t i).1 =
        tracker.active t := by
  obtain ⟨a, ha⟩ := activity_isSome op hop
  have hrun : ActivityTrackerWrapper.run tracker ing op args t i =
      (tracker.Delete (tracker.Insert t a).1 (tracker.Insert t a).2,
        ing op args (tracker.Insert t a).1 i) := by
    unfold ActivityTrackerWrapper.run
    rw [ha]
  refine ⟨a, ha, hrun, ?_⟩
  rw [hrun]
  exact hundo t a

theorem exampleTracker_undo (s : Option Activity) (a : Activity) :
    exampleTracker.active (exampleTracker.Delete (exampleTracker.Insert s a).1
      (exampleTracker.Insert s a).2) = exampleTracker.active s := by
  cases s <;> rfl

theorem tracked_operation_inserts_and_deletes_witness :
    ActivityTrackerWrapper.run exampleTracker exampleIngester .QueryStream "request" none 0 =
      (none, 1, some ⟨.serverContext, "Ingester/QueryStream", true⟩) ∧
    ∃ a, Operation.QueryStream.activity = some a ∧
      ActivityTrackerWrapper.run exampleTracker exampleIngester .QueryStream "request" none 0 =
        (exampleTracker.Delete (exampleTracker.Insert none a).1
            (exampleTracker.Insert none a).2,
          exampleIngester .QueryStream "request" (exampleTracker.Insert none a).1 0) ∧
      exampleTracker.active
          (ActivityTrackerWrapper.run exampleTracker exampleIngester .QueryStream "request"
            none 0).1 = exampleTracker.active none :=
  ⟨by decide,
    tracked_operation_inserts_and_deletes exampleTracker exampleIngester .QueryStream "request"
      none 0 (by decide) exampleTracker_undo⟩

/-! ### The methods of `MimirConverter` -/

/-- C22: `MimirConverter.addSample` does nothing when the sample is nil or the label list is
nil or empty: it returns nil and leaves the converter, its `unique` and `conflicts` maps
included, unchanged.  Otherwise it returns the series `getOrCreateTimeSeries` gives for the
labels, with the sample appended as its last sample after all the samples the series had; that
series keeps its labels and exemplars, every other series and both maps stay as
`getOrCreateTimeSeries` left them. -/
theorem addSample_spec {α : Type}
    (getOrCreateTimeSeries : MimirConverter α → List LabelAdapter → MimirConverter α × Nat × Bool)
    (c : MimirConverter α) (sample : Option (Sample α)) (lbls : List LabelAdapter) :
    (sample = none ∨ lbls = [] →
      MimirConverter.addSample getOrCreateTimeSeries c sample lbls = (c, none)) ∧
    (∀ s, sample = some s → lbls ≠ [] →
      (MimirConverter.addSample getOrCreateTimeSeries c sample lbls).2 =
        some (getOrCreateTimeSeries c lbls).2.1 ∧
      ((MimirConverter.addSample getOrCreateTimeSeries c sample lbls).1.series
          (getOrCreateTimeSeries c lbls).2.1).Samples =
        ((getOrCreateTimeSeries c lbls).1.series (getOrCreateTimeSeries c lbls).2.1).Samples
          ++ [s] ∧
      ((MimirConverter.addSample getOrCreateTimeSeries c sample lbls).1.series
          (getOrCreateTimeSeries c lbls).2.1).Labels =
        ((getOrCreateTimeSeries c lbls).1.series (getOrCreateTimeSeries c lbls).2.1).Labels ∧
      ((MimirConverter.addSample getOrCreateTimeSeries c sample lbls).1.series
          (getOrCreateTimeSeries c lbls).2.1).Exemplars =
        ((getOrCreateTimeSeries c lbls).1.series (getOrCreateTimeSeries c lbls).2.1).Exemplars ∧
      (∀ p, p ≠ (getOrCreateTimeSeries c lbls).2.1 →
        (MimirConverter.addSample getOrCreateTimeSeries c sample lbls).1.series p =
          (getOrCreateTimeSeries c lbls).1.series p) ∧
      (MimirConverter.addSample getOrCreateTimeSeries c sample lbls).1.unique =
        (getOrCreateTimeSeries c lbls).1.unique ∧
      (MimirConverter.addSample getOrCreateTimeSeries c sample lbls).1.conflicts =
        (getOrCreateTimeSeries c lbls).1.conflicts) := by
  constructor
  · rintro (h | h)
    · subst h
      rfl
    · subst h
      cases sample <;> rfl
  · intro s hs hl
    subst hs
    have hlen : ¬ lbls.length = 0 := by
      intro h
      exact hl (List.length_eq_zero.1 h)
    have hrun : MimirConverter.addSample getOrCreateTimeSeries c (some s) lbls =
        ((getOrCreateTimeSeries c lbls).1.appendSample (getOrCreateTimeSeries c lbls).2.1 s,
          some (getOrCreateTimeSeries c lbls).2.1) := by
      unfold MimirConverter.addSample
      simp only [hlen, if_false]
    rw [hrun]
    refine ⟨rfl, ?_, ?_, ?_, ?_, rfl, rfl⟩
    · simp [MimirConverter.appendSample]
    · simp [MimirConverter.appendSample]
    · simp [MimirConverter.appendSample]
    · intro p hp
      simp [MimirConverter.appendSample, Function.update_noteq hp]

theorem addSample_spec_witness :
    (some (⟨7, 1000⟩ : Sample Int) = some ⟨7, 1000⟩) ∧
    [(⟨"__name__", "foo"⟩ : LabelAdapter)] ≠ [] ∧
    ((MimirConverter.addSample exampleGetOrCreateTimeSeries exampleConverter
        (some ⟨7, 1000⟩) [⟨"__name__", "foo"⟩]).1.series 3).Samples = [⟨7, 1000⟩] :=
  ⟨rfl, by decide,
    ((addSample_spec exampleGetOrCreateTimeSeries exampleConverter (some ⟨7, 1000⟩)
      [⟨"__name__", "foo"⟩]).2 ⟨7, 1000⟩ rfl (by decide)).2.1⟩

theorem float64_le_of_lt_eq_false {β : Type} [Preorder β] [IsTotal β (fun a b => a ≤ b)]
    [DecidableRel (fun a b : β => a ≤ b)] (a b : Float64 β) (ha : a ≠ .NaN) (hb : b ≠ .NaN)
    (h : Float64.lt a b = false) : Float64.le b a = true := by
  cases a with
  | NaN => exact absurd rfl ha
  | num x =>
    cases b with
    | NaN => exact absurd rfl hb
    | num y =>
      simp only [Float64.lt, Bool.and_eq_false_imp, decide_eq_true_eq, Bool.not_eq_false']
        at h
      simp only [Float64.le, decide_eq_true_eq]
      rcases IsTotal.total (r := fun a b : β => a ≤ b) x y with hxy | hyx
      · exact h hxy
      · exact hyx

theorem float64_le_of_lt {β : Type} [Preorder β] [DecidableRel (fun a b : β => a ≤ b)]
    (a b : Float64 β) (h : Float64.lt a b = true) : Float64.le a b = true := by
  cases a with
  | NaN => simp [Float64.lt] at h
  | num x =>
    cases b with
    | NaN => simp [Float64.lt] at h
    | num y =>
      simp only [Float64.lt, Bool.and_eq_true, decide_eq_true_eq] at h
      simp only [Float64.le, decide_eq_true_eq]
      exact h.1

theorem float64_le_trans {β : Type} [Preorder β] [DecidableRel (fun a b : β => a ≤ b)]
    (a b c : Float64 β) (h1 : Float64.le a b = true) (h2 : Float64.le b c = true) :
    Float64.le a c = true := by
  cases a with
  | NaN => simp [Float64.le] at h1
  | num x =>
    cases b with
    | NaN => simp [Float64.le] at h1
    | num y =>
      cases c with
      | NaN => simp [Float64.le] at h2
      | num z =>
        simp only [Float64.le, decide_eq_true_eq] at h1 h2 ⊢
        exact le_trans h1 h2

theorem insertionSortStep_perm {A : Type} (less : A → A → Bool) (x : A) (l : List A) :
    (insertionSortStep less x l).Perm (x :: l) := by
  induction l with
  | nil => exact List.Perm.refl _
  | cons y ys ih =>
    unfold insertionSortStep
    by_cases h : less x y = true
    · rw [if_pos h]
      exact ((List.Perm.cons y ih).trans (List.Perm.swap x y ys))
    · rw [if_neg h]

theorem insertionSort_foldl_perm {A : Type} (less : A → A → Bool) (l acc : List A) :
    (l.foldl (fun before x => insertionSortStep less x before) acc).Perm (l ++ acc) := by
  induction l generalizing acc with
  | nil => exact List.Perm.refl _
  | cons x xs ih =>
    rw [List.foldl_cons]
    refine (ih _).trans ?_
    refine (List.Perm.append_left xs (insertionSortStep_perm less x acc)).trans ?_
    exact List.perm_middle

theorem insertionSort_perm {A : Type} (less : A → A → Bool) (l : List A) :
    (insertionSort less l).Perm l := by
  unfold insertionSort
  refine (List.reverse_perm _).trans ?_
  have h := insertionSort_foldl_perm less l []
  rwa [List.append_nil] at h

theorem insertionSortStep_descending {β : Type} [Preorder β]
    [IsTotal β (fun a b => a ≤ b)] [DecidableRel (fun a b : β => a ≤ b)]
    (x : bucketBoundsData (Float64 β)) (l : List (bucketBoundsData (Float64 β)))
    (hx : x.bound ≠ .NaN) (hl : ∀ y ∈ l, y.bound ≠ .NaN)
    (hd : l.Pairwise (fun a b => Float64.le b.bound a.bound = true)) :
    (insertionSortStep (fun a b => Float64.lt a.bound b.bound) x l).Pairwise
      (fun a b => Float64.le b.bound a.bound = true) := by
  induction l with
  | nil => exact List.pairwise_singleton _ _
  | cons y ys ih =>
    rw [List.pairwise_cons] at hd
    have hy : y.bound ≠ .NaN := hl y (List.mem_cons_self _ _)
    unfold insertionSortStep
    by_cases h : Float64.lt x.bound y.bound = true
    · rw [if_pos h]
      refine List.pairwise_cons.2 ⟨?_, ih (fun z hz => hl z (List.mem_cons_of_mem _ hz)) hd.2⟩
      intro z hz
      rcases List.mem_cons.1 ((insertionSortStep_perm _ x ys).mem_iff.1 hz) with hzx | hzy
      · rw [hzx]
        exact float64_le_of_lt _ _ h
      · exact hd.1 z hzy
    · rw [if_neg h]
      have hyx : Float64.le y.bound x.bound = true :=
        float64_le_of_lt_eq_false _ _ hx hy (by simpa using h)
      refine List.pairwise_cons.2 ⟨?_, List.pairwise_cons.2 hd⟩
      intro z hz
      rcases List.mem_cons.1 hz with hzy | hzy
      · rw [hzy]
        exact hyx
      · exact float64_le_trans _ _ _ (hd.1 z hzy) hyx

theorem insertionSort_foldl_descending {β : Type} [Preorder β]
    [IsTotal β (fun a b => a ≤ b)] [DecidableRel (fun a b : β => a ≤ b)]
    (l acc : List (bucketBoundsData (Float64 β)))
    (hl : ∀ y ∈ l, y.bound ≠ .NaN) (hacc : ∀ y ∈ acc, y.bound ≠ .NaN)
    (hd : acc.Pairwise (fun a b => Float64.le b.bound a.bound = true)) :
    (l.foldl (fun before x =>
        insertionSortStep (fun a b => Float64.lt a.bound b.bound) x before) acc).Pairwise
      (fun a b => Float64.le b.bound a.bound = true) := by
  induction l generalizing acc with
  | nil => exact hd
  | cons x xs ih =>
    rw [List.foldl_cons]
    have hx : x.bound ≠ .NaN := hl x (List.mem_cons_self _ _)
    refine ih _ (fun y hy => hl y (List.mem_cons_of_mem _ hy)) ?_
      (insertionSortStep_descending x acc hx hacc hd)
    intro y hy
    rcases List.mem_cons.1 ((insertionSortStep_perm _ x acc).mem_iff.1 hy) with h | h
    · rw [h]
      exact hx
    · exact hacc y h

theorem sortBucketBounds_sorted {β : Type} [Preorder β]
    [IsTotal β (fun a b => a ≤ b)] [DecidableRel (fun a b : β => a ≤ b)]
    (l : List (bucketBoundsData (Float64 β))) :
    (sortBucketBounds l).Perm l ∧
    ((∀ b ∈ l, b.bound ≠ .NaN) →
      (sortBucketBounds l).Pairwise (fun a b => Float64.le a.bound b.bound = true)) := by
  refine ⟨insertionSort_perm _ l, ?_⟩
  intro hl
  unfold sortBucketBounds insertionSort
  rw [List.pairwise_reverse]
  exact insertionSort_foldl_descending l [] hl (fun y hy => absurd hy (List.not_mem_nil y))
    List.Pairwise.nil

theorem find_fits_minimal {β : Type} [Preorder β] [DecidableRel (fun a b : β => a ≤ b)]
    (fits : bucketBoundsData (Float64 β) → Bool)
    (hrefl : ∀ b, fits b = true → Float64.le b.bound b.bound = true)
    (bs : List (bucketBoundsData (Float64 β)))
    (hs : bs.Pairwise (fun a b => Float64.le a.bound b.bound = true))
    (b : bucketBoundsData (Float64 β)) (hb : bs.find? fits = some b) :
    b ∈ bs ∧ fits b = true ∧
      ∀ b2 ∈ bs, fits b2 = true → Float64.le b.bound b2.bound = true := by
  induction bs with
  | nil => simp at hb
  | cons x xs ih =>
    rw [List.pairwise_cons] at hs
    by_cases hx : fits x = true
    · rw [List.find?_cons_of_pos _ hx] at hb
      simp only [Option.some.injEq] at hb
      subst hb
      refine ⟨List.mem_cons_self _ _, hx, ?_⟩
      intro b2 hb2 _
      rcases List.mem_cons.1 hb2 with h | h
      · rw [h]
        exact hrefl x hx
      · exact hs.1 b2 h
    · rw [List.find?_cons_of_neg _ hx] at hb
      obtain ⟨h1, h2, h3⟩ := ih hs.2 hb
      refine ⟨List.mem_cons_of_mem _ h1, h2, ?_⟩
      intro b2 hb2 hf
      rcases List.mem_cons.1 hb2 with h | h
      · rw [h] at hf
        exact absurd hf hx
      · exact h3 b2 h hf

theorem float64_le_self_of_le {β : Type} [Preorder β] [DecidableRel (fun a b : β => a ≤ b)]
    (a b : Float64 β) (h : Float64.le a b = true) : Float64.le b b = true := by
  cases a with
  | NaN => simp [Float64.le] at h
  | num x =>
    cases b with
    | NaN => simp [Float64.le] at h
    | num y => simp [Float64.le]

theorem addExemplarToBounds_spec {β : Type} [Preorder β] [DecidableRel (fun a b : β => a ≤ b)]
    (checkContext : Nat → Option GoError) (e : Exemplar (Float64 β)) (S : Nat → Nat)
    (bs : List (bucketBoundsData (Float64 β))) (c : MimirConverter (Float64 β))
    (hS : ∀ p, (c.series p).Samples.length = S p) :
    (MimirConverter.addExemplarToBounds checkContext e bs c).1.unique = c.unique ∧
    (MimirConverter.addExemplarToBounds checkContext e bs c).1.conflicts = c.conflicts ∧
    (∀ p, ((MimirConverter.addExemplarToBounds checkContext e bs c).1.series p).Samples =
      (c.series p).Samples) ∧
    (∀ p, ((MimirConverter.addExemplarToBounds checkContext e bs c).1.series p).Labels =
      (c.series p).Labels) ∧
    (∀ p, ((MimirConverter.addExemplarToBounds checkContext e bs c).1.series p).Exemplars =
      (c.series p).Exemplars ++
        (if (MimirConverter.addExemplarToBounds checkContext e bs c).2 = none ∧
            (bs.find? (fun b => decide (0 < S b.ts ∧ Float64.le e.Value b.bound = true))).map (fun b => b.ts)
              = some p
          then [e] else [])) := by
  induction bs generalizing c with
  | nil =>
    refine ⟨rfl, rfl, fun _ => rfl, fun _ => rfl, ?_⟩
    intro p
    simp [MimirConverter.addExemplarToBounds]
  | cons b rest ih =>
    unfold MimirConverter.addExemplarToBounds
    cases hc : checkContext c.everyN with
    | some err =>
      refine ⟨rfl, rfl, fun _ => rfl, fun _ => rfl, ?_⟩
      intro p
      simp [MimirConverter.tick]
    | none =>
      simp only
      have hSb : (c.tick.series b.ts).Samples.length = S b.ts := hS b.ts
      by_cases hq : 0 < S b.ts ∧ Float64.le e.Value b.bound = true
      · rw [hSb, if_pos hq]
        have hf : List.find? (fun b => decide (0 < S b.ts ∧ Float64.le e.Value b.bound = true)) (b :: rest)
            = some b := List.find?_cons_of_pos _ (by simpa using hq)
        refine ⟨rfl, rfl, ?_, ?_, ?_⟩
        · intro p
          by_cases hp : p = b.ts
          · subst hp
            simp [MimirConverter.appendExemplar, MimirConverter.tick]
          · simp [MimirConverter.appendExemplar, MimirConverter.tick, Function.update_noteq hp]
        · intro p
          by_cases hp : p = b.ts
          · subst hp
            simp [MimirConverter.appendExemplar, MimirConverter.tick]
          · simp [MimirConverter.appendExemplar, MimirConverter.tick, Function.update_noteq hp]
        · intro p
          rw [hf]
          by_cases hp : p = b.ts
          · subst hp
            simp [MimirConverter.appendExemplar, MimirConverter.tick]
          · have hp2 : ¬ b.ts = p := fun h => hp h.symm
            simp [MimirConverter.appendExemplar, MimirConverter.tick, Function.update_noteq hp,
              hp2]
      · rw [hSb, if_neg hq]
        have hf : List.find? (fun b => decide (0 < S b.ts ∧ Float64.le e.Value b.bound = true)) (b :: rest)
            = List.find? (fun b => decide (0 < S b.ts ∧ Float64.le e.Value b.bound = true)) rest :=
          List.find?_cons_of_neg _ (by simpa using hq)
        rw [hf]
        exact ih c.tick hS

theorem addExemplarsLoop_spec {β : Type} [Preorder β] [DecidableRel (fun a b : β => a ≤ b)]
    (checkContext : Nat → Option GoError) (S : Nat → Nat) (bs : List (bucketBoundsData (Float64 β)))
    (es : List (Exemplar (Float64 β))) (c : MimirConverter (Float64 β))
    (hS : ∀ p, (c.series p).Samples.length = S p) :
    ∃ processed : List (Exemplar (Float64 β)),
      processed <+: es ∧
      ((MimirConverter.addExemplarsLoop checkContext bs es c).2 = none → processed = es) ∧
      (MimirConverter.addExemplarsLoop checkContext bs es c).1.unique = c.unique ∧
      (MimirConverter.addExemplarsLoop checkContext bs es c).1.conflicts = c.conflicts ∧
      (∀ p, ((MimirConverter.addExemplarsLoop checkContext bs es c).1.series p).Samples =
        (c.series p).Samples) ∧
      (∀ p, ((MimirConverter.addExemplarsLoop checkContext bs es c).1.series p).Labels =
        (c.series p).Labels) ∧
      (∀ p, ((MimirConverter.addExemplarsLoop checkContext bs es c).1.series p).Exemplars =
        (c.series p).Exemplars ++
          processed.filter (fun e =>
            decide ((bs.find? (fun b => decide (0 < S b.ts ∧ Float64.le e.Value b.bound = true))).map
              (fun b => b.ts) = some p))) := by
  induction es generalizing c with
  | nil =>
    exact ⟨[], List.prefix_refl _, fun _ => rfl, rfl, rfl, fun _ => rfl, fun _ => rfl,
      fun p => by simp [MimirConverter.addExemplarsLoop]⟩
  | cons e rest ih =>
    obtain ⟨h1, h2, h3, h4, h5⟩ := addExemplarToBounds_spec checkContext e S bs c hS
    unfold MimirConverter.addExemplarsLoop
    rcases hr : MimirConverter.addExemplarToBounds checkContext e bs c with ⟨c1, err⟩
    rw [hr] at h1 h2 h3 h4 h5
    simp only at h1 h2 h3 h4 h5
    cases err with
    | some err =>
      refine ⟨[], List.nil_prefix, fun h => by simp at h, h1, h2, h3, h4, ?_⟩
      intro p
      have := h5 p
      simpa using this
    | none =>
      simp only
      have hS1 : ∀ p, (c1.series p).Samples.length = S p := fun p => by rw [h3 p, hS p]
      obtain ⟨processed, g0, g1, g2, g3, g4, g5, g6⟩ := ih c1 hS1
      refine ⟨e :: processed, ?_, ?_, g2.trans h1, g3.trans h2,
        fun p => (g4 p).trans (h3 p), fun p => (g5 p).trans (h4 p), ?_⟩
      · obtain ⟨t, ht⟩ := g0
        exact ⟨t, by rw [← ht]; rfl⟩
      · intro h
        rw [g1 h]
      · intro p
        rw [g6 p, h5 p, List.filter_cons]
        by_cases hp : (bs.find? (fun b => decide (0 < S b.ts ∧ Float64.le e.Value b.bound = true))).map
            (fun b => b.ts) = some p
        · rw [if_pos ⟨rfl, hp⟩, if_pos (decide_eq_true hp), List.append_assoc]
          rfl
        · rw [if_neg (fun h => hp h.2), if_neg (fun h => hp (of_decide_eq_true h)),
            List.append_nil]

/-- C23 (amended): when no bucket bound is NaN, `MimirConverter.addExemplars` adds each
exemplar of the data point to at most one time series, given by `target`: the series of a
bucket bound that is `>=` the exemplar's value, whose series has at least one sample, and that
is smallest among such bounds; an exemplar with no such bound (one of value NaN, for instance)
is added nowhere.  The exemplars added are those processed before the context check failed,
all of them when nil is returned; samples, labels and both maps are left alone.  With an empty
`bucketBounds` list nothing changes and nil is returned.  The sort returns a permutation,
which is sorted by bound when no bound is NaN. -/
theorem addExemplars_spec {β DP : Type} [Preorder β] [DecidableRel (fun a b : β => a ≤ b)]
    (checkContext : Nat → Option GoError)
    (getPromExemplars : Nat → DP → Except GoError (List (Exemplar (Float64 β))) × Nat)
    (sortBounds : List (bucketBoundsData (Float64 β)) → List (bucketBoundsData (Float64 β)))
    (c : MimirConverter (Float64 β)) (dataPoint : DP)
    (bucketBounds : List (bucketBoundsData (Float64 β)))
    (hperm : ∀ l, (sortBounds l).Perm l)
    (hsorted : ∀ l, (∀ b ∈ l, b.bound ≠ .NaN) →
      (sortBounds l).Pairwise (fun a b => Float64.le a.bound b.bound = true))
    (hnan : ∀ b ∈ bucketBounds, b.bound ≠ .NaN) :
    MimirConverter.addExemplars checkContext getPromExemplars sortBounds c dataPoint []
      = (c, none) ∧
    ∃ (target : Exemplar (Float64 β) → Option Nat) (processed : List (Exemplar (Float64 β))),
      (∀ e p, target e = some p →
        ∃ b ∈ bucketBounds, b.ts = p ∧ 0 < (c.series b.ts).Samples.length ∧
          Float64.le e.Value b.bound = true ∧
          ∀ b2 ∈ bucketBounds, 0 < (c.series b2.ts).Samples.length →
            Float64.le e.Value b2.bound = true → Float64.le b.bound b2.bound = true) ∧
      (∀ e, target e = none →
        ∀ b ∈ bucketBounds, ¬ (0 < (c.series b.ts).Samples.length ∧ Float64.le e.Value b.bound = true)) ∧
      (∀ p,
        ((MimirConverter.addExemplars checkContext getPromExemplars sortBounds c dataPoint
            bucketBounds).1.series p).Exemplars =
          (c.series p).Exemplars ++ processed.filter (fun e => decide (target e = some p))) ∧
      (∀ p,
        ((MimirConverter.addExemplars checkContext getPromExemplars sortBounds c dataPoint
            bucketBounds).1.series p).Samples = (c.series p).Samples ∧
        ((MimirConverter.addExemplars checkContext getPromExemplars sortBounds c dataPoint
            bucketBounds).1.series p).Labels = (c.series p).Labels) ∧
      (MimirConverter.addExemplars checkContext getPromExemplars sortBounds c dataPoint
        bucketBounds).1.unique = c.unique ∧
      (MimirConverter.addExemplars checkContext getPromExemplars sortBounds c dataPoint
        bucketBounds).1.conflicts = c.conflicts ∧
      (∀ exemplars n, getPromExemplars c.everyN dataPoint = (.ok exemplars, n) →
        processed <+: exemplars ∧
        ((MimirConverter.addExemplars checkContext getPromExemplars sortBounds c dataPoint
          bucketBounds).2 = none → processed = exemplars)) := by
  refine ⟨rfl, fun e => ((sortBounds bucketBounds).find? (fun b =>
    decide (0 < (c.series b.ts).Samples.length ∧ Float64.le e.Value b.bound = true))).map (fun b => b.ts), ?_⟩
  have hperm := hperm bucketBounds
  have hpair := hsorted bucketBounds hnan
  have htarget : ∀ (e : Exemplar (Float64 β)) (p : Nat),
      ((sortBounds bucketBounds).find? (fun b =>
        decide (0 < (c.series b.ts).Samples.length ∧ Float64.le e.Value b.bound = true))).map (fun b => b.ts)
        = some p →
      ∃ b ∈ bucketBounds, b.ts = p ∧ 0 < (c.series b.ts).Samples.length ∧
        Float64.le e.Value b.bound = true ∧
        ∀ b2 ∈ bucketBounds, 0 < (c.series b2.ts).Samples.length →
          Float64.le e.Value b2.bound = true → Float64.le b.bound b2.bound = true := by
    intro e p h
    rw [Option.map_eq_some'] at h
    obtain ⟨b, hb, hbp⟩ := h
    obtain ⟨h1, h2, h3⟩ := find_fits_minimal _
      (fun b1 hb1 => float64_le_self_of_le e.Value b1.bound (of_decide_eq_true hb1).2) _ hpair b hb
    have h2q := of_decide_eq_true h2
    refine ⟨b, hperm.mem_iff.1 h1, hbp, h2q.1, h2q.2, ?_⟩
    intro b2 hb2 hs2 hv2
    exact h3 b2 (hperm.mem_iff.2 hb2) (decide_eq_true ⟨hs2, hv2⟩)
  have hnone : ∀ (e : Exemplar (Float64 β)),
      ((sortBounds bucketBounds).find? (fun b =>
        decide (0 < (c.series b.ts).Samples.length ∧ Float64.le e.Value b.bound = true))).map (fun b => b.ts)
        = none →
      ∀ b ∈ bucketBounds, ¬ (0 < (c.series b.ts).Samples.length ∧ Float64.le e.Value b.bound = true) := by
    intro e h b hb hq
    rw [Option.map_eq_none', List.find?_eq_none] at h
    exact h b (hperm.mem_iff.2 hb) (decide_eq_true hq)
  by_cases hempty : bucketBounds = []
  · subst hempty
    have hs0 : sortBounds [] = [] := List.Perm.eq_nil hperm
    refine ⟨(match getPromExemplars c.everyN dataPoint with
      | (.ok exemplars, _) => exemplars
      | (.error _, _) => []), htarget, hnone, ?_, fun p => ⟨rfl, rfl⟩, rfl, rfl, ?_⟩
    · intro p
      rw [hs0]
      simp [MimirConverter.addExemplars]
    · intro exemplars n hget
      rw [hget]
      exact ⟨List.prefix_refl _, fun _ => rfl⟩
  · have hlen : ¬ bucketBounds.length = 0 := fun h => hempty (List.length_eq_zero.1 h)
    rcases hget : getPromExemplars c.everyN dataPoint with ⟨res, n⟩
    cases res with
    | error err =>
      have hrun : MimirConverter.addExemplars checkContext getPromExemplars sortBounds c
          dataPoint bucketBounds = ({ c with everyN := n }, some err) := by
        unfold MimirConverter.addExemplars
        rw [if_neg hlen, hget]
      rw [hrun]
      refine ⟨[], htarget, hnone, fun p => by simp, fun p => ⟨rfl, rfl⟩, rfl, rfl, ?_⟩
      intro exemplars m h
      simp at h
    | ok exemplars =>
      by_cases hex : exemplars.length = 0
      · have hrun : MimirConverter.addExemplars checkContext getPromExemplars sortBounds c
            dataPoint bucketBounds = ({ c with everyN := n }, none) := by
          unfold MimirConverter.addExemplars
          rw [if_neg hlen, hget]
          simp only [hex, if_true]
        rw [hrun]
        refine ⟨[], htarget, hnone, fun p => by simp, fun p => ⟨rfl, rfl⟩, rfl, rfl, ?_⟩
        intro exemplars2 m h
        simp only [Prod.mk.injEq, Except.ok.injEq] at h
        rw [← h.1, List.length_eq_zero.1 hex]
        exact ⟨List.prefix_refl _, fun _ => rfl⟩
      · have hrun : MimirConverter.addExemplars checkContext getPromExemplars sortBounds c
            dataPoint bucketBounds =
            MimirConverter.addExemplarsLoop checkContext (sortBounds bucketBounds) exemplars
              { c with everyN := n } := by
          unfold MimirConverter.addExemplars
          rw [if_neg hlen, hget]
          simp only [hex, if_false]
        rw [hrun]
        obtain ⟨processed, g0, g1, g2, g3, g4, g5, g6⟩ :=
          addExemplarsLoop_spec checkContext (fun p => (c.series p).Samples.length)
            (sortBounds bucketBounds) exemplars { c with everyN := n } (fun _ => rfl)
        refine ⟨processed, htarget, hnone, g6, fun p => ⟨g4 p, g5 p⟩, g2, g3, ?_⟩
        intro exemplars2 m h
        simp only [Prod.mk.injEq, Except.ok.injEq] at h
        rw [← h.1]
        exact ⟨g0, g1⟩

theorem addExemplars_spec_witness :
    ((∀ b ∈ exampleBucketBounds, b.bound ≠ .NaN) ∧
      ((MimirConverter.addExemplars exampleCheckContext exampleGetPromExemplars
          sortBucketBounds exampleHistogramConverter () exampleBucketBounds).1.series 2).Exemplars
        = [⟨[], .num 0, 1000⟩] ∧
      ((MimirConverter.addExemplars exampleCheckContext exampleGetPromExemplars
          sortBucketBounds exampleHistogramConverter () exampleBucketBounds).1.series 3).Exemplars
        = [] ∧
      ((MimirConverter.addExemplars exampleCheckContext exampleGetPromExemplars
          sortBucketBounds exampleHistogramConverter () exampleBucketBounds).1.series 0).Exemplars
        = [⟨[], .num 2, 1000⟩]) ∧
    MimirConverter.addExemplars exampleCheckContext exampleGetPromExemplars sortBucketBounds
      exampleHistogramConverter () [] = (exampleHistogramConverter, none) ∧
    ∃ (target : Exemplar (Float64 Int) → Option Nat) (processed : List (Exemplar (Float64 Int))),
      (∀ e p, target e = some p →
        ∃ b ∈ exampleBucketBounds, b.ts = p ∧
          0 < (exampleHistogramConverter.series b.ts).Samples.length ∧
          Float64.le e.Value b.bound = true ∧
          ∀ b2 ∈ exampleBucketBounds,
            0 < (exampleHistogramConverter.series b2.ts).Samples.length →
            Float64.le e.Value b2.bound = true → Float64.le b.bound b2.bound = true) ∧
      (∀ e, target e = none →
        ∀ b ∈ exampleBucketBounds,
          ¬ (0 < (exampleHistogramConverter.series b.ts).Samples.length ∧
            Float64.le e.Value b.bound = true)) ∧
      (∀ p,
        ((MimirConverter.addExemplars exampleCheckContext exampleGetPromExemplars
            sortBucketBounds exampleHistogramConverter () exampleBucketBounds).1.series
              p).Exemplars =
          (exampleHistogramConverter.series p).Exemplars ++
            processed.filter (fun e => decide (target e = some p))) ∧
      (∀ p,
        ((MimirConverter.addExemplars exampleCheckContext exampleGetPromExemplars
            sortBucketBounds exampleHistogramConverter () exampleBucketBounds).1.series
              p).Samples =
          (exampleHistogramConverter.series p).Samples ∧
        ((MimirConverter.addExemplars exampleCheckContext exampleGetPromExemplars
            sortBucketBounds exampleHistogramConverter () exampleBucketBounds).1.series
              p).Labels =
          (exampleHistogramConverter.series p).Labels) ∧
      (MimirConverter.addExemplars exampleCheckContext exampleGetPromExemplars
        sortBucketBounds exampleHistogramConverter () exampleBucketBounds).1.unique =
          exampleHistogramConverter.unique ∧
      (MimirConverter.addExemplars exampleCheckContext exampleGetPromExemplars
        sortBucketBounds exampleHistogramConverter () exampleBucketBounds).1.conflicts =
          exampleHistogramConverter.conflicts ∧
      (∀ exemplars n,
        exampleGetPromExemplars exampleHistogramConverter.everyN () = (.ok exemplars, n) →
        processed <+: exemplars ∧
        ((MimirConverter.addExemplars exampleCheckContext exampleGetPromExemplars
          sortBucketBounds exampleHistogramConverter () exampleBucketBounds).2 = none →
            processed = exemplars)) :=
  ⟨by decide,
    addExemplars_spec exampleCheckContext exampleGetPromExemplars sortBucketBounds
      exampleHistogramConverter () exampleBucketBounds
      (fun l => (sortBucketBounds_sorted l).1) (fun l => (sortBucketBounds_sorted l).2)
      (by decide)⟩

/-- C23 (counterexample): with the bucket bounds 5, NaN and 1, in this order, every one with a
series that has a sample, `sort.Sort` leaves the order as it is (neither `NaN < 5` nor
`1 < NaN` holds), and the exemplar of value 0 is added to the series of bound 5 and not to the
series of bound 1, although 1 is `>=` the value and smaller than 5. -/
theorem addExemplars_nan_bound :
    sortBucketBounds exampleBucketBoundsNaN = exampleBucketBoundsNaN ∧
    ((MimirConverter.addExemplars exampleCheckContext
        (fun n (_ : Unit) => (Except.ok [(⟨[], .num 0, 1000⟩ : Exemplar (Float64 Int))], n + 1))
        sortBucketBounds exampleHistogramConverter () exampleBucketBoundsNaN).1.series
          0).Exemplars = [⟨[], .num 0, 1000⟩] ∧
    ((MimirConverter.addExemplars exampleCheckContext
        (fun n (_ : Unit) => (Except.ok [(⟨[], .num 0, 1000⟩ : Exemplar (Float64 Int))], n + 1))
        sortBucketBounds exampleHistogramConverter () exampleBucketBoundsNaN).1.series
          2).Exemplars = [] ∧
    (⟨0, .num 5⟩ : bucketBoundsData (Float64 Int)) ∈ exampleBucketBoundsNaN ∧
    (⟨2, .num 1⟩ : bucketBoundsData (Float64 Int)) ∈ exampleBucketBoundsNaN ∧
    0 < (exampleHistogramConverter.series 2).Samples.length ∧
    Float64.le (.num 0 : Float64 Int) (.num 1) = true ∧
    Float64.lt (.num 1 : Float64 Int) (.num 5) = true := by
  decide

theorem convertDataPoints_of_empty {α DP : Type} (st : ConversionState α) (metric : Metric DP)
    (add : MimirConverter α → List DP → MimirConverter α × Option GoError)
    (h : metric.DataPoints = []) :
    convertDataPoints st metric add =
      ({ st with errs := st.errs ++
          [plainError ("empty data points. " ++ metric.Name ++ " is dropped")] }, false) := by
  unfold convertDataPoints
  rw [h]
  rfl

theorem convertMetric_of_dropped {α Res DP : Type} (h : ConverterHelpers α Res DP)
    (settings : Settings) (resource : Res) (st : ConversionState α) (metric : Metric DP)
    (hctx : h.checkContext st.c.everyN = none)
    (hdrop : isDroppedMetric h metric = true) :
    convertMetric h settings resource st metric =
      ({ c := st.c.tick
         errs := st.errs ++ [droppedMetricError h metric]
         mostRecentTimestamp :=
           max st.mostRecentTimestamp (h.mostRecentTimestampInMetric metric) }, false) := by
  by_cases hv : h.isValidAggregationTemporality metric = false
  · unfold convertMetric droppedMetricError
    rw [hctx]
    simp only [hv, Bool.not_false, if_true]
  · have hv1 : h.isValidAggregationTemporality metric = true := by simpa using hv
    have hempty : metric.Type_ ≠ .Empty ∧ metric.DataPoints = [] := by
      simpa [isDroppedMetric, hv1, List.isEmpty_iff] using hdrop
    unfold convertMetric droppedMetricError
    rw [hctx]
    simp only [hv1, Bool.not_true, Bool.false_eq_true, if_false]
    cases hT : metric.Type_ with
    | Empty => exact absurd hT hempty.1
    | Gauge => exact convertDataPoints_of_empty _ _ _ hempty.2
    | Sum => exact convertDataPoints_of_empty _ _ _ hempty.2
    | Histogram => exact convertDataPoints_of_empty _ _ _ hempty.2
    | ExponentialHistogram => exact convertDataPoints_of_empty _ _ _ hempty.2
    | Summary => exact convertDataPoints_of_empty _ _ _ hempty.2

theorem convertDataPoints_of_nonempty {α DP : Type} (st : ConversionState α)
    (metric : Metric DP) (add : MimirConverter α → List DP → MimirConverter α × Option GoError)
    (hne : metric.DataPoints ≠ [])
    (hadd : ∀ e, (add st.c metric.DataPoints).2 = some e →
      (isCanceled e || isDeadlineExceeded e) = false) :
    convertDataPoints st metric add =
      ({ st with c := (add st.c metric.DataPoints).1,
                 errs := st.errs ++ (add st.c metric.DataPoints).2.toList }, false) := by
  unfold convertDataPoints
  have hlen : ¬ metric.DataPoints.length = 0 := fun hl => hne (List.length_eq_zero.1 hl)
  rw [if_neg hlen]
  rcases hr : add st.c metric.DataPoints with ⟨c1, e⟩
  cases e with
  | none => simp
  | some err =>
    have := hadd err (by rw [hr])
    simp [this]

theorem convertMetric_eq_spec {α Res DP : Type} (h : ConverterHelpers α Res DP)
    (settings : Settings) (resource : Res) (st : ConversionState α) (metric : Metric DP)
    (hctx : h.checkContext st.c.everyN = none)
    (hadd : ∀ e, (addDataPointsOf h settings resource metric st.c.tick).2 = some e →
      (isCanceled e || isDeadlineExceeded e) = false) :
    convertMetric h settings resource st metric =
      (convertMetricSpec h settings resource st metric, false) := by
  by_cases hdrop : isDroppedMetric h metric = true
  · rw [convertMetric_of_dropped h settings resource st metric hctx hdrop]
    unfold convertMetricSpec
    rw [if_pos hdrop]
  · have hv1 : h.isValidAggregationTemporality metric = true := by
      by_contra hv
      exact hdrop (by simp [isDroppedMetric, hv])
    have hne : metric.Type_ = .Empty ∨ metric.DataPoints ≠ [] := by
      by_contra hc
      push_neg at hc
      exact hdrop (by simp [isDroppedMetric, hv1, hc.1, hc.2])
    unfold convertMetricSpec
    rw [if_neg hdrop]
    unfold convertMetric
    rw [hctx]
    simp only [hv1, Bool.not_true, Bool.false_eq_true, if_false]
    unfold addDataPointsOf at hadd ⊢
    cases hT : metric.Type_ with
    | Empty => rfl
    | Gauge =>
      rw [hT] at hne hadd
      exact convertDataPoints_of_nonempty _ metric _ (hne.resolve_left (by simp)) hadd
    | Sum =>
      rw [hT] at hne hadd
      exact convertDataPoints_of_nonempty _ metric _ (hne.resolve_left (by simp)) hadd
    | Histogram =>
      rw [hT] at hne hadd
      exact convertDataPoints_of_nonempty _ metric _ (hne.resolve_left (by simp)) hadd
    | ExponentialHistogram =>
      rw [hT] at hne hadd
      exact convertDataPoints_of_nonempty _ metric _ (hne.resolve_left (by simp)) hadd
    | Summary =>
      rw [hT] at hne hadd
      exact convertDataPoints_of_nonempty _ metric _ (hne.resolve_left (by simp)) hadd

theorem convertMetricSlice_eq_foldl {α Res DP : Type} (h : ConverterHelpers α Res DP)
    (settings : Settings) (resource : Res)
    (hctx : ∀ n, h.checkContext n = none)
    (hadd : ∀ (metric : Metric DP) (c : MimirConverter α) (e : GoError),
      (addDataPointsOf h settings resource metric c).2 = some e →
        (isCanceled e || isDeadlineExceeded e) = false)
    (metrics : List (Metric DP)) (st : ConversionState α) :
    convertMetricSlice h settings resource metrics st =
      (metrics.foldl (convertMetricSpec h settings resource) st, false) := by
  induction metrics generalizing st with
  | nil => rfl
  | cons metric rest ih =>
    unfold convertMetricSlice
    rw [convertMetric_eq_spec h settings resource st metric (hctx _)
      (hadd metric _)]
    exact ih _

theorem convertScopeMetricsSlice_eq_foldl {α Res DP : Type} (h : ConverterHelpers α Res DP)
    (settings : Settings) (resource : Res)
    (hctx : ∀ n, h.checkContext n = none)
    (hadd : ∀ (metric : Metric DP) (c : MimirConverter α) (e : GoError),
      (addDataPointsOf h settings resource metric c).2 = some e →
        (isCanceled e || isDeadlineExceeded e) = false)
    (scopes : List (List (Metric DP))) (st : ConversionState α) :
    convertScopeMetricsSlice h settings resource scopes st =
      (scopes.flatten.foldl (convertMetricSpec h settings resource) st, false) := by
  induction scopes generalizing st with
  | nil => rfl
  | cons metrics rest ih =>
    unfold convertScopeMetricsSlice
    rw [convertMetricSlice_eq_foldl h settings resource hctx hadd metrics st]
    simp only
    rw [ih, List.flatten_cons, List.foldl_append]

theorem convertResourceMetricsSlice_eq_foldl {α Res DP : Type} (h : ConverterHelpers α Res DP)
    (settings : Settings)
    (hctx : ∀ n, h.checkContext n = none)
    (hadd : ∀ (resource : Res) (metric : Metric DP) (c : MimirConverter α) (e : GoError),
      (addDataPointsOf h settings resource metric c).2 = some e →
        (isCanceled e || isDeadlineExceeded e) = false)
    (md : List (ResourceMetrics Res DP)) (c : MimirConverter α) (errs : List GoError) :
    convertResourceMetricsSlice h settings md c errs =
      md.foldl (fun acc resourceMetrics =>
        let st := resourceMetrics.ScopeMetrics.flatten.foldl
          (convertMetricSpec h settings resourceMetrics.Resource) ⟨acc.1, acc.2, 0⟩
        (h.addResourceTargetInfo resourceMetrics.Resource settings st.mostRecentTimestamp st.c,
          st.errs)) (c, errs) := by
  induction md generalizing c errs with
  | nil => rfl
  | cons resourceMetrics rest ih =>
    unfold convertResourceMetricsSlice
    rw [convertScopeMetricsSlice_eq_foldl h settings resourceMetrics.Resource hctx
      (hadd resourceMetrics.Resource)]
    simp only
    rw [ih, List.foldl_cons]

theorem convertMetricSpec_errs {α Res DP : Type} (h : ConverterHelpers α Res DP)
    (settings : Settings) (resource : Res)
    (hnoerr : ∀ (metric : Metric DP) (c : MimirConverter α), metric.Type_ ≠ .Empty →
      (addDataPointsOf h settings resource metric c).2 = none)
    (metrics : List (Metric DP)) (st : ConversionState α) :
    (metrics.foldl (convertMetricSpec h settings resource) st).errs =
      st.errs ++ metrics.flatMap (fun metric =>
        if isDroppedMetric h metric then [droppedMetricError h metric]
        else if metric.Type_ = .Empty then [plainError "unsupported metric type"] else []) := by
  induction metrics generalizing st with
  | nil => simp
  | cons metric rest ih =>
    rw [List.foldl_cons, ih, List.flatMap_cons, ← List.append_assoc]
    congr 1
    unfold convertMetricSpec
    by_cases hdrop : isDroppedMetric h metric = true
    · simp only [hdrop, if_true]
    · simp only [hdrop, Bool.false_eq_true, if_false]
      by_cases hT : metric.Type_ = .Empty
      · simp only [hT, if_true]
        unfold addDataPointsOf
        rw [hT]
        rfl
      · simp only [hT, if_false]
        rw [hnoerr metric _ hT]
        rfl

theorem FromMetricsSpec_errs {α Res DP : Type} (h : ConverterHelpers α Res DP)
    (settings : Settings)
    (hnoerr : ∀ (resource : Res) (metric : Metric DP) (c : MimirConverter α),
      metric.Type_ ≠ .Empty → (addDataPointsOf h settings resource metric c).2 = none)
    (md : List (ResourceMetrics Res DP)) (acc : MimirConverter α × List GoError) :
    (md.foldl (fun acc resourceMetrics =>
        let st := resourceMetrics.ScopeMetrics.flatten.foldl
          (convertMetricSpec h settings resourceMetrics.Resource) ⟨acc.1, acc.2, 0⟩
        (h.addResourceTargetInfo resourceMetrics.Resource settings st.mostRecentTimestamp st.c,
          st.errs)) acc).2 =
      acc.2 ++ md.flatMap (fun resourceMetrics =>
        resourceMetrics.ScopeMetrics.flatten.flatMap (fun metric =>
          if isDroppedMetric h metric then [droppedMetricError h metric]
          else if metric.Type_ = .Empty then [plainError "unsupported metric type"]
          else [])) := by
  induction md generalizing acc with
  | nil => simp
  | cons resourceMetrics rest ih =>
    rw [List.foldl_cons, ih, List.flatMap_cons, ← List.append_assoc]
    congr 1
    exact convertMetricSpec_errs h settings resourceMetrics.Resource
      (hnoerr resourceMetrics.Resource) _ _

/-- C24: in `MimirConverter.FromMetrics`, a metric of a supported type with zero data points,
or with an invalid temporality, contributes exactly one error and no time series and does not
stop the conversion.  First, on such a metric the loop body, once its context check has
passed, appends that one error, changes no time series and neither map, and does not return.
Second, while the context is not done and no `add...DataPoints` method fails with a canceled or
expired context, `FromMetrics` is `FromMetricsSpec`: every metric of every scope of every
resource of the request contributes in turn, the ones after a dropped metric included.  Third,
in `FromMetricsSpec` a dropped metric contributes its error, the count of its context check
and its timestamps, and nothing else; the most recent timestamp of the resource, which
`addResourceTargetInfo` is handed, stays as it is unless the metric has a later one.  Fourth, when no `add...DataPoints` method fails at all,
the errors `FromMetrics` returns are exactly one for every dropped metric and one for every
metric of no supported type, in the order of the request.  Last, `isDroppedMetric` holds of
the metrics with an invalid temporality and of those of a supported type with zero data
points, and of no other. -/
theorem FromMetrics_dropped_metric {α Res DP : Type} (h : ConverterHelpers α Res DP)
    (settings : Settings) :
    (∀ (resource : Res) (st : ConversionState α) (metric : Metric DP),
      h.checkContext st.c.everyN = none →
      (h.isValidAggregationTemporality metric = false ∨
        (metric.Type_ ≠ .Empty ∧ metric.DataPoints = [])) →
      ∃ st1 : ConversionState α,
        convertMetric h settings resource st metric = (st1, false) ∧
        st1.errs = st.errs ++ [droppedMetricError h metric] ∧
        st1.c.series = st.c.series ∧ st1.c.unique = st.c.unique ∧
        st1.c.conflicts = st.c.conflicts ∧
        ∀ rest, convertMetricSlice h settings resource (metric :: rest) st =
          convertMetricSlice h settings resource rest st1) ∧
    ((∀ n, h.checkContext n = none) →
      (∀ (resource : Res) (metric : Metric DP) (c : MimirConverter α) (e : GoError),
        (addDataPointsOf h settings resource metric c).2 = some e →
          (isCanceled e || isDeadlineExceeded e) = false) →
      ∀ (c : MimirConverter α) (md : List (ResourceMetrics Res DP)),
        MimirConverter.FromMetrics h c md settings = FromMetricsSpec h settings c md) ∧
    (∀ (resource : Res) (st : ConversionState α) (metric : Metric DP),
      (h.isValidAggregationTemporality metric = false ∨
        (metric.Type_ ≠ .Empty ∧ metric.DataPoints = [])) →
      convertMetricSpec h settings resource st metric =
        { c := { st.c with everyN := st.c.everyN + 1 }
          errs := st.errs ++ [droppedMetricError h metric]
          mostRecentTimestamp :=
            max st.mostRecentTimestamp (h.mostRecentTimestampInMetric metric) } ∧
      (h.mostRecentTimestampInMetric metric ≤ st.mostRecentTimestamp →
        (convertMetricSpec h settings resource st metric).mostRecentTimestamp =
          st.mostRecentTimestamp)) ∧
    ((∀ n, h.checkContext n = none) →
      (∀ (resource : Res) (metric : Metric DP) (c : MimirConverter α),
        metric.Type_ ≠ .Empty → (addDataPointsOf h settings resource metric c).2 = none) →
      ∀ (c : MimirConverter α) (md : List (ResourceMetrics Res DP)),
        (MimirConverter.FromMetrics h c md settings).2 =
          md.flatMap (fun resourceMetrics =>
            resourceMetrics.ScopeMetrics.flatten.flatMap (fun metric =>
              if isDroppedMetric h metric then [droppedMetricError h metric]
              else if metric.Type_ = .Empty then [plainError "unsupported metric type"]
              else []))) ∧
    (∀ metric : Metric DP,
      isDroppedMetric h metric = true ↔
        (h.isValidAggregationTemporality metric = false ∨
          (metric.Type_ ≠ .Empty ∧ metric.DataPoints = []))) := by
  have hdropped : ∀ metric : Metric DP,
      isDroppedMetric h metric = true ↔
        (h.isValidAggregationTemporality metric = false ∨
          (metric.Type_ ≠ .Empty ∧ metric.DataPoints = [])) := by
    intro metric
    simp [isDroppedMetric, List.isEmpty_iff]
  have hrefine : (∀ n, h.checkContext n = none) →
      (∀ (resource : Res) (metric : Metric DP) (c : MimirConverter α) (e : GoError),
        (addDataPointsOf h settings resource metric c).2 = some e →
          (isCanceled e || isDeadlineExceeded e) = false) →
      ∀ (c : MimirConverter α) (md : List (ResourceMetrics Res DP)),
        MimirConverter.FromMetrics h c md settings = FromMetricsSpec h settings c md := by
    intro hctx hadd c md
    unfold MimirConverter.FromMetrics FromMetricsSpec
    exact convertResourceMetricsSlice_eq_foldl h settings hctx hadd md _ _
  refine ⟨?_, hrefine, ?_, ?_, hdropped⟩
  · intro resource st metric hctx hdrop
    have hrun := convertMetric_of_dropped h settings resource st metric hctx
      ((hdropped metric).2 hdrop)
    refine ⟨_, hrun, rfl, rfl, rfl, rfl, ?_⟩
    intro rest
    conv_lhs => unfold convertMetricSlice
    rw [hrun]
  · intro resource st metric hdrop
    have hspec : convertMetricSpec h settings resource st metric =
        { c := { st.c with everyN := st.c.everyN + 1 }
          errs := st.errs ++ [droppedMetricError h metric]
          mostRecentTimestamp :=
            max st.mostRecentTimestamp (h.mostRecentTimestampInMetric metric) } := by
      unfold convertMetricSpec
      rw [if_pos ((hdropped metric).2 hdrop)]
      rfl
    refine ⟨hspec, ?_⟩
    intro hle
    rw [hspec]
    exact max_eq_left hle
  · intro hctx hnoerr c md
    have hadd : ∀ (resource : Res) (metric : Metric DP) (c : MimirConverter α) (e : GoError),
        (addDataPointsOf h settings resource metric c).2 = some e →
          (isCanceled e || isDeadlineExceeded e) = false := by
      intro resource metric c e he
      by_cases hT : metric.Type_ = .Empty
      · unfold addDataPointsOf at he
        rw [hT] at he
        simp only [Option.some.injEq] at he
        rw [← he]
        rfl
      · rw [hnoerr resource metric c hT] at he
        exact absurd he (by simp)
    rw [hrefine hctx hadd c md]
    unfold FromMetricsSpec
    rw [FromMetricsSpec_errs h settings hnoerr md _]
    exact List.nil_append _

theorem exampleHelpers_no_error (resource : Unit) (metric : Metric (List LabelAdapter))
    (c : MimirConverter Int) (hT : metric.Type_ ≠ .Empty) :
    (addDataPointsOf exampleHelpers exampleSettings resource metric c).2 = none := by
  unfold addDataPointsOf
  cases h : metric.Type_ with
  | Empty => exact absurd h hT
  | Gauge => rfl
  | Sum => rfl
  | Histogram => rfl
  | ExponentialHistogram => rfl
  | Summary => rfl

theorem FromMetrics_dropped_metric_witness :
    ((MimirConverter.FromMetrics exampleHelpers NewMimirConverter exampleMetricsDroppedFirst
        exampleSettings).1.unique.length = 4 ∧
      (MimirConverter.FromMetrics exampleHelpers NewMimirConverter exampleMetricsDroppedFirst
        exampleSettings).2.map GoError.Error =
          ["empty data points. foo is dropped",
            "invalid temporality and type combination for metric \"sum\""] ∧
      (MimirConverter.FromMetrics exampleHelpers NewMimirConverter exampleMetrics
        exampleSettings).1.unique.length = 3 ∧
      (MimirConverter.FromMetrics exampleHelpers NewMimirConverter exampleMetrics
        exampleSettings).2.map GoError.Error = ["empty data points. foo is dropped"]) ∧
    (MimirConverter.FromMetrics exampleHelpers NewMimirConverter exampleMetricsDroppedFirst
      exampleSettings).2 =
        exampleMetricsDroppedFirst.flatMap (fun resourceMetrics =>
          resourceMetrics.ScopeMetrics.flatten.flatMap (fun metric =>
            if isDroppedMetric exampleHelpers metric then
              [droppedMetricError exampleHelpers metric]
            else if metric.Type_ = .Empty then [plainError "unsupported metric type"]
            else [])) :=
  ⟨by decide,
    (FromMetrics_dropped_metric exampleHelpers exampleSettings).2.2.2.1 (fun _ => rfl)
      exampleHelpers_no_error NewMimirConverter exampleMetricsDroppedFirst⟩

/-! ### Pruning the time series of a request -/

theorem pruneLoop_spec {α RC : Type} (h : PruneHelpers α RC) (tenantID : String)
    (relabelConfigs : List RC) (dropLabels : List String) (l : List (TimeSeries α)) (k : Nat) :
    (pruneLoop h tenantID relabelConfigs dropLabels k l).1 =
      l.map (fun ts => (pruneSeries h tenantID relabelConfigs dropLabels ts).1) ∧
    (pruneLoop h tenantID relabelConfigs dropLabels k l).2 =
      ((l.enumFrom k).filter
        (fun e => (pruneSeries h tenantID relabelConfigs dropLabels e.2).2)).map Prod.fst := by
  induction l generalizing k with
  | nil => exact ⟨rfl, rfl⟩
  | cons ts rest ih =>
    obtain ⟨h1, h2⟩ := ih (k + 1)
    unfold pruneLoop
    simp only [h1, h2, List.map_cons, List.enumFrom_cons, List.filter_cons]
    refine ⟨trivial, ?_⟩
    cases (pruneSeries h tenantID relabelConfigs dropLabels ts).2 <;> simp

theorem removed_indexes_sorted {A : Type} (remove : A → Bool) (l : List A) (k : Nat) :
    (((l.enumFrom k).filter (fun e => remove e.2)).map Prod.fst).Pairwise (fun a b => a < b) ∧
    ∀ i ∈ ((l.enumFrom k).filter (fun e => remove e.2)).map Prod.fst, i < k + l.length := by
  constructor
  · have hsub : List.Sublist (((l.enumFrom k).filter (fun e => remove e.2)).map Prod.fst)
        ((l.enumFrom k).map Prod.fst) := (List.filter_sublist _).map _
    rw [List.enumFrom_map_fst] at hsub
    exact List.Pairwise.sublist hsub (List.pairwise_lt_range' k l.length)
  · intro i hi
    rw [List.mem_map] at hi
    obtain ⟨e, he, rfl⟩ := hi
    have hm := List.mem_of_mem_filter he
    have : e.1 ∈ (l.enumFrom k).map Prod.fst := List.mem_map_of_mem _ hm
    rw [List.enumFrom_map_fst, List.mem_range'_1] at this
    exact this.2

theorem remove_reused_eq_filterMap {A : Type} (remove : A → Bool) (g reuse : A → A)
    (J : List Nat) (l : List A) (k : Nat)
    (hJ : ∀ e ∈ l.enumFrom k, (e.1 ∈ J ↔ remove e.2 = true)) :
    (((((l.map g).enumFrom k).map (fun e => if e.1 ∈ J then reuse e.2 else e.2)).enumFrom k).filter
        (fun e => decide (e.1 ∉ J))).map Prod.snd =
      l.filterMap (fun x => if remove x then none else some (g x)) := by
  induction l generalizing k with
  | nil => rfl
  | cons x xs ih =>
    have hx := hJ (k, x) (by simp [List.enumFrom_cons])
    have ih1 := ih (k + 1) (fun e he => hJ e (by
      rw [List.enumFrom_cons]
      exact List.mem_cons_of_mem _ he))
    simp only [List.map_cons, List.enumFrom_cons, List.filter_cons, List.filterMap_cons]
    by_cases hr : remove x = true
    · have hk : k ∈ J := hx.2 hr
      simp only [hk, not_true_eq_false, decide_False, hr, if_true]
      simpa using ih1
    · have hk : k ∉ J := fun hk => hr (hx.1 hk)
      simp only [hk, not_false_eq_true, decide_True, hr, if_false, if_true, List.map_cons]
      simpa using ih1

theorem enumFrom_index_unique {A : Type} (l : List A) (k : Nat) (e1 e2 : Nat × A)
    (h1 : e1 ∈ l.enumFrom k) (h2 : e2 ∈ l.enumFrom k) (h : e1.1 = e2.1) : e1 = e2 := by
  obtain ⟨i1, x1⟩ := e1
  obtain ⟨i2, x2⟩ := e2
  simp only at h
  subst h
  have g1 := (List.mk_mem_enumFrom_iff_le_and_getElem?_sub.1 h1).2
  have g2 := (List.mk_mem_enumFrom_iff_le_and_getElem?_sub.1 h2).2
  rw [g1] at g2
  simp only [Option.some.injEq] at g2
  rw [g2]

theorem map_eq_filterMap_of_none_removed {A : Type} (remove : A → Bool) (g : A → A)
    (l : List A) (h : ∀ x ∈ l, remove x = false) :
    l.map g = l.filterMap (fun x => if remove x then none else some (g x)) := by
  induction l with
  | nil => rfl
  | cons x xs ih =>
    have hx := h x (List.mem_cons_self _ _)
    rw [List.map_cons, List.filterMap_cons, ih (fun y hy => h y (List.mem_cons_of_mem _ hy))]
    simp [hx]

theorem pruneSeries_keep {α RC : Type} (h : PruneHelpers α RC) (tenantID : String)
    (relabelConfigs : List RC) (dropLabels : List String) (ts : TimeSeries α) :
    (if (pruneSeries h tenantID relabelConfigs dropLabels ts).2 then none
      else some (pruneSeries h tenantID relabelConfigs dropLabels ts).1) =
    (match (if relabelConfigs.length > 0 then h.relabel tenantID relabelConfigs ts.Labels
        else some ts.Labels) with
      | none => none
      | some relabelled =>
        if (h.RemoveEmptyLabelValues (dropLabels.foldl h.RemoveLabel relabelled)).length = 0
        then none
        else
          some { ts with
            Labels := h.SortLabelsIfNeeded
              (h.RemoveEmptyLabelValues (dropLabels.foldl h.RemoveLabel relabelled)) }) := by
  unfold pruneSeries
  cases (if relabelConfigs.length > 0 then h.relabel tenantID relabelConfigs ts.Labels
      else some ts.Labels) with
  | none => rfl
  | some relabelled =>
    simp only
    by_cases hz :
        (h.RemoveEmptyLabelValues (dropLabels.foldl h.RemoveLabel relabelled)).length = 0
    · simp only [hz, if_true]
    · simp only [hz, if_false, Bool.false_eq_true]

theorem PruneTimeseries_eq_filterMap {α RC : Type} (h : PruneHelpers α RC)
    (Timeseries : List (TimeSeries α)) (tenantID : String) (relabelConfigs : List RC)
    (dropLabels : List String)
    (hRemove : ∀ (data : List (TimeSeries α)) (idxs : List Nat),
      idxs.Pairwise (fun a b => a < b) → (∀ i ∈ idxs, i < data.length) →
      h.RemoveSliceIndexes data idxs =
        ((data.enumFrom 0).filter (fun e => decide (e.1 ∉ idxs))).map Prod.snd) :
    PruneTimeseries h Timeseries tenantID relabelConfigs dropLabels =
      Timeseries.filterMap (fun ts =>
        if (pruneSeries h tenantID relabelConfigs dropLabels ts).2 then none
        else some (pruneSeries h tenantID relabelConfigs dropLabels ts).1) := by
  obtain ⟨h1, h2⟩ := pruneLoop_spec h tenantID relabelConfigs dropLabels Timeseries 0
  obtain ⟨hsorted, hrange⟩ := removed_indexes_sorted
    (fun ts => (pruneSeries h tenantID relabelConfigs dropLabels ts).2) Timeseries 0
  unfold PruneTimeseries
  simp only [h1, h2]
  split_ifs with hlen
  · rw [hRemove _ _ hsorted (by
      intro i hi
      have := hrange i hi
      simpa using this)]
    apply remove_reused_eq_filterMap
      (fun ts => (pruneSeries h tenantID relabelConfigs dropLabels ts).2)
    intro e he
    constructor
    · intro hi
      rw [List.mem_map] at hi
      obtain ⟨e2, he2, h12⟩ := hi
      have hmem := List.mem_filter.1 he2
      have := enumFrom_index_unique Timeseries 0 e2 e hmem.1 he h12
      rw [← this]
      exact hmem.2
    · intro hr
      exact List.mem_map_of_mem _ (List.mem_filter.2 ⟨he, hr⟩)
  · apply map_eq_filterMap_of_none_removed
      (fun ts => (pruneSeries h tenantID relabelConfigs dropLabels ts).2)
    intro x hx
    by_contra hr
    have hr1 : (pruneSeries h tenantID relabelConfigs dropLabels x).2 = true := by
      simpa using hr
    obtain ⟨i, hi⟩ : ∃ i, (i, x) ∈ Timeseries.enumFrom 0 := by
      obtain ⟨i, hlt, hget⟩ := List.getElem_of_mem hx
      refine ⟨i, List.mk_mem_enumFrom_iff_le_and_getElem?_sub.2 ⟨Nat.zero_le _, ?_⟩⟩
      rw [Nat.sub_zero, List.getElem?_eq_getElem hlt, hget]
    apply hlen
    have hmem : i ∈ ((Timeseries.enumFrom 0).filter (fun e =>
        (pruneSeries h tenantID relabelConfigs dropLabels e.2).2)).map Prod.fst :=
      List.mem_map_of_mem Prod.fst (List.mem_filter.2 ⟨hi, hr1⟩)
    exact List.length_pos_of_mem hmem

/-- C26: after `mimirRequest.PruneTimeseries` the remaining time series are exactly, in their
original relative order, those that the relabel configs kept (when any are given) and that
still have at least one label after the drop-labels and the empty-label-value removal, each
with the labels so obtained, sorted; every remaining series has at least one label, no empty
label value and its labels sorted by name.  `RemoveSliceIndexes` removes the listed indexes,
`RemoveEmptyLabelValues` leaves no empty value and `SortLabelsIfNeeded` sorts by name. -/
theorem PruneTimeseries_spec {α RC : Type} (h : PruneHelpers α RC)
    (Timeseries : List (TimeSeries α)) (tenantID : String) (relabelConfigs : List RC)
    (dropLabels : List String)
    (hRemove : ∀ (data : List (TimeSeries α)) (idxs : List Nat),
      idxs.Pairwise (fun a b => a < b) → (∀ i ∈ idxs, i < data.length) →
      h.RemoveSliceIndexes data idxs =
        ((data.enumFrom 0).filter (fun e => decide (e.1 ∉ idxs))).map Prod.snd)
    (hEmpty : ∀ lbls, ∀ l ∈ h.RemoveEmptyLabelValues lbls, l.Value ≠ "")
    (hSort : ∀ lbls, (h.SortLabelsIfNeeded lbls).Perm lbls ∧
      (h.SortLabelsIfNeeded lbls).Pairwise (fun a b => a.Name ≤ b.Name)) :
    PruneTimeseries h Timeseries tenantID relabelConfigs dropLabels =
      Timeseries.filterMap (fun ts =>
        match (if relabelConfigs.length > 0 then h.relabel tenantID relabelConfigs ts.Labels
            else some ts.Labels) with
        | none => none
        | some relabelled =>
          if (h.RemoveEmptyLabelValues (dropLabels.foldl h.RemoveLabel relabelled)).length = 0
          then none
          else
            some { ts with
              Labels := h.SortLabelsIfNeeded
                (h.RemoveEmptyLabelValues (dropLabels.foldl h.RemoveLabel relabelled)) }) ∧
    ∀ ts ∈ PruneTimeseries h Timeseries tenantID relabelConfigs dropLabels,
      ts.Labels ≠ [] ∧ (∀ l ∈ ts.Labels, l.Value ≠ "") ∧
        ts.Labels.Pairwise (fun a b => a.Name ≤ b.Name) := by
  have heq := PruneTimeseries_eq_filterMap h Timeseries tenantID relabelConfigs dropLabels
    hRemove
  simp only [pruneSeries_keep] at heq
  refine ⟨heq, ?_⟩
  intro ts hts
  rw [heq, List.mem_filterMap] at hts
  obtain ⟨x, _, hx⟩ := hts
  cases hrel : (if relabelConfigs.length > 0 then h.relabel tenantID relabelConfigs x.Labels
      else some x.Labels) with
  | none =>
    rw [hrel] at hx
    simp at hx
  | some relabelled =>
    rw [hrel] at hx
    simp only at hx
    by_cases hz :
        (h.RemoveEmptyLabelValues (dropLabels.foldl h.RemoveLabel relabelled)).length = 0
    · rw [if_pos hz] at hx
      simp at hx
    · rw [if_neg hz] at hx
      simp only [Option.some.injEq] at hx
      subst hx
      obtain ⟨hperm, hpair⟩ := hSort
        (h.RemoveEmptyLabelValues (dropLabels.foldl h.RemoveLabel relabelled))
      refine ⟨?_, ?_, hpair⟩
      · intro hnil
        simp only at hnil
        rw [hnil] at hperm
        exact hz (by rw [← List.Perm.nil_eq hperm]; rfl)
      · intro l hl
        exact hEmpty _ l (hperm.mem_iff.1 hl)

theorem examplePruneHelpers_sort (lbls : List LabelAdapter) :
    (examplePruneHelpers.SortLabelsIfNeeded lbls).Perm lbls ∧
      (examplePruneHelpers.SortLabelsIfNeeded lbls).Pairwise (fun a b => a.Name ≤ b.Name) := by
  haveI : IsTotal LabelAdapter (fun a b => a.Name.data ≤ b.Name.data) :=
    ⟨fun a b => le_total a.Name.data b.Name.data⟩
  haveI : IsTrans LabelAdapter (fun a b => a.Name.data ≤ b.Name.data) :=
    ⟨fun _ _ _ h1 h2 => le_trans h1 h2⟩
  refine ⟨List.perm_insertionSort _ lbls, ?_⟩
  exact (List.sorted_insertionSort (fun a b : LabelAdapter => a.Name.data ≤ b.Name.data)
    lbls).imp (fun hab => String.le_iff_toList_le.2 hab)

theorem examplePruneHelpers_empty (lbls : List LabelAdapter) :
    ∀ l ∈ examplePruneHelpers.RemoveEmptyLabelValues lbls, l.Value ≠ "" := by
  intro l hl
  have := (List.mem_filter.1 hl).2
  simpa using this

theorem PruneTimeseries_spec_witness :
    PruneTimeseries examplePruneHelpers exampleTimeseries "tenant" ["drop"] ["tmp"] =
      [⟨[⟨"a", "1"⟩, ⟨"b", "2"⟩], [⟨1, 1000⟩], []⟩, ⟨[⟨"z", "1"⟩], [⟨4, 1000⟩], []⟩] ∧
    ∀ ts ∈ PruneTimeseries examplePruneHelpers exampleTimeseries "tenant" ["drop"] ["tmp"],
      ts.Labels ≠ [] ∧ (∀ l ∈ ts.Labels, l.Value ≠ "") ∧
        ts.Labels.Pairwise (fun a b => a.Name ≤ b.Name) :=
  ⟨by decide,
    (PruneTimeseries_spec examplePruneHelpers exampleTimeseries "tenant" ["drop"] ["tmp"]
      (fun _ _ _ _ => rfl) examplePruneHelpers_empty examplePruneHelpers_sort).2⟩

end Mimir
